import Mathlib

/-!
# Secure File Vault: content-addressed deduplication and reference counting

A shallow embedding of the Go handlers in `backend/internal/handlers/files.go`
over the record types of `backend/internal/models`.

Modelling conventions.

* The PostgREST tables `users`, `files`, `file_contents`, `shares` and the
  storage bucket are the fields of `Ledger`; a handler is a function from the
  ledger before the request to the ledger after it, paired with the HTTP
  response (`Except HttpError _`: the error carries the status code and the
  `error` string of the JSON body).
* Every PostgREST / storage call can fail; the failure of each call is an
  input of the handler (`UploadEnv`, `DeleteEnv`, `ShareEnv`, `ResolveEnv`), as
  are the values drawn from `uuid.New()` and `time.Now()`.
* `Select(..).Single()` yields an error unless exactly one row matches
  (`single`).
* `int64` sizes are integers wrapped to 64 bits at every addition
  (`wrapInt64`).  `ReferenceCount` and `DownloadCount` have Go type `int`,
  whose width is fixed by the platform; they count stored rows and are kept as
  unbounded integers.
* `sha256`, `http.DetectContentType` and `mime.ParseMediaType` belong to the Go
  standard library and are parameters (`Lib`).
-/

set_option maxRecDepth 100000

namespace FileVault

/-! ## Data model (`models/file.go`, `models/user.go`) -/

/-- A byte string (`[]byte`). -/
abbrev Bytes := List (Fin 256)

/-- Row of the `file_contents` table (`models.FileContent`). -/
structure FileContent where
  ContentID : String := ""
  HashSHA256 : String := ""
  Size : Int := 0
  MimeType : String := ""
  StoragePath : String := ""
  ReferenceCount : Int := 0
  CreatedAt : Nat := 0
deriving DecidableEq, Repr

/-- Row of the `files` table (`models.UserFile`). -/
structure UserFile where
  FileID : String := ""
  OwnerID : String := ""
  ContentID : String := ""
  Filename : String := ""
  IsDeleted : Bool := false
  CreatedAt : Nat := 0
deriving DecidableEq, Repr

/-- Row of the `users` table (`models.User`), with the columns the modelled
handlers read or write. -/
structure User where
  UserID : String := ""
  Username : String := ""
  Email : String := ""
  StorageQuota : Int := 0
  FirstName : String := ""
  EmailVerified : Bool := false
  OTP : String := ""
  OTPExpiresAt : Option Nat := none
deriving DecidableEq, Repr

/-- Row of the `shares` table (`models.Share`). -/
structure Share where
  ShareID : String := ""
  FileID : String := ""
  IsPublic : Bool := false
  CreatedAt : Nat := 0
  ShareToken : String := ""
  DownloadCount : Int := 0
deriving DecidableEq, Repr

/-- The metadata ledger (the four tables) together with the storage bucket,
a store of objects keyed by path. -/
structure Ledger where
  users : List User := []
  files : List UserFile := []
  file_contents : List FileContent := []
  shares : List Share := []
  storage : List (String × Bytes) := []
deriving DecidableEq, Repr

/-- An error response: `c.JSON(status, gin.H{"error": error})`. -/
structure HttpError where
  status : Nat
  error : String
deriving DecidableEq, Repr

/-- The part of `multipart.FileHeader` the upload handler reads:
`header.Filename`, `header.Header.Get("Content-Type")` (empty when the part
declares none) and `header.Size`. -/
structure FileHeader where
  Filename : String := ""
  ContentType : String := ""
  Size : Int := 0
deriving DecidableEq, Repr

/-- Standard-library functions used by the upload handler:
`fmt.Sprintf("%x", sha256(bytes))`, `http.DetectContentType` and
`mime.ParseMediaType` (`none` when it returns an error). -/
structure Lib where
  sha256Hex : Bytes → String
  DetectContentType : Bytes → String
  ParseMediaType : String → Option String

deriving instance DecidableEq for Except

/-! ## Primitives of the collaborators -/

/-- Two's-complement wrap of an integer to `int64`. -/
def wrapInt64 (x : Int) : Int :=
  (x + 9223372036854775808) % 18446744073709551616 - 9223372036854775808

/-- Result of `Single()`: the row when exactly one row matches, an error
otherwise. -/
def single {α : Type} (rows : List α) : Option α :=
  match rows with
  | [r] => some r
  | _ => none

/-- Blob Store `put`: the object at `key` becomes `bytes`. -/
def blobPut (key : String) (bytes : Bytes) (store : List (String × Bytes)) :
    List (String × Bytes) :=
  store.filter (fun o => o.1 ≠ key) ++ [(key, bytes)]

/-- Blob Store `delete`: the object at `key` is removed. -/
def blobRemove (key : String) (store : List (String × Bytes)) : List (String × Bytes) :=
  store.filter (fun o => o.1 ≠ key)

/-- Blob Store `get`. -/
def blobGet (key : String) (store : List (String × Bytes)) : Option Bytes :=
  (store.find? (fun o => o.1 = key)).map (fun o => o.2)

/-! ## `UploadFile` (files.go, lines 21-194) -/

/-- The multipart upload request: the `file` form part (content and header),
if present, and the `owner_id` query parameter. -/
structure UploadRequest where
  formFile : Option (Bytes × FileHeader) := none
  owner_id : String := ""

/-- Inputs of one `UploadFile` call that come from its environment: the four
`uuid.New().String()` draws in source order of use, the two `time.Now()`
readings, and for every fallible call whether it fails. -/
structure UploadEnv where
  storagePath : String := ""
  contentID : String := ""
  nameUUID : String := ""
  fileID : String := ""
  contentNow : Nat := 0
  fileNow : Nat := 0
  readErr : Bool := false
  hashErr : Bool := false
  userQueryErr : Bool := false
  filesQueryErr : Bool := false
  contentsQueryErr : Bool := false
  hashLookupErr : Bool := false
  uploadErr : Bool := false
  insertContentErr : Bool := false
  updateRefErr : Bool := false
  nameQueryErr : Bool := false
  insertFileErr : Bool := false

/-- The 512-byte sniffing buffer after `file.Read(buffer)`: the leading bytes
of the file followed by the zero bytes `make` put there (lines 31-32). -/
def sniffBuffer (file : Bytes) : Bytes :=
  file.take 512 ++ List.replicate (512 - (file.take 512).length) 0

/-- Step 1, MIME validation (lines 30-64). -/
def validateMime (lib : Lib) (env : UploadEnv) (file : Bytes) (header : FileHeader) :
    Except HttpError Unit :=
  if env.readErr || file.isEmpty then
    .error ⟨500, "Failed to read file for MIME type detection"⟩
  else
    let buffer := sniffBuffer file
    let detectedMimeType := lib.DetectContentType buffer
    let declaredMimeTypeHeader := header.ContentType
    if declaredMimeTypeHeader = "" then
      .error ⟨400, "MIME type for the file part is not declared in Content-Type header"⟩
    else
      match lib.ParseMediaType declaredMimeTypeHeader with
      | none =>
        .error ⟨400, "Invalid Content-Type header format: " ++ declaredMimeTypeHeader⟩
      | some parsedDeclaredMimeType =>
        let parsedDetectedMimeType :=
          match lib.ParseMediaType detectedMimeType with
          | some m => m
          | none => detectedMimeType
        if parsedDetectedMimeType ≠ parsedDeclaredMimeType then
          .error ⟨400, "MIME type mismatch: declared " ++ "\x27" ++ parsedDeclaredMimeType
            ++ "\x27" ++ ", detected " ++ "\x27" ++ parsedDetectedMimeType ++ "\x27"⟩
        else
          .ok ()

/-- The map `contentSizes` built by the loop of lines 106-109, as the lookup
function of the Go map (a missing key reads as 0, a later row overwrites an
earlier one with the same `content_id`). -/
def contentSizes (allFileContents : List FileContent) : String → Int :=
  allFileContents.foldl
    (fun m content => fun k => if k = content.ContentID then content.Size else m k)
    (fun _ => 0)

/-- The accumulation `storageUsed += contentSizes[file.ContentID]` over the
fetched files (lines 111-114), in `int64` arithmetic. -/
def storageUsed (userFiles : List UserFile) (allFileContents : List FileContent) : Int :=
  userFiles.foldl (fun acc file => wrapInt64 (acc + contentSizes allFileContents file.ContentID)) 0

/-- Rows returned by the query of line 91: the owner's files with
`is_deleted = false`. -/
def ownerLiveFiles (s : Ledger) (ownerID : String) : List UserFile :=
  s.files.filter (fun f => f.OwnerID = ownerID ∧ f.IsDeleted = false)

/-- The usage that the quota check compares against the quota: `storageUsed`
over the rows fetched at lines 90-104. -/
def quotaUsage (s : Ledger) (ownerID : String) : Int :=
  storageUsed (ownerLiveFiles s ownerID) s.file_contents

/-- Quota check (lines 81-119). -/
def checkQuota (env : UploadEnv) (s : Ledger) (ownerID : String) (header : FileHeader) :
    Except HttpError Unit :=
  match (if env.userQueryErr then none
         else single (s.users.filter (fun u => u.UserID = ownerID))) with
  | none => .error ⟨404, "User not found"⟩
  | some user =>
    if env.filesQueryErr then .error ⟨500, "Failed to fetch user files"⟩
    else if env.contentsQueryErr then .error ⟨500, "Failed to calculate storage usage"⟩
    else if wrapInt64 (quotaUsage s ownerID + header.Size) > user.StorageQuota then
      .error ⟨403, "Storage quota exceeded"⟩
    else .ok ()

/-- Everything `UploadFile` does before it looks the content up (lines 23-119):
form parsing, MIME validation, hashing, owner id and quota.  It reads the
ledger and never writes it.  On success it yields the file content, its header,
the hex digest and the owner id. -/
def validateUpload (lib : Lib) (env : UploadEnv) (req : UploadRequest) (s : Ledger) :
    Except HttpError (Bytes × FileHeader × String × String) :=
  match req.formFile with
  | none => .error ⟨400, "File is required"⟩
  | some (file, header) =>
    match validateMime lib env file header with
    | .error e => .error e
    | .ok () =>
      if env.hashErr then .error ⟨500, "Failed to calculate file hash"⟩
      else
        let hashString := lib.sha256Hex file
        let ownerID := req.owner_id
        if ownerID = "" then .error ⟨400, "Owner ID is required"⟩
        else
          match checkQuota env s ownerID header with
          | .error e => .error e
          | .ok () => .ok (file, header, hashString, ownerID)

/-- The lookup of line 123: `Single()` over the rows whose `hash_sha256` is
the digest. -/
def lookupByHash (env : UploadEnv) (s : Ledger) (hashString : String) : Option FileContent :=
  if env.hashLookupErr then none
  else single (s.file_contents.filter (fun r => r.HashSHA256 = hashString))

/-- The update of line 156: `reference_count` of the rows with the given
`content_id`. -/
def setReferenceCount (rows : List FileContent) (contentID : String) (n : Int) :
    List FileContent :=
  rows.map (fun r => if r.ContentID = contentID then { r with ReferenceCount := n } else r)

/-- Steps 2-3 (lines 121-162): dedup lookup, then either the physical upload
and a new `file_contents` row, or the increment of the existing row. -/
def storeContent (env : UploadEnv) (s : Ledger) (file : Bytes) (header : FileHeader)
    (hashString : String) : Ledger × Except HttpError FileContent :=
  match lookupByHash env s hashString with
  | none =>
    let storagePath := env.storagePath
    if env.uploadErr then (s, .error ⟨500, "Failed to upload file"⟩)
    else
      let s1 := { s with storage := blobPut ("uploads/" ++ storagePath) file s.storage }
      let fileContent : FileContent :=
        { ContentID := env.contentID
          HashSHA256 := hashString
          Size := header.Size
          MimeType := header.ContentType
          StoragePath := storagePath
          ReferenceCount := 1
          CreatedAt := env.contentNow }
      if env.insertContentErr then (s1, .error ⟨500, "Failed to create file content entry"⟩)
      else ({ s1 with file_contents := s1.file_contents ++ [fileContent] }, .ok fileContent)
  | some fileContent =>
    let newRefCount := fileContent.ReferenceCount + 1
    if env.updateRefErr then (s, .error ⟨500, "Failed to increment reference count"⟩)
    else
      ({ s with file_contents :=
          setReferenceCount s.file_contents fileContent.ContentID newRefCount },
       .ok fileContent)

/-- The first eight bytes of a UUID string, `uuid.New().String()[:8]`. -/
def first8 (u : String) : String := String.mk (u.data.take 8)

/-- Step 4 (lines 164-192): choice of the stored filename and insertion of
the `files` row. -/
def createLogicalFile (env : UploadEnv) (s : Ledger) (ownerID : String)
    (header : FileHeader) (fileContent : FileContent) : Ledger × Except HttpError UserFile :=
  let finalFilename := header.Filename
  if env.nameQueryErr then (s, .error ⟨500, "Failed to check for existing filename"⟩)
  else
    let existingUserFiles :=
      s.files.filter (fun f => f.OwnerID = ownerID ∧ f.Filename = finalFilename)
    let finalFilename :=
      if existingUserFiles.length > 0 then first8 env.nameUUID ++ "-" ++ header.Filename
      else finalFilename
    let newFile : UserFile :=
      { FileID := env.fileID
        OwnerID := ownerID
        ContentID := fileContent.ContentID
        Filename := finalFilename
        CreatedAt := env.fileNow }
    if env.insertFileErr then (s, .error ⟨500, "Failed to create file entry"⟩)
    else ({ s with files := s.files ++ [newFile] }, .ok newFile)

/-- The handler `UploadFile`: ledger after the request and response. -/
def UploadFile (lib : Lib) (env : UploadEnv) (req : UploadRequest) (s : Ledger) :
    Ledger × Except HttpError UserFile :=
  match validateUpload lib env req s with
  | .error e => (s, .error e)
  | .ok (file, header, hashString, ownerID) =>
    match storeContent env s file header hashString with
    | (s1, .error e) => (s1, .error e)
    | (s1, .ok fileContent) => createLogicalFile env s1 ownerID header fileContent

/-! ## `DeleteFile` (files.go, lines 585-657) -/

/-- The delete request: the `id` path parameter and the `user_id` query
parameter. -/
structure DeleteRequest where
  id : String := ""
  user_id : String := ""

/-- For every fallible call of `DeleteFile`, whether it fails. -/
structure DeleteEnv where
  fileQueryErr : Bool := false
  softDeleteErr : Bool := false
  contentQueryErr : Bool := false
  updateRefErr : Bool := false
  removeFileErr : Bool := false
  deleteRowErr : Bool := false

/-- The update of line 613: `is_deleted = true` on the rows with the given
`file_id`. -/
def markDeleted (rows : List UserFile) (fileID : String) : List UserFile :=
  rows.map (fun f => if f.FileID = fileID then { f with IsDeleted := true } else f)

/-- The handler `DeleteFile`: ledger after the request and response (`.ok ()`
is status 204). -/
def DeleteFile (env : DeleteEnv) (req : DeleteRequest) (s : Ledger) :
    Ledger × Except HttpError Unit :=
  let fileID := req.id
  if fileID = "" then (s, .error ⟨400, "File ID is required"⟩)
  else
    let userID := req.user_id
    if userID = "" then (s, .error ⟨400, "User ID is required"⟩)
    else
      match (if env.fileQueryErr then none
             else single (s.files.filter (fun f => f.FileID = fileID))) with
      | none => (s, .error ⟨404, "File not found"⟩)
      | some userFile =>
        if userFile.OwnerID ≠ userID then
          (s, .error ⟨403, "You do not have permission to delete this file"⟩)
        else if env.softDeleteErr then (s, .error ⟨500, "Failed to delete file"⟩)
        else
          let s1 := { s with files := markDeleted s.files fileID }
          match (if env.contentQueryErr then none
                 else single (s1.file_contents.filter
                   (fun r => r.ContentID = userFile.ContentID))) with
          | none => (s1, .error ⟨500, "Failed to update file references"⟩)
          | some fileContent =>
            let newRefCount := fileContent.ReferenceCount - 1
            if env.updateRefErr then (s1, .error ⟨500, "Failed to update file references"⟩)
            else
              let rows := setReferenceCount s1.file_contents userFile.ContentID newRefCount
              let s2 := { s1 with file_contents := rows }
              if newRefCount = 0 then
                let s3 :=
                  if env.removeFileErr then s2
                  else
                    { s2 with
                      storage := blobRemove ("uploads/" ++ fileContent.StoragePath) s2.storage }
                let s4 :=
                  if env.deleteRowErr then s3
                  else
                    { s3 with
                      file_contents :=
                        s3.file_contents.filter (fun r => r.ContentID ≠ fileContent.ContentID) }
                (s4, .ok ())
              else (s2, .ok ())

/-! ## `ListFiles` (files.go, lines 196-220) -/

/-- Row of a listing (`models.FileSearchResult`): the selected `files` columns
and the embedded `file_contents(size,mime_type)`.  `owner_id` is not selected
by `ListFiles` and stays empty. -/
structure FileSearchResult where
  FileID : String := ""
  OwnerID : String := ""
  Filename : String := ""
  IsDeleted : Bool := false
  CreatedAt : Nat := 0
  Size : Int := 0
  MimeType : String := ""
deriving DecidableEq, Repr

/-- The embedded resource `file_contents(size,mime_type)` of a `files` row: the
columns of the row its `content_id` refers to, zero values when there is
none. -/
def embedContent (s : Ledger) (contentID : String) : Int × String :=
  match s.file_contents.find? (fun r => r.ContentID = contentID) with
  | some r => (r.Size, r.MimeType)
  | none => (0, "")

/-- The handler `ListFiles` for the `owner_id` query parameter; `queryErr` tells
whether the query fails.  The handler writes nothing. -/
def ListFiles (queryErr : Bool) (ownerID : String) (s : Ledger) :
    Except HttpError (List FileSearchResult) :=
  if ownerID = "" then .error ⟨400, "Owner ID is required"⟩
  else if queryErr then .error ⟨500, "Failed to list files"⟩
  else
    .ok ((ownerLiveFiles s ownerID).map (fun f =>
      { FileID := f.FileID
        Filename := f.Filename
        IsDeleted := f.IsDeleted
        CreatedAt := f.CreatedAt
        Size := (embedContent s f.ContentID).1
        MimeType := (embedContent s f.ContentID).2 }))

/-! ## `ShareFile` (files.go, lines 222-291) -/

/-- The share request: the `id` path parameter and the `userID` that the
authentication middleware stored in the context. -/
structure ShareRequest where
  id : String := ""
  userID : String := ""

/-- Inputs of one `ShareFile` call that come from its environment: the
`uuid.New().String()` draws for the share id and for the token, `time.Now()`,
and for every fallible call whether it fails. -/
structure ShareEnv where
  shareID : String := ""
  shareToken : String := ""
  now : Nat := 0
  fileQueryErr : Bool := false
  shareQueryErr : Bool := false
  insertErr : Bool := false
  updateErr : Bool := false

/-- The update of line 278: `is_public` and `share_token` of the rows with the
given `share_id`. -/
def setShareStatus (rows : List Share) (shareID : String) (isPublic : Bool) (token : String) :
    List Share :=
  rows.map (fun r =>
    if r.ShareID = shareID then { r with IsPublic := isPublic, ShareToken := token } else r)

/-- The handler `ShareFile`: ledger after the request and response, the pair
(`share_token`, `is_public`) on success. -/
def ShareFile (env : ShareEnv) (req : ShareRequest) (s : Ledger) :
    Ledger × Except HttpError (String × Bool) :=
  let fileID := req.id
  if fileID = "" then (s, .error ⟨400, "File ID is required"⟩)
  else
    let ownerID := req.userID
    if ownerID = "" then (s, .error ⟨401, "Unauthorized"⟩)
    else
      match (if env.fileQueryErr then none
             else single (s.files.filter (fun f => f.FileID = fileID))) with
      | none => (s, .error ⟨404, "File not found or not owned by user"⟩)
      | some userFile =>
        if userFile.OwnerID ≠ ownerID then
          (s, .error ⟨403, "You do not have permission to share this file"⟩)
        else
          match (if env.shareQueryErr then none
                 else single (s.shares.filter (fun r => r.FileID = fileID))) with
          | none =>
            let share : Share :=
              { ShareID := env.shareID
                FileID := fileID
                IsPublic := true
                ShareToken := env.shareToken
                CreatedAt := env.now }
            if env.insertErr then (s, .error ⟨500, "Failed to create share entry"⟩)
            else ({ s with shares := s.shares ++ [share] }, .ok (share.ShareToken, share.IsPublic))
          | some share0 =>
            let share : Share :=
              { share0 with IsPublic := !share0.IsPublic, ShareToken := env.shareToken }
            if env.updateErr then (s, .error ⟨500, "Failed to update share status"⟩)
            else
              let rows := setShareStatus s.shares share.ShareID share.IsPublic share.ShareToken
              ({ s with shares := rows }, .ok (share.ShareToken, share.IsPublic))

/-! ## `GetPublicShare` and `DownloadPublicShare` (files.go, lines 293-416) -/

/-- For every fallible call of the two public-share handlers, whether it
fails. -/
structure ResolveEnv where
  shareQueryErr : Bool := false
  updateErr : Bool := false
  fileQueryErr : Bool := false
  contentQueryErr : Bool := false
  ownerQueryErr : Bool := false
  downloadErr : Bool := false

/-- JSON body of a successful `GetPublicShare`. -/
structure PublicShareInfo where
  file_id : String
  filename : String
  mime_type : String
  size : Int
  download_count : Int
  owner_username : String
  created_at : Nat
deriving DecidableEq, Repr

/-- Response of a successful `DownloadPublicShare`: the `Content-Disposition`
header, the number written in `Content-Length`, the content type and the
body. -/
structure DownloadResponse where
  contentDisposition : String
  contentLength : Int
  contentType : String
  data : Bytes
deriving DecidableEq, Repr

/-- The update of lines 317 and 383: `download_count` of the rows with the
given `share_id`. -/
def setDownloadCount (rows : List Share) (shareID : String) (n : Int) : List Share :=
  rows.map (fun r => if r.ShareID = shareID then { r with DownloadCount := n } else r)

/-- Lines 302-321 and 368-387, common to both handlers: lookup of the share by
token, the `is_public` test and the best-effort increment of
`download_count`.  On success it yields the ledger after the increment, the
share as fetched and the new count. -/
def resolveShare (env : ResolveEnv) (shareToken : String) (s : Ledger) :
    Except HttpError (Ledger × Share × Int) :=
  if shareToken = "" then .error ⟨400, "Share token is required"⟩
  else
    match (if env.shareQueryErr then none
           else single (s.shares.filter (fun r => r.ShareToken = shareToken))) with
    | none => .error ⟨404, "Public share not found or invalid token"⟩
    | some share =>
      if !share.IsPublic then .error ⟨403, "This file is not publicly shared"⟩
      else
        let newCount := share.DownloadCount + 1
        let s1 :=
          if env.updateErr then s
          else { s with shares := setDownloadCount s.shares share.ShareID newCount }
        .ok (s1, share, newCount)

/-- The handler `GetPublicShare`.  The `files` query selects
`file_id,filename,content_id,owner_id`, so `created_at` of the answer is the
zero time (written 0); a failed owner lookup leaves the username empty. -/
def GetPublicShare (env : ResolveEnv) (shareToken : String) (s : Ledger) :
    Ledger × Except HttpError PublicShareInfo :=
  match resolveShare env shareToken s with
  | .error e => (s, .error e)
  | .ok (s1, share, newCount) =>
    match (if env.fileQueryErr then none
           else single (s1.files.filter (fun f => f.FileID = share.FileID))) with
    | none => (s1, .error ⟨404, "File associated with share not found"⟩)
    | some userFile =>
      match (if env.contentQueryErr then none
             else single (s1.file_contents.filter
               (fun r => r.ContentID = userFile.ContentID))) with
      | none => (s1, .error ⟨500, "File content not found"⟩)
      | some fileContent =>
        let ownerUsername :=
          match (if env.ownerQueryErr then none
                 else single (s1.users.filter (fun u => u.UserID = userFile.OwnerID))) with
          | some owner => owner.Username
          | none => ""
        (s1, .ok
          { file_id := userFile.FileID
            filename := userFile.Filename
            mime_type := fileContent.MimeType
            size := fileContent.Size
            download_count := newCount
            owner_username := ownerUsername
            created_at := 0 })

/-- The handler `DownloadPublicShare`. -/
def DownloadPublicShare (env : ResolveEnv) (shareToken : String) (s : Ledger) :
    Ledger × Except HttpError DownloadResponse :=
  match resolveShare env shareToken s with
  | .error e => (s, .error e)
  | .ok (s1, share, _) =>
    match (if env.fileQueryErr then none
           else single (s1.files.filter (fun f => f.FileID = share.FileID))) with
    | none => (s1, .error ⟨404, "File associated with share not found"⟩)
    | some userFile =>
      match (if env.contentQueryErr then none
             else single (s1.file_contents.filter
               (fun r => r.ContentID = userFile.ContentID))) with
      | none => (s1, .error ⟨500, "File content not found"⟩)
      | some fileContent =>
        match (if env.downloadErr then none
               else blobGet ("uploads/" ++ fileContent.StoragePath) s1.storage) with
        | none => (s1, .error ⟨500, "Failed to download file"⟩)
        | some file =>
          (s1, .ok
            { contentDisposition := "attachment; filename=" ++ userFile.Filename
              contentLength := fileContent.Size
              contentType := fileContent.MimeType
              data := file })

/-! ## `GetStats` (files.go, lines 454-507) -/

/-- The embedded resource `file_contents(*)` of a `files` row, decoded into
`models.FileContent`: the row its `content_id` refers to, the zero value when
there is none. -/
def embedFullContent (s : Ledger) (contentID : String) : FileContent :=
  match s.file_contents.find? (fun r => r.ContentID = contentID) with
  | some r => r
  | none => {}

/-- Rows `userFilesWithContent` fetched at line 474: the embedded content of
each non-deleted file of the user. -/
def statsRows (s : Ledger) (userID : String) : List FileContent :=
  (ownerLiveFiles s userID).map (fun f => embedFullContent s f.ContentID)

/-- Assignment `m[k] = v` on a Go map held as a list of entries with distinct
keys. -/
def mapStore (m : List (String × Int)) (k : String) (v : Int) : List (String × Int) :=
  if m.any (fun e => e.1 = k) then m.map (fun e => if e.1 = k then (k, v) else e)
  else m ++ [(k, v)]

/-- The accumulation `originalSize += file.FileContent.Size` of lines 481-486,
in `int64` arithmetic. -/
def originalSize (rows : List FileContent) : Int :=
  rows.foldl (fun acc r => wrapInt64 (acc + r.Size)) 0

/-- The map `deduplicatedSizeMap` after the loop of lines 483-486. -/
def deduplicatedSizeMap (rows : List FileContent) : List (String × Int) :=
  rows.foldl (fun m r => mapStore m r.ContentID r.Size) []

/-- The sum of lines 488-491 over the values of the map, in `int64` arithmetic.
Go ranges over a map in no fixed order; the entries are taken here in the order
of the list, and `deduplicatedSize_perm` shows that the order does not change
the sum. -/
def deduplicatedSize (m : List (String × Int)) : Int :=
  m.foldl (fun acc e => wrapInt64 (acc + e.2)) 0

/-- JSON body of a successful `GetStats`.  The percentage is a `float64`
computed as `(float64(savingsBytes) / float64(originalSize)) * 100` when
`originalSize > 0` and left at 0 otherwise; `savingsDivision` records the operands
of that division, `none` when no division is made. -/
structure Stats where
  storage_quota : Int
  total_storage_used_deduplicated : Int
  original_storage_usage : Int
  storage_savings_bytes : Int
  savingsDivision : Option (Int × Int)
deriving DecidableEq, Repr

/-- The handler `GetStats` for the `user_id` query parameter; the two flags
tell whether the `users` query and the `files` query fail.  The handler writes
nothing. -/
def GetStats (userQueryErr filesQueryErr : Bool) (userID : String) (s : Ledger) :
    Except HttpError Stats :=
  if userID = "" then .error ⟨400, "User ID is required"⟩
  else
    match (if userQueryErr then none
           else single (s.users.filter (fun u => u.UserID = userID))) with
    | none => .error ⟨404, "User not found"⟩
    | some user =>
      if filesQueryErr then .error ⟨500, "Failed to fetch user files"⟩
      else
        let userFilesWithContent := statsRows s userID
        let original := originalSize userFilesWithContent
        let deduplicated := deduplicatedSize (deduplicatedSizeMap userFilesWithContent)
        let savingsBytes := wrapInt64 (original - deduplicated)
        .ok
          { storage_quota := user.StorageQuota
            total_storage_used_deduplicated := deduplicated
            original_storage_usage := original
            storage_savings_bytes := savingsBytes
            savingsDivision := if original > 0 then some (savingsBytes, original) else none }

/-! ## `SearchFiles` (files.go, lines 659-728) -/

/-- The query parameters of `SearchFiles`; an absent parameter is the empty
string. -/
structure SearchQuery where
  owner_id : String := ""
  mime_type : String := ""
  min_size : String := ""
  max_size : String := ""
  filename : String := ""
  start_date : String := ""
  end_date : String := ""

/-- Conversions made outside the repository: `strconv.Atoi` (`none` when it
returns an error; the database reads the same text as the same integer) and the
database's reading of a timestamp literal (`none` when it rejects the
text). -/
structure QueryLib where
  Atoi : String → Option Int
  parseTimestamp : String → Option Nat

/-- An element of a `LIKE` pattern. -/
inductive LikeToken where
  | anySeq
  | anyOne
  | lit (c : Char)
deriving DecidableEq, Repr

/-- Reading of a `LIKE` pattern by the database: `%` stands for any sequence,
`_` for any one character, a backslash makes the next character literal; a
pattern that ends in a lone backslash is rejected (`none`). -/
def likeTokens : List Char → Option (List LikeToken)
  | [] => some []
  | c :: p =>
    if c = '\\' then
      match p with
      | [] => none
      | c2 :: p2 => (likeTokens p2).map (fun ts => LikeToken.lit c2 :: ts)
    else
      (likeTokens p).map (fun ts =>
        (if c = '%' then LikeToken.anySeq
         else if c = '_' then LikeToken.anyOne else LikeToken.lit c) :: ts)

/-- Whether a text matches a tokenised `LIKE` pattern. -/
def likeMatch : List LikeToken → List Char → Bool
  | [], s => s.isEmpty
  | .anySeq :: p, s => s.tails.any (fun t => likeMatch p t)
  | .anyOne :: p, s =>
    match s with
    | [] => false
    | _ :: rest => likeMatch p rest
  | .lit c :: p, s =>
    match s with
    | [] => false
    | x :: rest => x = c && likeMatch p rest

/-- The pattern PostgREST hands to the database for `Like(column, pattern)`:
`*` is its alias of `%`. -/
def postgrestLikePattern (pattern : String) : List Char :=
  pattern.data.map (fun c => if c = '*' then '%' else c)

/-- The embedded filters of lines 688-704 on the content row of a file: the
`mime_type` equality and the size bounds whose text `strconv.Atoi` accepts. -/
def embeddedFiltersPass (ql : QueryLib) (q : SearchQuery) (r : FileContent) : Bool :=
  (q.mime_type = "" || r.MimeType = q.mime_type) &&
  (match (if q.min_size = "" then none else ql.Atoi q.min_size) with
   | some n => decide (n ≤ r.Size)
   | none => true) &&
  (match (if q.max_size = "" then none else ql.Atoi q.max_size) with
   | some n => decide (r.Size ≤ n)
   | none => true)

/-- The handler `SearchFiles`; `queryErr` tells whether the query fails for a
reason of its own.  The query also fails when the database rejects the `LIKE`
pattern or a date.  The handler writes nothing. -/
def SearchFiles (ql : QueryLib) (queryErr : Bool) (q : SearchQuery) (s : Ledger) :
    Except HttpError (List FileSearchResult) :=
  let ownerID := q.owner_id
  if ownerID = "" then .error ⟨400, "Owner ID is required"⟩
  else
    let needsFileContentsJoin := q.mime_type ≠ "" ∨ q.min_size ≠ "" ∨ q.max_size ≠ ""
    let rows0 := ownerLiveFiles s ownerID
    -- embedded resource with its filters; `!inner` drops the files left without one
    let embedded := fun (f : UserFile) =>
      (s.file_contents.find? (fun r => r.ContentID = f.ContentID)).filter
        (embeddedFiltersPass ql q)
    let rows1 : List UserFile :=
      if needsFileContentsJoin then rows0.filter (fun f => (embedded f).isSome) else rows0
    let pattern : Option (List LikeToken) :=
      if q.filename = "" then some []
      else likeTokens (postgrestLikePattern ("%" ++ q.filename ++ "%"))
    let startDate : Option (Option Nat) :=
      if q.start_date = "" then some none else (ql.parseTimestamp q.start_date).map some
    let endDate : Option (Option Nat) :=
      if q.end_date = "" then some none else (ql.parseTimestamp q.end_date).map some
    match pattern, startDate, endDate with
    | some pat, some start, some stop =>
      if queryErr then .error ⟨500, "Failed to search files"⟩
      else
        let rows2 : List UserFile :=
          if q.filename = "" then rows1 else rows1.filter (fun f => likeMatch pat f.Filename.data)
        let rows3 : List UserFile :=
          match start with
          | some t => rows2.filter (fun f => decide (t ≤ f.CreatedAt))
          | none => rows2
        let rows4 : List UserFile :=
          match stop with
          | some t => rows3.filter (fun f => decide (f.CreatedAt ≤ t))
          | none => rows3
        .ok (rows4.map (fun f =>
          { FileID := f.FileID
            Filename := f.Filename
            IsDeleted := f.IsDeleted
            CreatedAt := f.CreatedAt
            Size := match embedded f with
              | some r => r.Size
              | none => 0
            MimeType := match embedded f with
              | some r => r.MimeType
              | none => "" }))
    | _, _, _ => .error ⟨500, "Failed to search files"⟩

/-! ## `ResendOTP` (users.go, lines 281-335) -/

/-- The request of `ResendOTP`: whether the JSON body can be bound, and its
`email` field. -/
structure ResendRequest where
  bodyOk : Bool := true
  email : String := ""

/-- Inputs of one `ResendOTP` call that come from its environment: the six
digits drawn for the OTP, `time.Now()`, the text of the error value of a
failing call, and for every fallible call whether it fails. -/
structure ResendEnv where
  otp : String := ""
  now : Nat := 0
  errText : String := ""
  queryErr : Bool := false
  unmarshalErr : Bool := false
  updateErr : Bool := false
  sendErr : Bool := false

/-- How a `ResendOTP` run ends: with a JSON response (status and the text of
its `error` or `message` field), or with the run-time panic of an index
expression `existingUsers[index]` on a slice of length `len`. -/
inductive ResendResult where
  | response (status : Nat) (text : String)
  | indexOutOfRange (index len : Nat)
deriving DecidableEq, Repr

/-- The handler `ResendOTP`: ledger after the request and how the run ends.
`existingUsers` holds `first_name` and `email_verified` of the rows whose email
is the requested one; the two reads of `existingUsers[0]` are those of lines 308
and 329.  Fifteen minutes are 900 units of the clock. -/
def ResendOTP (env : ResendEnv) (req : ResendRequest) (s : Ledger) : Ledger × ResendResult :=
  if !req.bodyOk || req.email = "" then (s, .response 400 env.errText)
  else if env.queryErr then
    (s, .response 500 ("Failed to check user verification status: " ++ env.errText))
  else if env.unmarshalErr then
    (s, .response 500 ("Failed to unmarshal user data: " ++ env.errText))
  else
    let existingUsers :=
      (s.users.filter (fun u => u.Email = req.email)).map (fun u => (u.FirstName, u.EmailVerified))
    if existingUsers.length > 0 ∧ (existingUsers.head?.map (fun u => u.2)) = some true then
      (s, .response 400 "Email is already verified.")
    else
      let otp := env.otp
      let otpExpiresAt := env.now + 900
      if env.updateErr then (s, .response 500 ("Failed to update OTP: " ++ env.errText))
      else
        let users := s.users.map (fun u =>
          if u.Email = req.email then { u with OTP := otp, OTPExpiresAt := some otpExpiresAt }
          else u)
        let s1 := { s with users := users }
        match existingUsers.head? with
        | none => (s1, .indexOutOfRange 0 existingUsers.length)
        | some _ => (s1, .response 200 "A new OTP has been sent to your email.")

/-! ## Sequences of calls -/

/-- A call of one of the two handlers that write `file_contents`. -/
inductive Call where
  | upload (env : UploadEnv) (req : UploadRequest)
  | delete (env : DeleteEnv) (req : DeleteRequest)

/-- Every call made by the `UploadFile` run succeeds. -/
def UploadEnv.allSucceed (env : UploadEnv) : Prop :=
  env.readErr = false ∧ env.hashErr = false ∧ env.userQueryErr = false ∧
  env.filesQueryErr = false ∧ env.contentsQueryErr = false ∧ env.hashLookupErr = false ∧
  env.uploadErr = false ∧ env.insertContentErr = false ∧ env.updateRefErr = false ∧
  env.nameQueryErr = false ∧ env.insertFileErr = false

/-- Every call made by the `DeleteFile` run succeeds. -/
def DeleteEnv.allSucceed (env : DeleteEnv) : Prop :=
  env.fileQueryErr = false ∧ env.softDeleteErr = false ∧ env.contentQueryErr = false ∧
  env.updateRefErr = false ∧ env.removeFileErr = false ∧ env.deleteRowErr = false

/-- Every ledger and Blob Store call made by the handler run succeeds. -/
def Call.allSucceed : Call → Prop
  | .upload env _ => env.allSucceed
  | .delete env _ => env.allSucceed

/-- Ledger after one call. -/
def applyCall (lib : Lib) (s : Ledger) : Call → Ledger
  | .upload env req => (UploadFile lib env req s).1
  | .delete env req => (DeleteFile env req s).1

/-- Ledger after a sequence of calls, run one after the other. -/
def runCalls (lib : Lib) (s : Ledger) (calls : List Call) : Ledger :=
  calls.foldl (applyCall lib) s

/-- A ledger with users and no file, content, share or stored object. -/
def emptyLedger (users : List User) : Ledger := { users := users }

/-- The keys of the objects held by the Blob Store. -/
def storedKeys (s : Ledger) : List String := s.storage.map (fun o => o.1)

/-! ## Quantities the specification speaks of -/

/-- Size recorded for a content id: the `size` of the `file_contents` row
with that `content_id`, 0 when there is none. -/
def blobSize (s : Ledger) (contentID : String) : Int :=
  match s.file_contents.find? (fun r => r.ContentID = contentID) with
  | some r => r.Size
  | none => 0

/-- Usage in the words of the specification: the sum of `size` over the
distinct `content_id`s referenced by the owner's non-deleted files. -/
def dedupUsage (s : Ledger) (ownerID : String) : Int :=
  ((((ownerLiveFiles s ownerID).map (fun f => f.ContentID)).dedup).map (blobSize s)).sum

/-- Usage counted once per logical file: the sum, over the owner's non-deleted
files, of the size recorded for the file's content. -/
def perFileUsage (s : Ledger) (ownerID : String) : Int :=
  ((ownerLiveFiles s ownerID).map (fun f => blobSize s f.ContentID)).sum

/-- Number of non-deleted `files` rows whose `content_id` is the given one. -/
def liveReferences (s : Ledger) (contentID : String) : Nat :=
  (s.files.filter (fun f => f.ContentID = contentID ∧ f.IsDeleted = false)).length

/-- The `content_id` column is a key of `file_contents`. -/
abbrev ContentKeysUnique (s : Ledger) : Prop :=
  (s.file_contents.map (fun r => r.ContentID)).Nodup

/-- The `hash_sha256` column is unique in `file_contents`. -/
abbrev HashesUnique (s : Ledger) : Prop :=
  (s.file_contents.map (fun r => r.HashSHA256)).Nodup

/-- The `file_id` column is a key of `files`. -/
abbrev FileKeysUnique (s : Ledger) : Prop :=
  (s.files.map (fun f => f.FileID)).Nodup

/-- The `share_token` column is unique in `shares`. -/
abbrev TokensUnique (s : Ledger) : Prop :=
  (s.shares.map (fun r => r.ShareToken)).Nodup

/-- The `share_id` column is a key of `shares`. -/
abbrev ShareKeysUnique (s : Ledger) : Prop :=
  (s.shares.map (fun r => r.ShareID)).Nodup

/-! ## Concrete inputs used to evaluate the handlers -/

/-- An instance of the library parameters for evaluating examples: the digest
renders the bytes one character per byte (so distinct contents have distinct
digests), every content is sniffed as plain text, and a media type is parsed by
dropping its parameters. -/
def sampleLib : Lib where
  sha256Hex := fun b => String.mk (b.map (fun x => Char.ofNat (x.val + 48)))
  DetectContentType := fun _ => "text/plain; charset=utf-8"
  ParseMediaType := fun h =>
    if h = "" then none else some (String.mk (h.data.takeWhile (fun c => c ≠ ';')))

/-- A ledger holding one user `u1` with the given quota and nothing else. -/
def emptyLedgerWithQuota (quota : Int) : Ledger :=
  { users := [{ UserID := "u1", Username := "alice", StorageQuota := quota }] }

/-- File A of the quota scenario: 600 bytes. -/
def bytesA : Bytes := List.replicate 600 65

/-- File C of the quota scenario: 500 bytes, different from A. -/
def bytesC : Bytes := List.replicate 500 67

/-- Upload of `bytesA` under the name `a.txt` by `u1`. -/
def reqA : UploadRequest :=
  { formFile := some (bytesA, { Filename := "a.txt", ContentType := "text/plain", Size := 600 })
    owner_id := "u1" }

/-- Upload of the same bytes as A under the name `b.txt` by `u1`. -/
def reqB : UploadRequest :=
  { formFile := some (bytesA, { Filename := "b.txt", ContentType := "text/plain", Size := 600 })
    owner_id := "u1" }

/-- Upload of `bytesC` under the name `c.txt` by `u1`. -/
def reqC : UploadRequest :=
  { formFile := some (bytesC, { Filename := "c.txt", ContentType := "text/plain", Size := 500 })
    owner_id := "u1" }

/-- Environment of the first upload: fresh identifiers, no failure. -/
def envA : UploadEnv :=
  { storagePath := "path-1", contentID := "content-1", nameUUID := "1a1a1a1a-0001",
    fileID := "file-1", contentNow := 1, fileNow := 1 }

/-- Environment of the second upload: fresh identifiers, no failure. -/
def envB : UploadEnv :=
  { storagePath := "path-2", contentID := "content-2", nameUUID := "2b2b2b2b-0002",
    fileID := "file-2", contentNow := 2, fileNow := 2 }

/-- Environment of the third upload: fresh identifiers, no failure. -/
def envC : UploadEnv :=
  { storagePath := "path-3", contentID := "content-3", nameUUID := "3c3c3c3c-0003",
    fileID := "file-3", contentNow := 3, fileNow := 3 }

/-- Ledger after `u1`, with the given quota, has uploaded A and then B. -/
def afterAB (quota : Int) : Ledger :=
  (UploadFile sampleLib envB reqB (UploadFile sampleLib envA reqA (emptyLedgerWithQuota quota)).1).1

/-- Ledger after `u1`, with the given quota, has uploaded A, B and then the
same bytes a third time. -/
def afterABB (quota : Int) : Ledger :=
  (UploadFile sampleLib envC reqB (afterAB quota)).1

/-- Ledger of the quota scenario after the first upload (A, quota 1000). -/
def afterA : Ledger :=
  (UploadFile sampleLib envA reqA (emptyLedgerWithQuota 1000)).1

/-- Delete request of `u1` for the file created by the first upload. -/
def delFile1 : DeleteRequest := { id := "file-1", user_id := "u1" }

/-- Delete request of `u1` for the file created by the second upload. -/
def delFile2 : DeleteRequest := { id := "file-2", user_id := "u1" }

/-- Ledger after three uploads of the same bytes by `u1` followed by two
`DeleteFile` calls for the first file, every call succeeding. -/
def afterDoubleDelete : Ledger :=
  (DeleteFile {} delFile1 (DeleteFile {} delFile1 (afterABB 2000)).1).1

/-- The `file_contents` row created by the first upload, with the given
reference count. -/
def contentRowA (n : Int) : FileContent :=
  { ContentID := "content-1", HashSHA256 := sampleLib.sha256Hex bytesA, Size := 600,
    MimeType := "text/plain", StoragePath := "path-1", ReferenceCount := n, CreatedAt := 1 }

/-- The `files` row created by the first upload. -/
def fileRow1 : UserFile :=
  { FileID := "file-1", OwnerID := "u1", ContentID := "content-1", Filename := "a.txt",
    CreatedAt := 1 }

/-- The `files` row created by the second upload (same bytes, name `b.txt`). -/
def fileRow2 : UserFile :=
  { FileID := "file-2", OwnerID := "u1", ContentID := "content-1", Filename := "b.txt",
    CreatedAt := 2 }

/-- Header of the part uploaded by `reqA`. -/
def headerA : FileHeader := { Filename := "a.txt", ContentType := "text/plain", Size := 600 }

/-- Header of the part uploaded by `reqB`. -/
def headerB : FileHeader := { Filename := "b.txt", ContentType := "text/plain", Size := 600 }

/-- File D: 400 bytes, different from A. -/
def bytesD : Bytes := List.replicate 400 68

/-- Header of the part uploaded by `reqD`. -/
def headerD : FileHeader := { Filename := "d.txt", ContentType := "text/plain", Size := 400 }

/-- Upload of `bytesD` under the name `d.txt` by `u1`. -/
def reqD : UploadRequest := { formFile := some (bytesD, headerD), owner_id := "u1" }

/-- The `users` row of `u1` with quota 1000. -/
def userU1 : User := { UserID := "u1", Username := "alice", StorageQuota := 1000 }

/-- Environment of the first upload in which the insert of the `files` row
fails. -/
def envFileInsertFails : UploadEnv := { envA with insertFileErr := true }

/-- Environment of the first upload in which the Blob Store write fails. -/
def envBlobWriteFails : UploadEnv := { envA with uploadErr := true }

/-- Two uploads of the same bytes by `u1` (quota 2000) followed by the delete
of the first file, every call succeeding. -/
def uploadsThenDelete : List Call :=
  [.upload envA reqA, .upload envB reqB, .delete {} delFile1]

/-- Ledger after `uploadsThenDelete`: the first file is soft-deleted, the second
is live and the shared content row has reference count 1. -/
def afterFirstDelete : Ledger :=
  runCalls sampleLib (emptyLedger [{ UserID := "u1", Username := "alice", StorageQuota := 2000 }])
    uploadsThenDelete

/-- Delete request for the first file made by another user, `u2`. -/
def delFile1ByOther : DeleteRequest := { id := "file-1", user_id := "u2" }

/-- Environment of a delete in which the Blob Store removal fails. -/
def envRemoveFails : DeleteEnv := { removeFileErr := true }

/-- Display names are pairwise distinct among the owner's non-deleted files. -/
abbrev NamesUnique (s : Ledger) (ownerID : String) : Prop :=
  ((ownerLiveFiles s ownerID).map (fun f => f.Filename)).Nodup

/-- Upload by `u1` of the bytes of A under a name that has the form of a
disambiguated `a.txt`. -/
def reqPrefixedName : UploadRequest :=
  { formFile := some (bytesA,
      { Filename := "2b2b2b2b-a.txt", ContentType := "text/plain", Size := 600 })
    owner_id := "u1" }

/-- Ledger in which `u1` (quota 2000) holds the files `a.txt` and
`2b2b2b2b-a.txt`. -/
def afterPrefixedName : Ledger :=
  (UploadFile sampleLib envC reqPrefixedName
    (UploadFile sampleLib envA reqA (emptyLedgerWithQuota 2000)).1).1

/-- Ledger after `u1` (quota 2000) has uploaded `a.txt`. -/
def afterA2000 : Ledger :=
  (UploadFile sampleLib envA reqA (emptyLedgerWithQuota 2000)).1

/-- The `files` row created by a second upload named `a.txt` in environment
`envB`. -/
def fileRow2Renamed : UserFile :=
  { FileID := "file-2", OwnerID := "u1", ContentID := "content-1",
    Filename := "2b2b2b2b-a.txt", CreatedAt := 2 }

/-- Share request of `u1` for the first file. -/
def shareFile1 : ShareRequest := { id := "file-1", userID := "u1" }

/-- Environment of the first `ShareFile` call: fresh identifiers, no failure. -/
def shareEnv1 : ShareEnv := { shareID := "share-1", shareToken := "token-1", now := 5 }

/-- Environment of the second `ShareFile` call: a fresh token, no failure. -/
def shareEnv2 : ShareEnv := { shareID := "share-2", shareToken := "token-2", now := 6 }

/-- Ledger after `u1` has uploaded A and shared it once: one public share with
token `token-1`. -/
def afterShare : Ledger := (ShareFile shareEnv1 shareFile1 afterA).1

/-- Ledger after the share of A has been toggled a second time: the share is
private and its token is `token-2`. -/
def afterShareTwice : Ledger := (ShareFile shareEnv2 shareFile1 afterShare).1

/-- The share row created by the first `ShareFile` call. -/
def shareRow1 : Share :=
  { ShareID := "share-1", FileID := "file-1", IsPublic := true, CreatedAt := 5,
    ShareToken := "token-1", DownloadCount := 0 }

/-- Environment of a resolve in which persisting the download count fails. -/
def envCountFails : ResolveEnv := { updateErr := true }

/-- Upload of `bytesA` by `u1` whose file part declares no `Content-Type`. -/
def reqNoType : UploadRequest :=
  { formFile := some (bytesA, { Filename := "a.txt", ContentType := "", Size := 600 })
    owner_id := "u1" }

/-- Upload of `bytesA` by `u1` declared as `image/png`. -/
def reqWrongType : UploadRequest :=
  { formFile := some (bytesA, { Filename := "a.txt", ContentType := "image/png", Size := 600 })
    owner_id := "u1" }

/-- Ledger after `u1` (quota 2000) has uploaded `a.txt` and deleted it: the file
row is soft-deleted, its content row and stored object are gone. -/
def afterUploadAndDelete : Ledger := (DeleteFile {} delFile1 afterA2000).1

/-- A five-byte text file, `hello`. -/
def helloBytes : Bytes := [104, 101, 108, 108, 111]

/-- Upload of `helloBytes` by `u1`, declared as `text/plain`. -/
def reqHello : UploadRequest :=
  { formFile := some (helloBytes,
      { Filename := "hello.txt", ContentType := "text/plain", Size := 5 })
    owner_id := "u1" }

/-- Library parameters whose sniffer follows the rule `http.DetectContentType`
applies to data without a known signature: `application/octet-stream` when a
byte of value 0 to 8 occurs, `text/plain; charset=utf-8` otherwise. -/
def binaryAwareLib : Lib where
  sha256Hex := sampleLib.sha256Hex
  DetectContentType := fun b =>
    if b.any (fun x => decide (x.val ≤ 8)) then "application/octet-stream"
    else "text/plain; charset=utf-8"
  ParseMediaType := sampleLib.ParseMediaType

/-- Ledger after the first of two files sharing one content has been deleted
twice, every call succeeding. -/
def afterSecondDelete : Ledger := (DeleteFile {} delFile1 afterFirstDelete).1

/-- Ledger in which `u1` holds two files with the same content, has shared the
first one publicly (token `token-1`) and has then deleted it. -/
def afterShareThenDelete : Ledger :=
  (DeleteFile {} delFile1 (ShareFile shareEnv1 shareFile1 (afterAB 2000)).1).1

/-- A ledger with one registered, unverified user. -/
def oneUserLedger : Ledger :=
  { users := [{ UserID := "u1", Username := "alice", Email := "alice@example.com",
                StorageQuota := 1000, FirstName := "Alice" }] }

/-- `ResendOTP` request for an email that no user row holds. -/
def resendUnknown : ResendRequest := { email := "nobody@example.com" }

/-- Environment of a `ResendOTP` call: the drawn OTP, no failure. -/
def resendEnv : ResendEnv := { otp := "123456", now := 10 }

/-- A ledger in which `u1` holds two non-deleted files that reference one
content of size 0. -/
def zeroSizeLedger : Ledger :=
  { users := [{ UserID := "u1", Username := "alice", StorageQuota := 1000 }]
    files := [{ FileID := "file-1", OwnerID := "u1", ContentID := "content-0",
                Filename := "empty-1", CreatedAt := 1 },
              { FileID := "file-2", OwnerID := "u1", ContentID := "content-0",
                Filename := "empty-2", CreatedAt := 2 }]
    file_contents := [{ ContentID := "content-0", HashSHA256 := "", Size := 0,
                        MimeType := "text/plain", StoragePath := "path-0",
                        ReferenceCount := 2, CreatedAt := 1 }]
    storage := [("uploads/path-0", [])] }

/-- The `users` row of `u1` with quota 2000. -/
def userU1Quota2000 : User := { UserID := "u1", Username := "alice", StorageQuota := 2000 }

/-- The row a listing shows for a file: its selected columns and the size and
MIME type of its content row. -/
def resultRow (s : Ledger) (f : UserFile) : FileSearchResult :=
  { FileID := f.FileID
    Filename := f.Filename
    IsDeleted := f.IsDeleted
    CreatedAt := f.CreatedAt
    Size := (embedContent s f.ContentID).1
    MimeType := (embedContent s f.ContentID).2 }

/-- The filters of a search in the words of the specification, for one file:
the display name contains the given string, the MIME type of the content equals
the given type, the size of the content lies within the given bounds and the
creation time within the given dates; an absent filter (empty string) imposes
nothing.  The MIME and size filters are judged on the content row of the file
and fail when it has none. -/
def satisfiesFilters (ql : QueryLib) (q : SearchQuery) (s : Ledger) (f : UserFile) : Prop :=
  (q.filename = "" ∨ q.filename.data <:+: f.Filename.data) ∧
  (q.mime_type = "" ∨
    ∃ r, s.file_contents.find? (fun r => r.ContentID = f.ContentID) = some r ∧
      r.MimeType = q.mime_type) ∧
  (q.min_size = "" ∨
    ∃ r n, s.file_contents.find? (fun r => r.ContentID = f.ContentID) = some r ∧
      ql.Atoi q.min_size = some n ∧ n ≤ r.Size) ∧
  (q.max_size = "" ∨
    ∃ r n, s.file_contents.find? (fun r => r.ContentID = f.ContentID) = some r ∧
      ql.Atoi q.max_size = some n ∧ r.Size ≤ n) ∧
  (q.start_date = "" ∨ ∃ t, ql.parseTimestamp q.start_date = some t ∧ t ≤ f.CreatedAt) ∧
  (q.end_date = "" ∨ ∃ t, ql.parseTimestamp q.end_date = some t ∧ f.CreatedAt ≤ t)

/-- The characters a `LIKE` pattern sent through PostgREST treats specially. -/
def isLikeMeta (c : Char) : Bool := c = '%' || c = '_' || c = '*' || c = '\\'

/-- An instance of the conversions for evaluating examples: a text of decimal
digits is read as the number it writes, any other text is rejected. -/
def sampleQueryLib : QueryLib where
  Atoi := fun t =>
    if t.data ≠ [] ∧ t.data.all (fun c => decide (48 ≤ c.toNat ∧ c.toNat ≤ 57)) then
      some (t.data.foldl (fun n c => 10 * n + ((c.toNat : Int) - 48)) 0)
    else none
  parseTimestamp := fun t =>
    if t.data ≠ [] ∧ t.data.all (fun c => decide (48 ≤ c.toNat ∧ c.toNat ≤ 57)) then
      some (t.data.foldl (fun n c => 10 * n + (c.toNat - 48)) 0)
    else none

/-- Search by `u1` for names containing `a_txt`. -/
def searchUnderscore : SearchQuery := { owner_id := "u1", filename := "a_txt" }

/-- Search by `u1` for names containing `b.t`, of sizes 1 to 600, created from
time 2 on. -/
def searchSeveral : SearchQuery :=
  { owner_id := "u1", filename := "b.t", min_size := "1", max_size := "600", start_date := "2" }

/-- The `file_contents` row delete of line 648 does not fail in the handler
run; an `UploadFile` run makes no such call. -/
def Call.rowDeleteSucceeds : Call → Prop
  | .upload _ _ => True
  | .delete env _ => env.deleteRowErr = false

/-- Environment of the second upload in which the dedup lookup of line 123
fails: fresh identifiers, no other failure. -/
def envBLookupFails : UploadEnv :=
  { storagePath := "path-2", contentID := "content-2", nameUUID := "2b2b2b2b-0002",
    fileID := "file-2", contentNow := 2, fileNow := 2, hashLookupErr := true }

/-- Ledger after `u1` (quota 2000) has uploaded A and then the same bytes as
`b.txt` while the dedup lookup failed. -/
def afterLookupFailure : Ledger := (UploadFile sampleLib envBLookupFails reqB afterA2000).1

/-- The `file_contents` row created by the upload whose dedup lookup failed. -/
def contentRowA2 : FileContent :=
  { ContentID := "content-2", HashSHA256 := sampleLib.sha256Hex bytesA, Size := 600,
    MimeType := "text/plain", StoragePath := "path-2", ReferenceCount := 1, CreatedAt := 2 }

/-- Upload of the same bytes as A under the name `c2.txt` by `u1`. -/
def reqA3 : UploadRequest :=
  { formFile := some (bytesA, { Filename := "c2.txt", ContentType := "text/plain", Size := 600 })
    owner_id := "u1" }

/-- Environment of a delete in which the `file_contents` row delete fails. -/
def envRowDeleteFails : DeleteEnv := { deleteRowErr := true }

/-- Environment of a `ShareFile` call in which the share lookup of line 251
fails: fresh identifiers, no other failure. -/
def shareEnvLookupFails : ShareEnv :=
  { shareID := "share-2", shareToken := "token-2", now := 6, shareQueryErr := true }

/-- Ledger after `u1` has shared A once and called `ShareFile` again while the
share lookup failed. -/
def afterShareLookupFailure : Ledger :=
  (ShareFile shareEnvLookupFails shareFile1 afterShare).1

/-- The share row inserted by the `ShareFile` call whose lookup failed. -/
def shareRow2 : Share :=
  { ShareID := "share-2", FileID := "file-1", IsPublic := true, CreatedAt := 6,
    ShareToken := "token-2", DownloadCount := 0 }

/-- Environment of a third `ShareFile` call: fresh identifiers, no failure. -/
def shareEnv3 : ShareEnv := { shareID := "share-3", shareToken := "token-3", now := 7 }

/-- Environment of a `ShareFile` call that draws the token `token-2` again, no
failure. -/
def shareEnvSameToken : ShareEnv := { shareID := "share-3", shareToken := "token-2", now := 7 }

/-! ## Auxiliary lemmas -/

theorem wrapInt64_of_fits (x : Int) (hlo : -9223372036854775808 ≤ x)
    (hhi : x < 9223372036854775808) : wrapInt64 x = x := by
  unfold wrapInt64
  omega

theorem contentSizes_append (rows : List FileContent) (r : FileContent) (k : String) :
    contentSizes (rows ++ [r]) k = if k = r.ContentID then r.Size else contentSizes rows k := by
  simp [contentSizes, List.foldl_append]

theorem contentSizes_eq_zero (rows : List FileContent) (k : String)
    (h : ∀ r ∈ rows, r.ContentID ≠ k) : contentSizes rows k = 0 := by
  induction rows using List.reverseRecOn with
  | nil => rfl
  | append_singleton rows r ih =>
    rw [contentSizes_append]
    have hr : r.ContentID ≠ k := h r (by simp)
    have hk : ¬ k = r.ContentID := fun e => hr e.symm
    rw [if_neg hk]
    exact ih (fun x hx => h x (by simp [hx]))

theorem contentSizes_eq_find (rows : List FileContent) (k : String)
    (hkeys : (rows.map (fun r => r.ContentID)).Nodup) :
    contentSizes rows k =
      match rows.find? (fun r => r.ContentID = k) with
      | some r => r.Size
      | none => 0 := by
  induction rows with
  | nil => rfl
  | cons r rows ih =>
    have hnd : r.ContentID ∉ rows.map (fun r => r.ContentID) ∧
        (rows.map (fun r => r.ContentID)).Nodup := List.nodup_cons.mp hkeys
    by_cases hk : r.ContentID = k
    · have hnot : ∀ x ∈ rows, x.ContentID ≠ k := by
        intro x hx e
        apply hnd.1
        rw [hk, ← e]
        exact List.mem_map_of_mem _ hx
      have h0 := contentSizes_eq_zero rows k hnot
      have hsize : contentSizes (r :: rows) k = r.Size := by
        clear ih hnd hkeys h0
        induction rows using List.reverseRecOn with
        | nil => simp [contentSizes, hk]
        | append_singleton rows x ihx =>
          rw [← List.cons_append, contentSizes_append]
          have hx : ¬ k = x.ContentID := fun e => hnot x (by simp) e.symm
          rw [if_neg hx]
          exact ihx (fun y hy => hnot y (by simp [hy]))
      simp [hsize, List.find?, hk]
    · have hstep : contentSizes (r :: rows) k = contentSizes rows k := by
        clear ih hnd hkeys
        induction rows using List.reverseRecOn with
        | nil =>
          have hk2 : ¬ k = r.ContentID := fun e => hk e.symm
          simp [contentSizes, hk2]
        | append_singleton rows x ihx =>
          rw [← List.cons_append, contentSizes_append, contentSizes_append, ihx]
      rw [hstep, ih hnd.2]
      simp [List.find?, hk]

theorem contentSizes_eq_blobSize (s : Ledger) (k : String) (hkeys : ContentKeysUnique s) :
    contentSizes s.file_contents k = blobSize s k := by
  unfold blobSize
  exact contentSizes_eq_find s.file_contents k hkeys

theorem blobSize_nonneg (s : Ledger) (k : String) (hsize : ∀ r ∈ s.file_contents, 0 ≤ r.Size) :
    0 ≤ blobSize s k := by
  unfold blobSize
  cases hf : s.file_contents.find? (fun r => r.ContentID = k) with
  | none => simp
  | some r => exact hsize r (List.mem_of_find?_eq_some hf)

theorem foldl_wrap_eq_sum (g : UserFile → Int) (l : List UserFile) (acc : Int)
    (hg : ∀ f ∈ l, 0 ≤ g f) (hacc : 0 ≤ acc)
    (hfit : acc + (l.map g).sum < 9223372036854775808) :
    l.foldl (fun a f => wrapInt64 (a + g f)) acc = acc + (l.map g).sum := by
  induction l generalizing acc with
  | nil => simp
  | cons f l ih =>
    have hf : 0 ≤ g f := hg f (by simp)
    have hrest : 0 ≤ (l.map g).sum :=
      List.sum_nonneg (by
        intro x hx
        obtain ⟨y, hy, rfl⟩ := List.mem_map.mp hx
        exact hg y (by simp [hy]))
    simp only [List.map_cons, List.sum_cons] at hfit
    have hw : wrapInt64 (acc + g f) = acc + g f :=
      wrapInt64_of_fits _ (by omega) (by omega)
    simp only [List.foldl_cons, List.map_cons, List.sum_cons, hw]
    rw [ih (acc + g f) (fun x hx => hg x (by simp [hx])) (by omega) (by omega)]
    ring

/-! ## C1: the usage compared against the quota -/

/-- C1 (as stated, refuted): after `u1` has uploaded the same 600 bytes twice,
the usage the quota check computes is 1200, while the sum over distinct
content ids is 600. -/
theorem quotaUsage_counts_shared_content_twice :
    quotaUsage (afterAB 2000) "u1" = 1200 ∧ dedupUsage (afterAB 2000) "u1" = 600 ∧
      quotaUsage (afterAB 2000) "u1" ≠ dedupUsage (afterAB 2000) "u1" := by
  decide

/-- C1 (amended): the usage `UploadFile` compares against the quota is the sum,
over the owner's non-deleted files with one term per file, of the size recorded
for the file's content (content referenced by two files is counted twice),
whenever sizes are non-negative and that sum fits in `int64`. -/
theorem quotaUsage_eq_perFileUsage (s : Ledger) (ownerID : String)
    (hkeys : ContentKeysUnique s) (hsize : ∀ r ∈ s.file_contents, 0 ≤ r.Size)
    (hfit : perFileUsage s ownerID < 9223372036854775808) :
    quotaUsage s ownerID = perFileUsage s ownerID := by
  unfold quotaUsage storageUsed
  have hfun : (fun (acc : Int) (file : UserFile) =>
      wrapInt64 (acc + contentSizes s.file_contents file.ContentID)) =
      (fun acc file => wrapInt64 (acc + blobSize s file.ContentID)) := by
    funext acc file
    rw [contentSizes_eq_blobSize s _ hkeys]
  rw [hfun, foldl_wrap_eq_sum (fun f => blobSize s f.ContentID) _ 0
    (fun f _ => blobSize_nonneg s _ hsize) (le_refl 0) (by simpa [perFileUsage] using hfit)]
  simp [perFileUsage]

/-- Witness for C1 (amended), at the ledger where `u1` holds two files with the
same content. -/
theorem quotaUsage_eq_perFileUsage_witness :
    perFileUsage (afterAB 2000) "u1" = 1200 ∧
      quotaUsage (afterAB 2000) "u1" = perFileUsage (afterAB 2000) "u1" :=
  ⟨by decide,
   quotaUsage_eq_perFileUsage (afterAB 2000) "u1" (by decide) (by decide) (by decide)⟩

/-! ## C2: the quota scenario -/

/-- C2 (as stated, refuted): with quota 1000, after A (600 bytes) is accepted
the upload of B, whose bytes are those of A, is not accepted: it is answered
with the quota error. -/
theorem identical_upload_rejected_by_quota :
    (UploadFile sampleLib envA reqA (emptyLedgerWithQuota 1000)).2 =
        .ok { FileID := "file-1", OwnerID := "u1", ContentID := "content-1",
              Filename := "a.txt", IsDeleted := false, CreatedAt := 1 } ∧
      (UploadFile sampleLib envB reqB afterA).2 = .error ⟨403, "Storage quota exceeded"⟩ := by
  decide

/-- C2 (amended): from an empty ledger with quota 1000, A (600 bytes, new
content) is accepted and usage becomes 600; B, with the bytes of A, is rejected
with the quota error (600 + 600 > 1000) and leaves the ledger as it was, with
usage 600 and the reference count of A's content equal to 1; C (500 bytes, new
content) is rejected with the quota error as well. -/
theorem quota_scenario :
    (∃ f, (UploadFile sampleLib envA reqA (emptyLedgerWithQuota 1000)).2 = .ok f) ∧
      quotaUsage afterA "u1" = 600 ∧
      UploadFile sampleLib envB reqB afterA = (afterA, .error ⟨403, "Storage quota exceeded"⟩) ∧
      afterA.file_contents.map (fun r => (r.ContentID, r.ReferenceCount)) = [("content-1", 1)] ∧
      UploadFile sampleLib envC reqC afterA = (afterA, .error ⟨403, "Storage quota exceeded"⟩) := by
  refine ⟨⟨_, rfl⟩, ?_, ?_, ?_, ?_⟩ <;> decide

/-! ## C3: reference counts against live references -/

/-- C3 (evaluation at the failing input): after three uploads of the same bytes
and two successful `DeleteFile` calls for the first file, the single
`file_contents` row has reference count 1 while two non-deleted files reference
it. -/
theorem double_delete_breaks_reference_count :
    (DeleteFile {} delFile1 (afterABB 2000)).2 = .ok () ∧
      (DeleteFile {} delFile1 (DeleteFile {} delFile1 (afterABB 2000)).1).2 = .ok () ∧
      afterDoubleDelete.file_contents.map
          (fun r => (r.ReferenceCount, liveReferences afterDoubleDelete r.ContentID)) =
        [(1, 2)] := by
  decide

/-! ## Lemmas on the steps of `UploadFile` -/

theorem validateUpload_ok {lib : Lib} {env : UploadEnv} {req : UploadRequest} {s : Ledger}
    {file : Bytes} {header : FileHeader} {hashString ownerID : String}
    (h : validateUpload lib env req s = .ok (file, header, hashString, ownerID)) :
    req.formFile = some (file, header) ∧ hashString = lib.sha256Hex file ∧
      ownerID = req.owner_id ∧ validateMime lib env file header = .ok () ∧
      env.hashErr = false ∧ req.owner_id ≠ "" ∧
      checkQuota env s req.owner_id header = .ok () := by
  unfold validateUpload at h
  cases hform : req.formFile with
  | none => simp [hform] at h
  | some fh =>
    obtain ⟨file0, header0⟩ := fh
    simp only [hform] at h
    cases hm : validateMime lib env file0 header0 with
    | error e => simp [hm] at h
    | ok u =>
      simp only [hm] at h
      cases hh : env.hashErr with
      | true => simp [hh] at h
      | false =>
        simp only [hh] at h
        by_cases ho : req.owner_id = ""
        · simp [ho] at h
        · simp only [ho, if_false] at h
          cases hq : checkQuota env s req.owner_id header0 with
          | error e => simp [hq] at h
          | ok u2 =>
            simp [hq] at h
            obtain ⟨h1, h2, h3, h4⟩ := h
            subst h1 h2 h3 h4
            exact ⟨rfl, rfl, rfl, hm, rfl, ho, hq⟩

theorem validateUpload_of_checks {lib : Lib} {env : UploadEnv} {req : UploadRequest} {s : Ledger}
    {file : Bytes} {header : FileHeader}
    (hform : req.formFile = some (file, header))
    (hmime : validateMime lib env file header = .ok ())
    (hhash : env.hashErr = false) (howner : req.owner_id ≠ "") :
    validateUpload lib env req s =
      match checkQuota env s req.owner_id header with
      | .error e => .error e
      | .ok () => .ok (file, header, lib.sha256Hex file, req.owner_id) := by
  unfold validateUpload
  simp [hform, hmime, hhash, howner]

theorem filter_key_eq_singleton {α β : Type} [DecidableEq β] (f : α → β) (l : List α) (a : α)
    (hnd : (l.map f).Nodup) (ha : a ∈ l) : l.filter (fun x => f x = f a) = [a] := by
  induction l with
  | nil => simp at ha
  | cons x l ih =>
    have hc : f x ∉ l.map f ∧ (l.map f).Nodup := List.nodup_cons.mp hnd
    rcases List.mem_cons.mp ha with hax | hal
    · subst hax
      have hrest : l.filter (fun x => f x = f a) = [] := by
        apply List.filter_eq_nil_iff.mpr
        intro y hy
        simp only [decide_eq_true_eq]
        intro e
        exact hc.1 (e ▸ List.mem_map_of_mem f hy)
      simp [List.filter_cons, hrest]
    · have hx : f x ≠ f a := fun e => hc.1 (e ▸ List.mem_map_of_mem f hal)
      simp [List.filter_cons, hx, ih hc.2 hal]

theorem key_eq_iff_of_nodup {α β : Type} (f : α → β) (l : List α) (a x : α)
    (hnd : (l.map f).Nodup) (ha : a ∈ l) (hx : x ∈ l) : f x = f a ↔ x = a := by
  constructor
  · intro e
    exact List.inj_on_of_nodup_map hnd hx ha e
  · intro e
    rw [e]

theorem setReferenceCount_eq_map (rows : List FileContent) (fc : FileContent) (n : Int)
    (hnd : (rows.map (fun r => r.ContentID)).Nodup) (hfc : fc ∈ rows) :
    setReferenceCount rows fc.ContentID n =
      rows.map (fun r => if r = fc then { fc with ReferenceCount := n } else r) := by
  unfold setReferenceCount
  apply List.map_congr_left
  intro r hr
  have hiff := key_eq_iff_of_nodup (fun r : FileContent => r.ContentID) rows fc r hnd hfc hr
  by_cases e : r = fc
  · subst e
    simp
  · have e2 : ¬ r.ContentID = fc.ContentID := fun h => e (hiff.mp h)
    simp [e, e2]

theorem lookupByHash_hit (env : UploadEnv) (s : Ledger) (fc : FileContent)
    (hlookup : env.hashLookupErr = false) (hH : HashesUnique s) (hfc : fc ∈ s.file_contents) :
    lookupByHash env s fc.HashSHA256 = some fc := by
  unfold lookupByHash
  rw [hlookup]
  have := filter_key_eq_singleton (fun r : FileContent => r.HashSHA256) s.file_contents fc hH hfc
  simp only [Bool.false_eq_true, if_false]
  rw [this]
  rfl

theorem lookupByHash_miss (env : UploadEnv) (s : Ledger) (h : String)
    (hmiss : ∀ r ∈ s.file_contents, r.HashSHA256 ≠ h) : lookupByHash env s h = none := by
  unfold lookupByHash
  have : s.file_contents.filter (fun r => r.HashSHA256 = h) = [] := by
    apply List.filter_eq_nil_iff.mpr
    intro r hr
    simpa using hmiss r hr
  rw [this]
  simp [single]

theorem createLogicalFile_ok {env : UploadEnv} {s s' : Ledger} {ownerID : String}
    {header : FileHeader} {fc : FileContent} {newFile : UserFile}
    (h : createLogicalFile env s ownerID header fc = (s', .ok newFile)) :
    s' = { s with files := s.files ++ [newFile] } ∧ newFile.ContentID = fc.ContentID ∧
      newFile.OwnerID = ownerID ∧ newFile.FileID = env.fileID ∧ newFile.IsDeleted = false := by
  unfold createLogicalFile at h
  cases hn : env.nameQueryErr with
  | true => simp [hn] at h
  | false =>
    cases hi : env.insertFileErr with
    | true => simp [hn, hi] at h
    | false =>
      simp only [hn, hi, Bool.false_eq_true, if_false, Prod.mk.injEq, Except.ok.injEq] at h
      obtain ⟨h1, h2⟩ := h
      subst h2
      exact ⟨h1.symm, rfl, rfl, rfl, rfl⟩

theorem storeContent_files (env : UploadEnv) (s : Ledger) (file : Bytes) (header : FileHeader)
    (h : String) : (storeContent env s file header h).1.files = s.files := by
  unfold storeContent
  cases lookupByHash env s h <;> simp only [] <;> split <;> try split
  all_goals rfl

theorem storeContent_error_rows (env : UploadEnv) (s : Ledger) (file : Bytes)
    (header : FileHeader) (h : String) (e : HttpError)
    (herr : (storeContent env s file header h).2 = .error e) :
    (storeContent env s file header h).1.file_contents = s.file_contents := by
  unfold storeContent at herr ⊢
  cases hl : lookupByHash env s h with
  | none =>
    simp only [hl] at herr ⊢
    cases hu : env.uploadErr with
    | true => simp [hu]
    | false =>
      cases hi : env.insertContentErr with
      | true => simp [hu, hi]
      | false => simp [hu, hi] at herr
  | some fc =>
    simp only [hl] at herr ⊢
    cases hu : env.updateRefErr with
    | true => simp [hu]
    | false => simp [hu] at herr

theorem createLogicalFile_error (env : UploadEnv) (s : Ledger) (ownerID : String)
    (header : FileHeader) (fc : FileContent) (e : HttpError)
    (herr : (createLogicalFile env s ownerID header fc).2 = .error e) :
    (createLogicalFile env s ownerID header fc).1 = s ∧
      (env.nameQueryErr = true ∨ env.insertFileErr = true) := by
  unfold createLogicalFile at herr ⊢
  cases hn : env.nameQueryErr with
  | true => simp [hn]
  | false =>
    cases hi : env.insertFileErr with
    | true => simp [hn, hi]
    | false => simp [hn, hi] at herr

theorem checkQuota_eq (env : UploadEnv) (s : Ledger) (ownerID : String) (header : FileHeader)
    (user : User)
    (huser : s.users.filter (fun u => u.UserID = ownerID) = [user])
    (hq1 : env.userQueryErr = false) (hq2 : env.filesQueryErr = false)
    (hq3 : env.contentsQueryErr = false) :
    checkQuota env s ownerID header =
      if wrapInt64 (quotaUsage s ownerID + header.Size) > user.StorageQuota then
        .error ⟨403, "Storage quota exceeded"⟩
      else .ok () := by
  unfold checkQuota
  simp [huser, hq1, hq2, hq3, single]

theorem storeContent_error_status (env : UploadEnv) (s : Ledger) (file : Bytes)
    (header : FileHeader) (h : String) (e : HttpError)
    (herr : (storeContent env s file header h).2 = .error e) : e.status = 500 := by
  unfold storeContent at herr
  cases hl : lookupByHash env s h with
  | none =>
    simp only [hl] at herr
    cases hu : env.uploadErr with
    | true =>
      simp [hu] at herr
      rw [← herr]
    | false =>
      cases hi : env.insertContentErr with
      | true =>
        simp [hu, hi] at herr
        rw [← herr]
      | false => simp [hu, hi] at herr
  | some fc =>
    simp only [hl] at herr
    cases hu : env.updateRefErr with
    | true =>
      simp [hu] at herr
      rw [← herr]
    | false => simp [hu] at herr

theorem createLogicalFile_error_status (env : UploadEnv) (s : Ledger) (ownerID : String)
    (header : FileHeader) (fc : FileContent) (e : HttpError)
    (herr : (createLogicalFile env s ownerID header fc).2 = .error e) : e.status = 500 := by
  unfold createLogicalFile at herr
  cases hn : env.nameQueryErr with
  | true =>
    simp [hn] at herr
    rw [← herr]
  | false =>
    cases hi : env.insertFileErr with
    | true =>
      simp [hn, hi] at herr
      rw [← herr]
    | false => simp [hn, hi] at herr

theorem storeContent_succeeds (env : UploadEnv) (s : Ledger) (file : Bytes)
    (header : FileHeader) (h : String) (h1 : env.uploadErr = false)
    (h2 : env.insertContentErr = false) (h3 : env.updateRefErr = false) :
    ∃ s1 fc, storeContent env s file header h = (s1, .ok fc) := by
  unfold storeContent
  cases lookupByHash env s h with
  | none => simp [h1, h2]
  | some fc => simp [h3]

theorem createLogicalFile_succeeds (env : UploadEnv) (s : Ledger) (ownerID : String)
    (header : FileHeader) (fc : FileContent) (h1 : env.nameQueryErr = false)
    (h2 : env.insertFileErr = false) :
    ∃ s1 f, createLogicalFile env s ownerID header fc = (s1, .ok f) := by
  unfold createLogicalFile
  simp [h1, h2]

/-! ## C5: upload of content that already exists -/

/-- C5 (as stated, refuted): `u1` holds A, whose content row has the digest of
`bytesA`; the same bytes are uploaded while the dedup lookup of line 123 fails.
The upload is accepted, a second `file_contents` row and a second stored object
are added, the reference count of the existing row stays 1 and the new file
references the new row.  With two rows of that digest in the table, a further
upload of the same bytes with no failing call finds no single row either and
adds a third row and a third object. -/
theorem failed_lookup_stores_content_again :
    afterA2000.file_contents = [contentRowA 1] ∧
      reqB.formFile = some (bytesA, headerB) ∧
      (UploadFile sampleLib envBLookupFails reqB afterA2000).2 =
        .ok { FileID := "file-2", OwnerID := "u1", ContentID := "content-2",
              Filename := "b.txt", CreatedAt := 2 } ∧
      afterLookupFailure.file_contents = [contentRowA 1, contentRowA2] ∧
      afterLookupFailure.storage = [("uploads/path-1", bytesA), ("uploads/path-2", bytesA)] ∧
      envC.hashLookupErr = false ∧
      (UploadFile sampleLib envC reqA3 afterLookupFailure).2 =
        .ok { FileID := "file-3", OwnerID := "u1", ContentID := "content-3",
              Filename := "c2.txt", CreatedAt := 3 } ∧
      (UploadFile sampleLib envC reqA3 afterLookupFailure).1.file_contents =
        [contentRowA 1, contentRowA2,
         { ContentID := "content-3", HashSHA256 := sampleLib.sha256Hex bytesA, Size := 600,
           MimeType := "text/plain", StoragePath := "path-3", ReferenceCount := 1,
           CreatedAt := 3 }] ∧
      (UploadFile sampleLib envC reqA3 afterLookupFailure).1.storage =
        [("uploads/path-1", bytesA), ("uploads/path-2", bytesA), ("uploads/path-3", bytesA)] := by
  decide

/-- C5 (amended): an accepted upload whose dedup lookup does not fail and whose
digest is held by exactly one `file_contents` row raises that row's reference
count by exactly 1, adds no row, leaves every other row and the Blob Store
unchanged, and the new file references the existing content id. -/
theorem upload_existing_content_increments (lib : Lib) (env : UploadEnv) (req : UploadRequest)
    (s s' : Ledger) (file : Bytes) (header : FileHeader) (newFile : UserFile) (fc : FileContent)
    (hform : req.formFile = some (file, header))
    (hacc : UploadFile lib env req s = (s', .ok newFile))
    (hone : s.file_contents.filter (fun r => r.HashSHA256 = lib.sha256Hex file) = [fc])
    (hK : ContentKeysUnique s) (hlookup : env.hashLookupErr = false) :
    s'.file_contents =
        s.file_contents.map
          (fun r => if r = fc then { fc with ReferenceCount := fc.ReferenceCount + 1 } else r) ∧
      s'.file_contents.length = s.file_contents.length ∧
      s'.storage = s.storage ∧
      newFile.ContentID = fc.ContentID ∧
      s'.files = s.files ++ [newFile] := by
  unfold UploadFile at hacc
  cases hv : validateUpload lib env req s with
  | error e => simp [hv] at hacc
  | ok v =>
    obtain ⟨file0, header0, hash0, owner0⟩ := v
    obtain ⟨hf0, hh0, -, -, -, -, -⟩ := validateUpload_ok hv
    rw [hform] at hf0
    simp only [Option.some.injEq, Prod.mk.injEq] at hf0
    obtain ⟨rfl, rfl⟩ := hf0
    subst hh0
    simp only [hv] at hacc
    have hfc : fc ∈ s.file_contents := by
      have : fc ∈ s.file_contents.filter (fun r => r.HashSHA256 = lib.sha256Hex file) := by
        rw [hone]; simp
      exact (List.mem_filter.mp this).1
    have hl : lookupByHash env s (lib.sha256Hex file) = some fc := by
      unfold lookupByHash
      rw [hlookup]
      simp only [Bool.false_eq_true, if_false]
      rw [hone]
      rfl
    unfold storeContent at hacc
    simp only [hl] at hacc
    cases hu : env.updateRefErr with
    | true => simp [hu] at hacc
    | false =>
      simp only [hu, Bool.false_eq_true, if_false] at hacc
      obtain ⟨hs', hcid, -, -, -⟩ := createLogicalFile_ok hacc
      subst hs'
      refine ⟨?_, ?_, rfl, hcid, rfl⟩
      · exact setReferenceCount_eq_map s.file_contents fc _ hK hfc
      · simp [setReferenceCount]

/-- Witness for C5 (amended): the second upload of the bytes of A, at the ledger
that holds A with reference count 1, gives reference count 2, the same single
stored object and two files. -/
theorem upload_existing_content_increments_witness :
    (afterAB 2000).file_contents = [contentRowA 2] ∧
      (afterAB 2000).storage = [("uploads/path-1", bytesA)] ∧
      (afterAB 2000).files = [fileRow1, fileRow2] := by
  have h := upload_existing_content_increments sampleLib envB reqB
    (UploadFile sampleLib envA reqA (emptyLedgerWithQuota 2000)).1 (afterAB 2000)
    bytesA headerB fileRow2 (contentRowA 1) rfl (by decide) (by decide) (by decide) rfl
  obtain ⟨h1, -, h3, -, h5⟩ := h
  refine ⟨?_, ?_, ?_⟩
  · rw [h1]; decide
  · rw [h3]; decide
  · rw [h5]; decide

/-! ## C6: upload of new content -/

/-- C6: an accepted upload whose digest matches no `file_contents` row writes
one object to the Blob Store (the uploaded bytes, under a new storage path) and
inserts exactly one `file_contents` row, with reference count 1, the digest of
the uploaded bytes as hash and the upload's size, and the new file references
the id of that row. -/
theorem upload_new_content_creates (lib : Lib) (env : UploadEnv) (req : UploadRequest)
    (s s' : Ledger) (file : Bytes) (header : FileHeader) (newFile : UserFile)
    (hform : req.formFile = some (file, header))
    (hacc : UploadFile lib env req s = (s', .ok newFile))
    (hmiss : ∀ r ∈ s.file_contents, r.HashSHA256 ≠ lib.sha256Hex file) :
    ∃ row : FileContent,
      s'.file_contents = s.file_contents ++ [row] ∧
      row.ReferenceCount = 1 ∧
      row.HashSHA256 = lib.sha256Hex file ∧
      row.Size = header.Size ∧
      newFile.ContentID = row.ContentID ∧
      s'.storage = blobPut ("uploads/" ++ row.StoragePath) file s.storage ∧
      ((∀ o ∈ s.storage, o.1 ≠ "uploads/" ++ row.StoragePath) →
        s'.storage = s.storage ++ [("uploads/" ++ row.StoragePath, file)]) ∧
      s'.files = s.files ++ [newFile] := by
  unfold UploadFile at hacc
  cases hv : validateUpload lib env req s with
  | error e => simp [hv] at hacc
  | ok v =>
    obtain ⟨file0, header0, hash0, owner0⟩ := v
    obtain ⟨hf0, hh0, -, -, -, -, -⟩ := validateUpload_ok hv
    rw [hform] at hf0
    simp only [Option.some.injEq, Prod.mk.injEq] at hf0
    obtain ⟨rfl, rfl⟩ := hf0
    subst hh0
    simp only [hv] at hacc
    have hl := lookupByHash_miss env s _ hmiss
    unfold storeContent at hacc
    simp only [hl] at hacc
    cases hu : env.uploadErr with
    | true => simp [hu] at hacc
    | false =>
      cases hi : env.insertContentErr with
      | true => simp [hu, hi] at hacc
      | false =>
        simp only [hu, hi, Bool.false_eq_true, if_false] at hacc
        obtain ⟨hs', hcid, -, -, -⟩ := createLogicalFile_ok hacc
        subst hs'
        refine ⟨_, rfl, rfl, rfl, rfl, hcid, rfl, ?_, rfl⟩
        intro hfresh
        simp only [blobPut]
        congr 1
        apply List.filter_eq_self.mpr
        intro o ho
        simpa using hfresh o ho

/-- Witness for C6: the first upload of A at the empty ledger. -/
theorem upload_new_content_creates_witness :
    ∃ row : FileContent,
      afterA.file_contents = (emptyLedgerWithQuota 1000).file_contents ++ [row] ∧
      row.ReferenceCount = 1 ∧
      row.HashSHA256 = sampleLib.sha256Hex bytesA ∧
      row.Size = headerA.Size ∧
      fileRow1.ContentID = row.ContentID ∧
      afterA.storage =
        blobPut ("uploads/" ++ row.StoragePath) bytesA (emptyLedgerWithQuota 1000).storage ∧
      ((∀ o ∈ (emptyLedgerWithQuota 1000).storage, o.1 ≠ "uploads/" ++ row.StoragePath) →
        afterA.storage =
          (emptyLedgerWithQuota 1000).storage ++ [("uploads/" ++ row.StoragePath, bytesA)]) ∧
      afterA.files = (emptyLedgerWithQuota 1000).files ++ [fileRow1] :=
  upload_new_content_creates sampleLib envA reqA (emptyLedgerWithQuota 1000) afterA bytesA
    headerA fileRow1 rfl (by decide) (by decide)

/-! ## C7: what an error response leaves behind -/

/-- C7 (as stated, refuted): when the insert of the `files` row fails on an upload
of new content, `UploadFile` responds with an error although a `file_contents`
row with reference count 1 has been added. -/
theorem failed_file_insert_keeps_content_row :
    (UploadFile sampleLib envFileInsertFails reqA (emptyLedgerWithQuota 1000)).2 =
        .error ⟨500, "Failed to create file entry"⟩ ∧
      (emptyLedgerWithQuota 1000).file_contents = [] ∧
      (UploadFile sampleLib envFileInsertFails reqA (emptyLedgerWithQuota 1000)).1.file_contents =
        [contentRowA 1] ∧
      (UploadFile sampleLib envFileInsertFails reqA (emptyLedgerWithQuota 1000)).1.files = [] := by
  decide

/-- C7 (amended): whenever `UploadFile` responds with an error, no `files` row
has been added; and unless the failing step is the filename check or the
insert of the `files` row, no `file_contents` row has been added and no
reference count has changed. -/
theorem upload_error_effects (lib : Lib) (env : UploadEnv) (req : UploadRequest) (s : Ledger)
    (e : HttpError) (herr : (UploadFile lib env req s).2 = .error e) :
    (UploadFile lib env req s).1.files = s.files ∧
      (env.nameQueryErr = false → env.insertFileErr = false →
        (UploadFile lib env req s).1.file_contents = s.file_contents) := by
  unfold UploadFile at herr ⊢
  cases hv : validateUpload lib env req s with
  | error e0 => simp
  | ok v =>
    obtain ⟨file0, header0, hash0, owner0⟩ := v
    simp only [hv] at herr ⊢
    have hfiles := storeContent_files env s file0 header0 hash0
    cases hsc : storeContent env s file0 header0 hash0 with
    | mk s1 r =>
      rw [hsc] at hfiles
      cases r with
      | error e1 =>
        have hrows := storeContent_error_rows env s file0 header0 hash0 e1 (by rw [hsc])
        rw [hsc] at hrows
        exact ⟨hfiles, fun _ _ => hrows⟩
      | ok fc =>
        simp only [hsc] at herr ⊢
        obtain ⟨hs1, hflag⟩ := createLogicalFile_error env s1 owner0 header0 fc e herr
        rw [hs1]
        refine ⟨hfiles, fun h1 h2 => ?_⟩
        rcases hflag with h | h
        · rw [h1] at h
          cases h
        · rw [h2] at h
          cases h

/-- Witness for C7 (amended): an upload whose Blob Store write fails. -/
theorem upload_error_effects_witness :
    (UploadFile sampleLib envBlobWriteFails reqA (emptyLedgerWithQuota 1000)).2 =
        .error ⟨500, "Failed to upload file"⟩ ∧
      (UploadFile sampleLib envBlobWriteFails reqA (emptyLedgerWithQuota 1000)).1.files = [] ∧
      (UploadFile sampleLib envBlobWriteFails reqA (emptyLedgerWithQuota 1000)).1.file_contents
        = [] := by
  have h := upload_error_effects sampleLib envBlobWriteFails reqA (emptyLedgerWithQuota 1000)
    ⟨500, "Failed to upload file"⟩ (by decide)
  exact ⟨by decide, h.1, h.2 rfl rfl⟩

/-! ## C8: failure of the Blob Store write -/

/-- C8: when the Blob Store write of new content fails, `UploadFile` responds with
an error and the ledger, in particular the `file_contents` and `files` tables,
is exactly as before the call; once validation and quota have passed, the error
is the storage-write failure. -/
theorem blob_write_failure_leaves_ledger (lib : Lib) (env : UploadEnv) (req : UploadRequest)
    (s : Ledger) (file : Bytes) (header : FileHeader)
    (hform : req.formFile = some (file, header))
    (hnew : lookupByHash env s (lib.sha256Hex file) = none)
    (hfail : env.uploadErr = true) :
    (∃ e, (UploadFile lib env req s).2 = .error e) ∧
      (UploadFile lib env req s).1 = s ∧
      (UploadFile lib env req s).1.file_contents = s.file_contents ∧
      (UploadFile lib env req s).1.files = s.files ∧
      (validateUpload lib env req s = .ok (file, header, lib.sha256Hex file, req.owner_id) →
        (UploadFile lib env req s).2 = .error ⟨500, "Failed to upload file"⟩) := by
  have key : (∃ e, (UploadFile lib env req s).2 = .error e) ∧ (UploadFile lib env req s).1 = s ∧
      (validateUpload lib env req s = .ok (file, header, lib.sha256Hex file, req.owner_id) →
        (UploadFile lib env req s).2 = .error ⟨500, "Failed to upload file"⟩) := by
    unfold UploadFile
    cases hv : validateUpload lib env req s with
    | error e0 => simp
    | ok v =>
      obtain ⟨file0, header0, hash0, owner0⟩ := v
      obtain ⟨hf0, hh0, -, -, -, -, -⟩ := validateUpload_ok hv
      rw [hform] at hf0
      simp only [Option.some.injEq, Prod.mk.injEq] at hf0
      obtain ⟨rfl, rfl⟩ := hf0
      subst hh0
      simp [storeContent, hnew, hfail]
  obtain ⟨h1, h2, h3⟩ := key
  refine ⟨h1, h2, ?_, ?_, h3⟩ <;> rw [h2]

/-- Witness for C8: the upload of new content D at the ledger holding A, with a
failing Blob Store write. -/
theorem blob_write_failure_leaves_ledger_witness :
    (UploadFile sampleLib envBlobWriteFails reqD afterA).2 =
        .error ⟨500, "Failed to upload file"⟩ ∧
      (UploadFile sampleLib envBlobWriteFails reqD afterA).1 = afterA := by
  have h := blob_write_failure_leaves_ledger sampleLib envBlobWriteFails reqD afterA bytesD
    headerD rfl (by decide) rfl
  exact ⟨h.2.2.2.2 (by decide), h.2.1⟩

/-! ## C9: the quota threshold -/

/-- C9: for an upload that passes MIME validation, made by an existing owner,
`UploadFile` answers with the quota error if and only if usage plus incoming
size exceeds the quota, and a quota rejection leaves ledger and Blob Store
unchanged; an upload that keeps usage at or below the quota, in particular one
that brings it exactly to the quota, is accepted when the calls that follow the
check succeed. -/
theorem quota_rejection_iff (lib : Lib) (env : UploadEnv) (req : UploadRequest) (s : Ledger)
    (file : Bytes) (header : FileHeader) (user : User)
    (hform : req.formFile = some (file, header))
    (hmime : validateMime lib env file header = .ok ())
    (hhash : env.hashErr = false) (howner : req.owner_id ≠ "")
    (huser : s.users.filter (fun u => u.UserID = req.owner_id) = [user])
    (hq1 : env.userQueryErr = false) (hq2 : env.filesQueryErr = false)
    (hq3 : env.contentsQueryErr = false)
    (hlo : -9223372036854775808 ≤ quotaUsage s req.owner_id + header.Size)
    (hhi : quotaUsage s req.owner_id + header.Size < 9223372036854775808) :
    ((UploadFile lib env req s).2 = .error ⟨403, "Storage quota exceeded"⟩ ↔
        quotaUsage s req.owner_id + header.Size > user.StorageQuota) ∧
      ((UploadFile lib env req s).2 = .error ⟨403, "Storage quota exceeded"⟩ →
        (UploadFile lib env req s).1 = s) ∧
      (quotaUsage s req.owner_id + header.Size ≤ user.StorageQuota →
        env.uploadErr = false → env.insertContentErr = false → env.updateRefErr = false →
        env.nameQueryErr = false → env.insertFileErr = false →
        ∃ newFile, (UploadFile lib env req s).2 = .ok newFile) := by
  have hv := validateUpload_of_checks (s := s) hform hmime hhash howner
  rw [checkQuota_eq env s req.owner_id header user huser hq1 hq2 hq3,
    wrapInt64_of_fits _ hlo hhi] at hv
  by_cases hgt : quotaUsage s req.owner_id + header.Size > user.StorageQuota
  · rw [if_pos hgt] at hv
    simp only [] at hv
    have hU : UploadFile lib env req s = (s, .error ⟨403, "Storage quota exceeded"⟩) := by
      unfold UploadFile
      rw [hv]
    rw [hU]
    exact ⟨⟨fun _ => hgt, fun _ => rfl⟩, fun _ => rfl, fun hle => absurd hgt (by omega)⟩
  · rw [if_neg hgt] at hv
    simp only [] at hv
    have hne : (UploadFile lib env req s).2 ≠ .error ⟨403, "Storage quota exceeded"⟩ := by
      intro h
      unfold UploadFile at h
      rw [hv] at h
      simp only [] at h
      cases hsc : storeContent env s file header (lib.sha256Hex file) with
      | mk s1 r =>
        cases r with
        | error e1 =>
          have := storeContent_error_status env s file header _ e1 (by rw [hsc])
          simp only [hsc] at h
          simp only [Except.error.injEq] at h
          rw [h] at this
          simp at this
        | ok fc =>
          simp only [hsc] at h
          have := createLogicalFile_error_status env s1 req.owner_id header fc _ h
          simp at this
    refine ⟨⟨fun h => absurd h hne, fun h => absurd h hgt⟩, fun h => absurd h hne, ?_⟩
    intro _ f1 f2 f3 f4 f5
    obtain ⟨s1, fc, hsc⟩ := storeContent_succeeds env s file header (lib.sha256Hex file) f1 f2 f3
    obtain ⟨s2, nf, hcl⟩ := createLogicalFile_succeeds env s1 req.owner_id header fc f4 f5
    refine ⟨nf, ?_⟩
    unfold UploadFile
    rw [hv]
    simp only [hsc, hcl]

/-- Witness for C9: with quota 1000 and usage 600, an upload of 400 bytes brings
usage exactly to the quota and is accepted. -/
theorem quota_rejection_iff_witness :
    quotaUsage afterA "u1" + 400 = 1000 ∧
      (UploadFile sampleLib envB reqD afterA).2 ≠ .error ⟨403, "Storage quota exceeded"⟩ ∧
      (∃ f, (UploadFile sampleLib envB reqD afterA).2 = .ok f) := by
  have h := quota_rejection_iff sampleLib envB reqD afterA bytesD headerD userU1 rfl
    (by decide) rfl (by decide) (by decide) rfl rfl rfl (by decide) (by decide)
  refine ⟨by decide, fun hrej => ?_, h.2.2 (by decide) rfl rfl rfl rfl rfl⟩
  have := h.1.mp hrej
  revert this
  decide

/-! ## C10: release of a reference by `DeleteFile` -/

/-- C10: when the owner deletes a non-deleted file whose content row has reference
count n ≥ 1 and every call succeeds, `DeleteFile` answers 204 and soft-deletes
the file; if n > 1 the row is left with reference count n - 1, all other rows
and the Blob Store are unchanged; if n = 1 the Blob Store object at the row's
storage path is removed and the row is removed from `file_contents`. -/
theorem delete_releases_reference (env : DeleteEnv) (req : DeleteRequest) (s : Ledger)
    (f : UserFile) (fc : FileContent)
    (hf : f ∈ s.files) (_hlive : f.IsDeleted = false) (hFK : FileKeysUnique s)
    (hid : req.id = f.FileID) (hid0 : f.FileID ≠ "")
    (huser : req.user_id = f.OwnerID) (hu0 : f.OwnerID ≠ "")
    (hfc : fc ∈ s.file_contents) (hcid : fc.ContentID = f.ContentID)
    (hCK : ContentKeysUnique s) (hn : 1 ≤ fc.ReferenceCount)
    (he1 : env.fileQueryErr = false) (he2 : env.softDeleteErr = false)
    (he3 : env.contentQueryErr = false) (he4 : env.updateRefErr = false)
    (he5 : env.removeFileErr = false) (he6 : env.deleteRowErr = false) :
    (DeleteFile env req s).2 = .ok () ∧
      (DeleteFile env req s).1.files = markDeleted s.files f.FileID ∧
      (1 < fc.ReferenceCount →
        (DeleteFile env req s).1.file_contents =
            s.file_contents.map (fun r =>
              if r = fc then { fc with ReferenceCount := fc.ReferenceCount - 1 } else r) ∧
          (DeleteFile env req s).1.storage = s.storage) ∧
      (fc.ReferenceCount = 1 →
        (DeleteFile env req s).1.storage = blobRemove ("uploads/" ++ fc.StoragePath) s.storage ∧
          (DeleteFile env req s).1.file_contents = s.file_contents.filter (fun r => r ≠ fc) ∧
          fc ∉ (DeleteFile env req s).1.file_contents) := by
  have hsel : s.files.filter (fun x => x.FileID = f.FileID) = [f] :=
    filter_key_eq_singleton (fun x : UserFile => x.FileID) s.files f hFK hf
  have hsel2 : s.file_contents.filter (fun r => r.ContentID = f.ContentID) = [fc] := by
    rw [← hcid]
    exact filter_key_eq_singleton (fun r : FileContent => r.ContentID) s.file_contents fc hCK hfc
  have hmap : setReferenceCount s.file_contents f.ContentID (fc.ReferenceCount - 1) =
      s.file_contents.map (fun r =>
        if r = fc then { fc with ReferenceCount := fc.ReferenceCount - 1 } else r) := by
    rw [← hcid]
    exact setReferenceCount_eq_map s.file_contents fc (fc.ReferenceCount - 1) hCK hfc
  by_cases h1 : fc.ReferenceCount = 1
  · have hzero : fc.ReferenceCount - 1 = 0 := by omega
    have hfilter : (setReferenceCount s.file_contents f.ContentID 0).filter
        (fun r => ¬ r.ContentID = fc.ContentID) = s.file_contents.filter (fun r => ¬ r = fc) := by
      unfold setReferenceCount
      rw [List.filter_map]
      have hfun : ∀ r ∈ s.file_contents,
          ((fun r : FileContent => decide (¬ r.ContentID = fc.ContentID)) ∘
            (fun r => if r.ContentID = f.ContentID then
              { r with ReferenceCount := 0 } else r)) r =
          decide (¬ r = fc) := by
        intro r hr
        have hiff := key_eq_iff_of_nodup (fun r : FileContent => r.ContentID)
          s.file_contents fc r hCK hfc hr
        simp only [Function.comp]
        by_cases e : r = fc
        · subst e
          simp [hcid]
        · have e2 : ¬ r.ContentID = fc.ContentID := fun h => e (hiff.mp h)
          have e3 : ¬ r.ContentID = f.ContentID := by rw [← hcid]; exact e2
          simp [e, e2, e3]
      rw [List.filter_congr hfun]
      have hid2 : ∀ r ∈ s.file_contents.filter (fun r => decide (¬ r = fc)),
          (fun r : FileContent => if r.ContentID = f.ContentID then
              { r with ReferenceCount := 0 } else r) r = id r := by
        intro r hr
        obtain ⟨hr1, hr2⟩ := List.mem_filter.mp hr
        have hiff := key_eq_iff_of_nodup (fun r : FileContent => r.ContentID)
          s.file_contents fc r hCK hfc hr1
        have e : r ≠ fc := by simpa using hr2
        have e3 : ¬ r.ContentID = f.ContentID := by
          rw [← hcid]
          exact fun h => e (hiff.mp h)
        simp [e3]
      rw [List.map_congr_left hid2, List.map_id]
    have hD : DeleteFile env req s =
        ({ s with files := markDeleted s.files f.FileID
                  file_contents := s.file_contents.filter (fun r => r ≠ fc)
                  storage := blobRemove ("uploads/" ++ fc.StoragePath) s.storage }, .ok ()) := by
      unfold DeleteFile
      simp only [hid, huser, hid0, hu0, he1, he2, he3, he4, he5, he6, hsel, hsel2, single,
        hzero, hfilter, if_false, if_true, Bool.false_eq_true, ne_eq, not_true_eq_false]
    rw [hD]
    refine ⟨rfl, rfl, fun h => absurd h1 (by omega), fun _ => ⟨rfl, rfl, ?_⟩⟩
    simp
  · have hnz : ¬ fc.ReferenceCount - 1 = 0 := by omega
    have hD : DeleteFile env req s =
        ({ s with files := markDeleted s.files f.FileID
                  file_contents := s.file_contents.map (fun r =>
                    if r = fc then { fc with ReferenceCount := fc.ReferenceCount - 1 } else r) },
         .ok ()) := by
      unfold DeleteFile
      simp only [hid, huser, hid0, hu0, he1, he2, he3, he4, hsel, hsel2, single,
        hnz, hmap, if_false, Bool.false_eq_true, ne_eq, not_true_eq_false]
    rw [hD]
    exact ⟨rfl, rfl, fun _ => ⟨rfl, rfl⟩, fun h => absurd h h1⟩

/-- Witness for C10: two files share one content; deleting the first leaves the
row with reference count 1 and the object in place, deleting the second
removes the row and the object. -/
theorem delete_releases_reference_witness :
    (DeleteFile {} delFile1 (afterAB 2000)).1.file_contents = [contentRowA 1] ∧
      (DeleteFile {} delFile1 (afterAB 2000)).1.storage = [("uploads/path-1", bytesA)] ∧
      (DeleteFile {} delFile2 (DeleteFile {} delFile1 (afterAB 2000)).1).1.file_contents = [] ∧
      (DeleteFile {} delFile2 (DeleteFile {} delFile1 (afterAB 2000)).1).1.storage = [] := by
  have h1 := delete_releases_reference {} delFile1 (afterAB 2000) fileRow1 (contentRowA 2)
    (by decide) rfl (by decide) rfl (by decide) rfl (by decide) (by decide) rfl (by decide)
    (by decide) rfl rfl rfl rfl rfl rfl
  have h2 := delete_releases_reference {} delFile2 (DeleteFile {} delFile1 (afterAB 2000)).1
    fileRow2 (contentRowA 1)
    (by decide) rfl (by decide) rfl (by decide) rfl (by decide) (by decide) rfl (by decide)
    (by decide) rfl rfl rfl rfl rfl rfl
  obtain ⟨-, -, h1a, -⟩ := h1
  obtain ⟨-, -, -, h2b⟩ := h2
  obtain ⟨h1r, h1s⟩ := h1a (by decide)
  obtain ⟨h2s, h2r, -⟩ := h2b rfl
  refine ⟨?_, ?_, ?_, ?_⟩
  · rw [h1r]; decide
  · rw [h1s]; decide
  · rw [h2r]; decide
  · rw [h2s]; decide

/-! ## Lemmas on sequences of calls and on `DeleteFile` -/

theorem lookupByHash_mem {env : UploadEnv} {s : Ledger} {h : String} {fc : FileContent}
    (hl : lookupByHash env s h = some fc) : fc ∈ s.file_contents := by
  unfold lookupByHash at hl
  cases he : env.hashLookupErr with
  | true => simp [he] at hl
  | false =>
    simp only [he, Bool.false_eq_true, if_false] at hl
    have hmem : fc ∈ s.file_contents.filter (fun r => r.HashSHA256 = h) := by
      generalize s.file_contents.filter (fun r => r.HashSHA256 = h) = l at hl
      match l, hl with
      | [r], hl =>
        simp only [single, Option.some.injEq] at hl
        simp [hl]
    exact (List.mem_filter.mp hmem).1

theorem single_eq_some {α : Type} {l : List α} {a : α} (h : single l = some a) : l = [a] := by
  match l, h with
  | [r], h =>
    simp only [single, Option.some.injEq] at h
    rw [h]

theorem setReferenceCount_pos (rows : List FileContent) (cid : String) (n : Int)
    (hinv : ∀ r ∈ rows, 1 ≤ r.ReferenceCount) (hn : 1 ≤ n) :
    ∀ r ∈ setReferenceCount rows cid n, 1 ≤ r.ReferenceCount := by
  intro r hr
  unfold setReferenceCount at hr
  obtain ⟨x, hx, rfl⟩ := List.mem_map.mp hr
  by_cases hc : x.ContentID = cid
  · simp [hc, hn]
  · simp [hc, hinv x hx]

theorem createLogicalFile_contents (env : UploadEnv) (s : Ledger) (ownerID : String)
    (header : FileHeader) (fc : FileContent) :
    (createLogicalFile env s ownerID header fc).1.file_contents = s.file_contents ∧
      (createLogicalFile env s ownerID header fc).1.storage = s.storage := by
  unfold createLogicalFile
  cases env.nameQueryErr <;> cases env.insertFileErr <;> simp

theorem storeContent_pos (env : UploadEnv) (s : Ledger) (file : Bytes) (header : FileHeader)
    (h : String) (hinv : ∀ r ∈ s.file_contents, 1 ≤ r.ReferenceCount) :
    ∀ r ∈ (storeContent env s file header h).1.file_contents, 1 ≤ r.ReferenceCount := by
  unfold storeContent
  cases hl : lookupByHash env s h with
  | none =>
    simp only []
    cases env.uploadErr <;> cases env.insertContentErr <;>
      simp only [Bool.false_eq_true, if_false, if_true]
    · intro r hr
      rcases List.mem_append.mp hr with h1 | h1
      · exact hinv r h1
      · simp only [List.mem_singleton] at h1
        rw [h1]
    · exact hinv
    · exact hinv
    · exact hinv
  | some fc =>
    simp only []
    have hfc := hinv fc (lookupByHash_mem hl)
    cases env.updateRefErr <;> simp only [Bool.false_eq_true, if_false, if_true]
    · exact setReferenceCount_pos _ _ _ hinv (by omega)
    · exact hinv

theorem storeContent_keys (env : UploadEnv) (s : Ledger) (file : Bytes) (header : FileHeader)
    (h : String) : ∀ k ∈ storedKeys s, k ∈ storedKeys (storeContent env s file header h).1 := by
  intro k hk
  unfold storeContent
  cases lookupByHash env s h with
  | none =>
    simp only []
    have hput : k ∈ (blobPut ("uploads/" ++ env.storagePath) file s.storage).map (fun o => o.1) := by
      unfold storedKeys at hk
      obtain ⟨o, ho, rfl⟩ := List.mem_map.mp hk
      unfold blobPut
      by_cases hkey : o.1 = "uploads/" ++ env.storagePath
      · rw [hkey]
        simp
      · apply List.mem_map.mpr
        exact ⟨o, List.mem_append_left _ (List.mem_filter.mpr ⟨ho, by simpa using hkey⟩), rfl⟩
    cases env.uploadErr <;> cases env.insertContentErr <;>
      simp only [Bool.false_eq_true, if_false, if_true]
    · exact hput
    · exact hput
    · exact hk
    · exact hk
  | some fc =>
    simp only []
    cases env.updateRefErr <;> simp only [Bool.false_eq_true, if_false, if_true] <;> exact hk

theorem UploadFile_pos (lib : Lib) (env : UploadEnv) (req : UploadRequest) (s : Ledger)
    (hinv : ∀ r ∈ s.file_contents, 1 ≤ r.ReferenceCount) :
    ∀ r ∈ (UploadFile lib env req s).1.file_contents, 1 ≤ r.ReferenceCount := by
  unfold UploadFile
  cases hv : validateUpload lib env req s with
  | error e => exact hinv
  | ok v =>
    obtain ⟨file0, header0, hash0, owner0⟩ := v
    simp only []
    have hsc := storeContent_pos env s file0 header0 hash0 hinv
    cases hs : storeContent env s file0 header0 hash0 with
    | mk s1 r =>
      rw [hs] at hsc
      cases r with
      | error e => exact hsc
      | ok fc =>
        simp only []
        rw [(createLogicalFile_contents env s1 owner0 header0 fc).1]
        exact hsc

theorem UploadFile_keys (lib : Lib) (env : UploadEnv) (req : UploadRequest) (s : Ledger) :
    ∀ k ∈ storedKeys s, k ∈ storedKeys (UploadFile lib env req s).1 := by
  intro k hk
  unfold UploadFile
  cases hv : validateUpload lib env req s with
  | error e => exact hk
  | ok v =>
    obtain ⟨file0, header0, hash0, owner0⟩ := v
    simp only []
    have hsc := storeContent_keys env s file0 header0 hash0 k hk
    cases hs : storeContent env s file0 header0 hash0 with
    | mk s1 r =>
      rw [hs] at hsc
      cases r with
      | error e => exact hsc
      | ok fc =>
        simp only []
        unfold storedKeys
        rw [(createLogicalFile_contents env s1 owner0 header0 fc).2]
        exact hsc

theorem DeleteFile_outcome (env : DeleteEnv) (req : DeleteRequest) (s : Ledger) :
    ((∃ e, (DeleteFile env req s).2 = .error e) ∧
        (DeleteFile env req s).1.file_contents = s.file_contents ∧
        (DeleteFile env req s).1.storage = s.storage) ∨
      (∃ f fc, s.files.filter (fun x => x.FileID = req.id) = [f] ∧
        s.file_contents.filter (fun r => r.ContentID = f.ContentID) = [fc] ∧
        f.OwnerID = req.user_id ∧
        (DeleteFile env req s).2 = .ok () ∧
        (DeleteFile env req s).1.files = markDeleted s.files req.id ∧
        (fc.ReferenceCount - 1 = 0 →
          (DeleteFile env req s).1.storage =
              (if env.removeFileErr then s.storage
               else blobRemove ("uploads/" ++ fc.StoragePath) s.storage) ∧
            (DeleteFile env req s).1.file_contents =
              (if env.deleteRowErr then setReferenceCount s.file_contents f.ContentID 0
               else (setReferenceCount s.file_contents f.ContentID 0).filter
                 (fun r => r.ContentID ≠ fc.ContentID))) ∧
        (fc.ReferenceCount - 1 ≠ 0 →
          (DeleteFile env req s).1.storage = s.storage ∧
            (DeleteFile env req s).1.file_contents =
              setReferenceCount s.file_contents f.ContentID (fc.ReferenceCount - 1))) := by
  unfold DeleteFile
  by_cases h1 : req.id = ""
  · left; simp [h1]
  by_cases h2 : req.user_id = ""
  · left; simp [h1, h2]
  simp only [h1, h2, if_false]
  cases hq : (if env.fileQueryErr then none
      else single (s.files.filter (fun f => f.FileID = req.id))) with
  | none => left; simp
  | some f =>
    have hsel : s.files.filter (fun x => x.FileID = req.id) = [f] := by
      cases he : env.fileQueryErr with
      | true => simp [he] at hq
      | false =>
        simp only [he, Bool.false_eq_true, if_false] at hq
        exact single_eq_some hq
    simp only []
    by_cases h3 : f.OwnerID = req.user_id
    · simp only [h3, ne_eq, not_true_eq_false, if_false]
      cases h4 : env.softDeleteErr with
      | true => left; simp
      | false =>
        simp only [Bool.false_eq_true, if_false]
        cases hc : (if env.contentQueryErr then none
            else single (s.file_contents.filter (fun r => r.ContentID = f.ContentID))) with
        | none => left; simp
        | some fc =>
          have hsel2 : s.file_contents.filter (fun r => r.ContentID = f.ContentID) = [fc] := by
            cases he : env.contentQueryErr with
            | true => simp [he] at hc
            | false =>
              simp only [he, Bool.false_eq_true, if_false] at hc
              exact single_eq_some hc
          simp only []
          cases h5 : env.updateRefErr with
          | true => left; simp
          | false =>
            right
            refine ⟨f, fc, hsel, hsel2, h3, ?_⟩
            simp only [Bool.false_eq_true, if_false]
            by_cases hz : fc.ReferenceCount - 1 = 0
            · rw [if_pos hz]
              refine ⟨rfl, ?_, ?_, fun h => absurd hz h⟩
              · cases env.removeFileErr <;> cases env.deleteRowErr <;> rfl
              · intro _
                rw [hz]
                cases env.removeFileErr <;> cases env.deleteRowErr <;> simp
            · rw [if_neg hz]
              exact ⟨rfl, rfl, fun h => absurd h hz, fun _ => ⟨rfl, rfl⟩⟩
    · left
      simp [h3]

theorem DeleteFile_pos (env : DeleteEnv) (req : DeleteRequest) (s : Ledger)
    (hrow : env.deleteRowErr = false)
    (hinv : ∀ r ∈ s.file_contents, 1 ≤ r.ReferenceCount) :
    ∀ r ∈ (DeleteFile env req s).1.file_contents, 1 ≤ r.ReferenceCount := by
  rcases DeleteFile_outcome env req s with ⟨-, h, -⟩ | ⟨f, fc, -, hsel2, -, -, -, hz, hnz⟩
  · rw [h]
    exact hinv
  · have hfcmem : fc ∈ s.file_contents.filter (fun r => r.ContentID = f.ContentID) := by
      rw [hsel2]
      simp
    obtain ⟨hfc, hcid⟩ := List.mem_filter.mp hfcmem
    have hcid2 : fc.ContentID = f.ContentID := by simpa using hcid
    by_cases h0 : fc.ReferenceCount - 1 = 0
    · rw [(hz h0).2, hrow]
      simp only [Bool.false_eq_true, if_false]
      intro r hr
      obtain ⟨hr1, hr2⟩ := List.mem_filter.mp hr
      unfold setReferenceCount at hr1
      obtain ⟨x, hx, rfl⟩ := List.mem_map.mp hr1
      by_cases hc : x.ContentID = f.ContentID
      · simp [hc, hcid2] at hr2
      · simp only [hc, if_false]
        exact hinv x hx
    · rw [(hnz h0).2]
      have := hinv fc hfc
      exact setReferenceCount_pos _ _ _ hinv (by omega)

theorem runCalls_pos (lib : Lib) (users : List User) (calls : List Call)
    (hok : ∀ c ∈ calls, c.rowDeleteSucceeds) :
    ∀ r ∈ (runCalls lib (emptyLedger users) calls).file_contents, 1 ≤ r.ReferenceCount := by
  induction calls using List.reverseRecOn with
  | nil =>
    intro r hr
    simp [runCalls, emptyLedger] at hr
  | append_singleton calls c ih =>
    have ih2 := ih (fun x hx => hok x (by simp [hx]))
    have hc : c.rowDeleteSucceeds := hok c (by simp)
    simp only [runCalls, List.foldl_append, List.foldl_cons, List.foldl_nil]
    cases c with
    | upload env req => exact UploadFile_pos lib env req _ ih2
    | delete env req => exact DeleteFile_pos env req _ hc ih2

theorem mem_keys_blobRemove (key k : String) (store : List (String × Bytes)) :
    k ∈ (blobRemove key store).map (fun o => o.1) ↔ k ∈ store.map (fun o => o.1) ∧ k ≠ key := by
  unfold blobRemove
  constructor
  · intro h
    obtain ⟨o, ho, rfl⟩ := List.mem_map.mp h
    obtain ⟨ho1, ho2⟩ := List.mem_filter.mp ho
    exact ⟨List.mem_map_of_mem _ ho1, by simpa using ho2⟩
  · rintro ⟨h, hne⟩
    obtain ⟨o, ho, rfl⟩ := List.mem_map.mp h
    exact List.mem_map.mpr ⟨o, List.mem_filter.mpr ⟨ho, by simpa using hne⟩, rfl⟩

/-! ## C11: reference counts over runs, and reclamation -/

/-- C11 (as stated, refuted): `u1` uploads A and deletes it.  When the row
delete of line 648 fails, the call answers 204 and the content row stays with
reference count 0; a second `DeleteFile` call for the same file, with no
failing call, answers 204 and writes reference count -1.  When instead the Blob
Store removal of line 641 fails, the call answers 204, the count has reached 0
and the row is deleted, and the stored object is not removed. -/
theorem failed_cleanup_breaks_reclaim :
    afterA2000.file_contents = [contentRowA 1] ∧
      afterA2000.storage = [("uploads/path-1", bytesA)] ∧
      (DeleteFile envRowDeleteFails delFile1 afterA2000).2 = .ok () ∧
      (DeleteFile envRowDeleteFails delFile1 afterA2000).1.file_contents = [contentRowA 0] ∧
      (DeleteFile {} delFile1 (DeleteFile envRowDeleteFails delFile1 afterA2000).1).2 = .ok () ∧
      (DeleteFile {} delFile1 (DeleteFile envRowDeleteFails delFile1 afterA2000).1).1.file_contents =
        [contentRowA (-1)] ∧
      (DeleteFile envRemoveFails delFile1 afterA2000).2 = .ok () ∧
      (DeleteFile envRemoveFails delFile1 afterA2000).1.file_contents = [] ∧
      (DeleteFile envRemoveFails delFile1 afterA2000).1.storage =
        [("uploads/path-1", bytesA)] := by
  decide

/-- C11 (amended): in every ledger reached from an empty one by a sequence of
`UploadFile` and `DeleteFile` calls in which no `file_contents` row delete
fails (uploads followed by deletes in particular; any other call may fail),
every reference count is at least 1, so no row holds a negative count and no
decrement writes one; an upload removes no stored object; a `DeleteFile` call
leaves no negative count and removes a stored object only when it brings the
reference count of the deleted file's content row to 0, the object being the
one at that row's storage path (never earlier); and when the count reaches 0 in
a call whose Blob Store removal and row delete do not fail, the object and the
row are gone after the call (never later). -/
theorem reclaim_exactly_at_zero (lib : Lib) (users : List User) (calls : List Call)
    (hok : ∀ c ∈ calls, c.rowDeleteSucceeds) (s : Ledger)
    (hs : s = runCalls lib (emptyLedger users) calls) :
    (∀ r ∈ s.file_contents, 0 ≤ r.ReferenceCount ∧ 0 ≤ r.ReferenceCount - 1) ∧
      (∀ (env : UploadEnv) (req : UploadRequest),
        ∀ k ∈ storedKeys s, k ∈ storedKeys (UploadFile lib env req s).1) ∧
      (∀ (env : DeleteEnv) (req : DeleteRequest),
        (∀ r ∈ (DeleteFile env req s).1.file_contents, 0 ≤ r.ReferenceCount) ∧
        (∀ k ∈ storedKeys s, k ∉ storedKeys (DeleteFile env req s).1 →
          ∃ f fc, f ∈ s.files ∧ f.FileID = req.id ∧ fc ∈ s.file_contents ∧
            fc.ContentID = f.ContentID ∧ fc.ReferenceCount - 1 = 0 ∧
            k = "uploads/" ++ fc.StoragePath ∧ (DeleteFile env req s).2 = .ok ()) ∧
        (env.removeFileErr = false → env.deleteRowErr = false →
          ∀ f fc, (DeleteFile env req s).2 = .ok () → f ∈ s.files → f.FileID = req.id →
          fc ∈ s.file_contents → fc.ContentID = f.ContentID → fc.ReferenceCount - 1 = 0 →
          "uploads/" ++ fc.StoragePath ∉ storedKeys (DeleteFile env req s).1 ∧
            ∀ r ∈ (DeleteFile env req s).1.file_contents, r.ContentID ≠ fc.ContentID)) := by
  have hinv : ∀ r ∈ s.file_contents, 1 ≤ r.ReferenceCount := by
    rw [hs]
    exact runCalls_pos lib users calls hok
  refine ⟨fun r hr => ?_, fun env req => UploadFile_keys lib env req s, ?_⟩
  · have := hinv r hr
    constructor <;> omega
  intro env req
  refine ⟨fun r hr => ?_, ?_, ?_⟩
  · rcases DeleteFile_outcome env req s with ⟨-, h, -⟩ | ⟨f, fc, -, hsel2, -, -, -, hz, hnz⟩
    · rw [h] at hr
      have := hinv r hr
      omega
    · have hfcmem : fc ∈ s.file_contents.filter (fun r => r.ContentID = f.ContentID) := by
        rw [hsel2]; simp
      have hfc1 := hinv fc (List.mem_filter.mp hfcmem).1
      have hset : ∀ n : Int, 0 ≤ n →
          ∀ x ∈ setReferenceCount s.file_contents f.ContentID n, 0 ≤ x.ReferenceCount := by
        intro n hn x hx
        unfold setReferenceCount at hx
        obtain ⟨y, hy, rfl⟩ := List.mem_map.mp hx
        by_cases hc : y.ContentID = f.ContentID
        · simp [hc, hn]
        · have := hinv y hy
          simp only [hc, if_false]
          omega
      by_cases h0 : fc.ReferenceCount - 1 = 0
      · rw [(hz h0).2] at hr
        cases hd : env.deleteRowErr with
        | true =>
          rw [hd] at hr
          exact hset 0 (le_refl 0) r hr
        | false =>
          rw [hd] at hr
          simp only [Bool.false_eq_true, if_false] at hr
          exact hset 0 (le_refl 0) r (List.mem_filter.mp hr).1
      · rw [(hnz h0).2] at hr
        exact hset _ (by omega) r hr
  · intro k hk hgone
    rcases DeleteFile_outcome env req s with ⟨-, -, h⟩ | ⟨f, fc, hsel, hsel2, -, hres, -, hz, hnz⟩
    · exact absurd (by unfold storedKeys; rw [h]; exact hk) hgone
    · have hfmem : f ∈ s.files.filter (fun x => x.FileID = req.id) := by rw [hsel]; simp
      have hfcmem : fc ∈ s.file_contents.filter (fun r => r.ContentID = f.ContentID) := by
        rw [hsel2]; simp
      obtain ⟨hf1, hf2⟩ := List.mem_filter.mp hfmem
      obtain ⟨hc1, hc2⟩ := List.mem_filter.mp hfcmem
      by_cases h0 : fc.ReferenceCount - 1 = 0
      · refine ⟨f, fc, hf1, by simpa using hf2, hc1, by simpa using hc2, h0, ?_, hres⟩
        have hst := (hz h0).1
        cases hrm : env.removeFileErr with
        | true =>
          rw [hrm] at hst
          simp only [if_true] at hst
          exact absurd (by unfold storedKeys; rw [hst]; exact hk) hgone
        | false =>
          rw [hrm] at hst
          simp only [Bool.false_eq_true, if_false] at hst
          by_contra hne
          apply hgone
          unfold storedKeys
          rw [hst]
          exact (mem_keys_blobRemove _ k s.storage).mpr ⟨hk, hne⟩
      · exact absurd (by unfold storedKeys; rw [(hnz h0).1]; exact hk) hgone
  · intro hrm hrow f fc hres hf hfid hfc hcid h0
    rcases DeleteFile_outcome env req s with ⟨⟨e, he⟩, -, -⟩ |
      ⟨f1, fc1, hsel, hsel2, -, -, -, hz, -⟩
    · rw [he] at hres
      cases hres
    · have hfmem : f ∈ s.files.filter (fun x => x.FileID = req.id) :=
        List.mem_filter.mpr ⟨hf, by simpa using hfid⟩
      rw [hsel] at hfmem
      have hff : f = f1 := by simpa using hfmem
      subst hff
      have hfcmem : fc ∈ s.file_contents.filter (fun r => r.ContentID = f.ContentID) :=
        List.mem_filter.mpr ⟨hfc, by simpa using hcid⟩
      rw [hsel2] at hfcmem
      have hcc : fc = fc1 := by simpa using hfcmem
      subst hcc
      obtain ⟨hst, hrows⟩ := hz h0
      rw [hrm] at hst
      rw [hrow] at hrows
      simp only [Bool.false_eq_true, if_false] at hst hrows
      constructor
      · unfold storedKeys
        rw [hst]
        intro hmem
        exact ((mem_keys_blobRemove _ _ s.storage).mp hmem).2 rfl
      · intro r hr
        rw [hrows] at hr
        simpa using (List.mem_filter.mp hr).2

/-- Witness for C11 (amended): after two uploads of the same bytes and the
delete of the first file, the delete of the second file removes the stored
object. -/
theorem reclaim_exactly_at_zero_witness :
    (∀ r ∈ afterFirstDelete.file_contents, 0 ≤ r.ReferenceCount ∧ 0 ≤ r.ReferenceCount - 1) ∧
      "uploads/path-1" ∈ storedKeys afterFirstDelete ∧
      "uploads/path-1" ∉ storedKeys (DeleteFile {} delFile2 afterFirstDelete).1 := by
  have hok : ∀ c ∈ uploadsThenDelete, c.rowDeleteSucceeds := by
    intro c hc
    simp only [uploadsThenDelete, List.mem_cons, List.mem_singleton, List.not_mem_nil,
      or_false] at hc
    rcases hc with rfl | rfl | rfl
    · exact trivial
    · exact trivial
    · exact rfl
  have h := reclaim_exactly_at_zero sampleLib
    [{ UserID := "u1", Username := "alice", StorageQuota := 2000 }] uploadsThenDelete hok
    afterFirstDelete rfl
  refine ⟨h.1, by decide, ?_⟩
  exact ((h.2.2 {} delFile2).2.2 rfl rfl fileRow2 (contentRowA 1) (by decide) (by decide) rfl
    (by decide) rfl (by decide)).1

/-! ## C12: delete of a file that is already soft-deleted -/

/-- C12 (evaluation at the failing input): the first file is already soft-deleted
and the second file still references the content; `DeleteFile` for the first
file answers 204 instead of the not-found error, and removes the content row
and the stored object. -/
theorem delete_of_deleted_file_succeeds :
    afterFirstDelete.files = [{ fileRow1 with IsDeleted := true }, fileRow2] ∧
      afterFirstDelete.file_contents = [contentRowA 1] ∧
      afterFirstDelete.storage = [("uploads/path-1", bytesA)] ∧
      (DeleteFile {} delFile1 afterFirstDelete).2 = .ok () ∧
      (DeleteFile {} delFile1 afterFirstDelete).1.file_contents = [] ∧
      (DeleteFile {} delFile1 afterFirstDelete).1.storage = [] := by
  decide

/-! ## C13: delete by a user who is not the owner -/

/-- C13: when the requesting user id differs from the owner of the file named by
the request, `DeleteFile` answers with the forbidden error and leaves the whole
ledger unchanged: the `is_deleted` flag of the file, every reference count and
the Blob Store. -/
theorem delete_by_other_user_forbidden (env : DeleteEnv) (req : DeleteRequest) (s : Ledger)
    (f : UserFile) (hf : f ∈ s.files) (hFK : FileKeysUnique s)
    (hid : req.id = f.FileID) (hid0 : f.FileID ≠ "") (hu0 : req.user_id ≠ "")
    (hother : req.user_id ≠ f.OwnerID) (hq : env.fileQueryErr = false) :
    DeleteFile env req s =
        (s, .error ⟨403, "You do not have permission to delete this file"⟩) ∧
      (DeleteFile env req s).1.files = s.files ∧
      (DeleteFile env req s).1.file_contents = s.file_contents ∧
      (DeleteFile env req s).1.storage = s.storage := by
  have hsel : s.files.filter (fun x => x.FileID = f.FileID) = [f] :=
    filter_key_eq_singleton (fun x : UserFile => x.FileID) s.files f hFK hf
  have hne : ¬ f.OwnerID = req.user_id := fun e => hother e.symm
  have hD : DeleteFile env req s =
      (s, .error ⟨403, "You do not have permission to delete this file"⟩) := by
    unfold DeleteFile
    simp only [hid, hid0, hu0, hq, hsel, single, hne, if_false, if_true, Bool.false_eq_true,
      ne_eq, not_false_eq_true]
  rw [hD]
  exact ⟨rfl, rfl, rfl, rfl⟩

/-- Witness for C13: `u2` asks to delete a file of `u1`. -/
theorem delete_by_other_user_forbidden_witness :
    DeleteFile {} delFile1ByOther (afterAB 2000) =
      (afterAB 2000, .error ⟨403, "You do not have permission to delete this file"⟩) :=
  (delete_by_other_user_forbidden {} delFile1ByOther (afterAB 2000) fileRow1 (by decide)
    (by decide) rfl (by decide) (by decide) (by decide) rfl).1

/-! ## C14: failure of the Blob Store removal -/

/-- C14: when the reference count reaches 0 and the Blob Store removal fails,
`DeleteFile` still removes the `file_contents` row and still answers 204; the
stored object stays behind. -/
theorem reclaim_survives_blob_delete_failure (env : DeleteEnv) (req : DeleteRequest)
    (s : Ledger) (f : UserFile) (fc : FileContent)
    (hf : f ∈ s.files) (hFK : FileKeysUnique s)
    (hid : req.id = f.FileID) (hid0 : f.FileID ≠ "")
    (huser : req.user_id = f.OwnerID) (hu0 : f.OwnerID ≠ "")
    (hfc : fc ∈ s.file_contents) (hcid : fc.ContentID = f.ContentID)
    (hCK : ContentKeysUnique s) (hone : fc.ReferenceCount = 1)
    (he1 : env.fileQueryErr = false) (he2 : env.softDeleteErr = false)
    (he3 : env.contentQueryErr = false) (he4 : env.updateRefErr = false)
    (hfail : env.removeFileErr = true) (he6 : env.deleteRowErr = false) :
    (DeleteFile env req s).2 = .ok () ∧
      fc ∉ (DeleteFile env req s).1.file_contents ∧
      (∀ r ∈ (DeleteFile env req s).1.file_contents, r.ContentID ≠ fc.ContentID) ∧
      (∀ r ∈ s.file_contents, r ≠ fc → r ∈ (DeleteFile env req s).1.file_contents) ∧
      (DeleteFile env req s).1.storage = s.storage := by
  have hsel : s.files.filter (fun x => x.FileID = req.id) = [f] := by
    rw [hid]
    exact filter_key_eq_singleton (fun x : UserFile => x.FileID) s.files f hFK hf
  have hsel2 : s.file_contents.filter (fun r => r.ContentID = f.ContentID) = [fc] := by
    rw [← hcid]
    exact filter_key_eq_singleton (fun r : FileContent => r.ContentID) s.file_contents fc hCK hfc
  have h0 : fc.ReferenceCount - 1 = 0 := by omega
  rcases DeleteFile_outcome env req s with ⟨⟨e, he⟩, -, -⟩ |
    ⟨f1, fc1, hs1, hs2, -, hres, -, hz, -⟩
  · exfalso
    unfold DeleteFile at he
    have hreq : ¬ req.id = "" := by rw [hid]; exact hid0
    have hreq2 : ¬ req.user_id = "" := by rw [huser]; exact hu0
    simp [hreq, hreq2, hu0, he1, he2, he3, he4, hsel, hsel2, single, huser, h0, hfail, he6] at he
  · rw [hsel] at hs1
    have hff : f = f1 := by simpa using hs1
    subst hff
    rw [hsel2] at hs2
    have hcc : fc = fc1 := by simpa using hs2
    subst hcc
    obtain ⟨hst, hrows⟩ := hz h0
    rw [hfail] at hst
    rw [he6] at hrows
    simp only [if_true, Bool.false_eq_true, if_false] at hst hrows
    refine ⟨hres, ?_, ?_, ?_, hst⟩
    · rw [hrows]
      intro hmem
      simpa using (List.mem_filter.mp hmem).2
    · intro r hr
      rw [hrows] at hr
      simpa using (List.mem_filter.mp hr).2
    · intro r hr hne
      rw [hrows]
      have hiff := key_eq_iff_of_nodup (fun r : FileContent => r.ContentID)
        s.file_contents fc r hCK hfc hr
      have hc : ¬ r.ContentID = fc.ContentID := fun e => hne (hiff.mp e)
      have hc2 : ¬ r.ContentID = f.ContentID := by rw [← hcid]; exact hc
      apply List.mem_filter.mpr
      refine ⟨?_, by simpa using hc⟩
      unfold setReferenceCount
      apply List.mem_map.mpr
      exact ⟨r, hr, by simp [hc2]⟩

/-- Witness for C14: the only file referencing the content is deleted while the
Blob Store removal fails. -/
theorem reclaim_survives_blob_delete_failure_witness :
    (DeleteFile envRemoveFails delFile1 afterA).2 = .ok () ∧
      (DeleteFile envRemoveFails delFile1 afterA).1.file_contents = [] ∧
      (DeleteFile envRemoveFails delFile1 afterA).1.storage = [("uploads/path-1", bytesA)] := by
  have h := reclaim_survives_blob_delete_failure envRemoveFails delFile1 afterA fileRow1
    (contentRowA 1) (by decide) (by decide) rfl (by decide) rfl (by decide) (by decide) rfl
    (by decide) rfl rfl rfl rfl rfl rfl rfl
  refine ⟨h.1, by decide, ?_⟩
  rw [h.2.2.2.2]
  decide

/-! ## Lemmas on the stored filename -/

theorem createLogicalFile_name {env : UploadEnv} {s s' : Ledger} {ownerID : String}
    {header : FileHeader} {fc : FileContent} {newFile : UserFile}
    (h : createLogicalFile env s ownerID header fc = (s', .ok newFile)) :
    newFile.Filename =
      if (s.files.filter (fun f => f.OwnerID = ownerID ∧ f.Filename = header.Filename)).length > 0
      then first8 env.nameUUID ++ "-" ++ header.Filename else header.Filename := by
  unfold createLogicalFile at h
  cases hn : env.nameQueryErr with
  | true => simp [hn] at h
  | false =>
    cases hi : env.insertFileErr with
    | true => simp [hn, hi] at h
    | false =>
      simp only [hn, hi, Bool.false_eq_true, if_false, Prod.mk.injEq, Except.ok.injEq] at h
      obtain ⟨-, h2⟩ := h
      subst h2
      rfl

theorem UploadFile_ok_file {lib : Lib} {env : UploadEnv} {req : UploadRequest} {s s' : Ledger}
    {file : Bytes} {header : FileHeader} {newFile : UserFile}
    (hform : req.formFile = some (file, header))
    (hacc : UploadFile lib env req s = (s', .ok newFile)) :
    s'.files = s.files ++ [newFile] ∧ newFile.OwnerID = req.owner_id ∧
      newFile.IsDeleted = false ∧ newFile.FileID = env.fileID ∧ req.owner_id ≠ "" ∧
      newFile.Filename =
        if (s.files.filter
            (fun f => f.OwnerID = req.owner_id ∧ f.Filename = header.Filename)).length > 0
        then first8 env.nameUUID ++ "-" ++ header.Filename else header.Filename := by
  unfold UploadFile at hacc
  cases hv : validateUpload lib env req s with
  | error e => simp [hv] at hacc
  | ok v =>
    obtain ⟨file0, header0, hash0, owner0⟩ := v
    obtain ⟨hf0, -, ho0, -, -, hne, -⟩ := validateUpload_ok hv
    rw [hform] at hf0
    simp only [Option.some.injEq, Prod.mk.injEq] at hf0
    obtain ⟨rfl, rfl⟩ := hf0
    subst ho0
    simp only [hv] at hacc
    have hfiles := storeContent_files env s file header hash0
    cases hsc : storeContent env s file header hash0 with
    | mk s1 r =>
      rw [hsc] at hfiles
      simp only [] at hfiles
      cases r with
      | error e => simp [hsc] at hacc
      | ok fc =>
        simp only [hsc] at hacc
        obtain ⟨hs', -, hown, hfid, hdel⟩ := createLogicalFile_ok hacc
        have hname := createLogicalFile_name hacc
        rw [hfiles] at hname
        subst hs'
        simp only []
        rw [hfiles]
        exact ⟨rfl, hown, hdel, hfid, hne, hname⟩

theorem ownerLiveFiles_append (s s' : Ledger) (nf : UserFile) (owner : String)
    (hfiles : s'.files = s.files ++ [nf]) :
    ownerLiveFiles s' owner =
      ownerLiveFiles s owner ++
        (if nf.OwnerID = owner ∧ nf.IsDeleted = false then [nf] else []) := by
  unfold ownerLiveFiles
  rw [hfiles, List.filter_append]
  congr 1
  by_cases h : nf.OwnerID = owner ∧ nf.IsDeleted = false
  · simp [List.filter_cons, h]
  · rw [if_neg h]
    simp only [List.filter_cons, List.filter_nil]
    have : decide (nf.OwnerID = owner ∧ nf.IsDeleted = false) = false := by simpa using h
    rw [this]
    rfl

/-! ## C15: uniqueness of display names -/

/-- C15 (as stated, refuted): `u1` holds `a.txt` and `2b2b2b2b-a.txt`; an accepted
upload named `a.txt` whose random identifier begins with `2b2b2b2b` is stored
as `2b2b2b2b-a.txt`, so two non-deleted files of `u1` bear the same name. -/
theorem disambiguated_name_can_collide :
    NamesUnique afterPrefixedName "u1" ∧
      (UploadFile sampleLib envB reqA afterPrefixedName).2 = .ok fileRow2Renamed ∧
      ¬ NamesUnique (UploadFile sampleLib envB reqA afterPrefixedName).1 "u1" := by
  decide

/-- C15 (amended): if display names are pairwise distinct among an owner's
non-deleted files before an accepted upload, and the disambiguated name (the
first 8 characters of the random identifier, `-`, the requested name) is not
already the name of a non-deleted file of the uploader, then display names are
pairwise distinct among that owner's non-deleted files afterwards, for every
requested filename. -/
theorem upload_preserves_unique_names (lib : Lib) (env : UploadEnv) (req : UploadRequest)
    (s s' : Ledger) (file : Bytes) (header : FileHeader) (newFile : UserFile) (owner : String)
    (hform : req.formFile = some (file, header))
    (hacc : UploadFile lib env req s = (s', .ok newFile))
    (huniq : NamesUnique s owner)
    (hfresh : ∀ f ∈ ownerLiveFiles s req.owner_id,
      f.Filename ≠ first8 env.nameUUID ++ "-" ++ header.Filename) :
    NamesUnique s' owner := by
  obtain ⟨hfiles, hown, hdel, -, -, hname⟩ := UploadFile_ok_file hform hacc
  unfold NamesUnique
  rw [ownerLiveFiles_append s s' newFile owner hfiles]
  by_cases ho : newFile.OwnerID = owner
  · have hcond : newFile.OwnerID = owner ∧ newFile.IsDeleted = false := ⟨ho, hdel⟩
    rw [if_pos hcond, List.map_append, List.map_cons, List.map_nil]
    have howner : req.owner_id = owner := by rw [← hown]; exact ho
    apply List.Nodup.append huniq (List.nodup_singleton _)
    intro x hx1 hx2
    simp only [List.mem_singleton] at hx2
    obtain ⟨g, hg, hgx⟩ := List.mem_map.mp hx1
    rw [← howner] at hg
    have hgmem := List.mem_filter.mp hg
    have hgo : g.OwnerID = req.owner_id := by
      have := hgmem.2
      simp only [decide_eq_true_eq] at this
      exact this.1
    by_cases hex : (s.files.filter
        (fun f => f.OwnerID = req.owner_id ∧ f.Filename = header.Filename)).length > 0
    · rw [if_pos hex] at hname
      apply hfresh g hg
      rw [hgx, hx2, hname]
    · rw [if_neg hex] at hname
      apply hex
      apply List.length_pos_of_mem (a := g)
      apply List.mem_filter.mpr
      refine ⟨hgmem.1, ?_⟩
      simp only [decide_eq_true_eq]
      exact ⟨hgo, by rw [hgx, hx2, hname]⟩
  · have hcond : ¬ (newFile.OwnerID = owner ∧ newFile.IsDeleted = false) := fun h => ho h.1
    rw [if_neg hcond, List.append_nil]
    exact huniq

/-- Witness for C15 (amended): the second upload named `a.txt` when `u1` holds
only `a.txt`. -/
theorem upload_preserves_unique_names_witness :
    NamesUnique (UploadFile sampleLib envB reqA afterA2000).1 "u1" :=
  upload_preserves_unique_names sampleLib envB reqA afterA2000
    (UploadFile sampleLib envB reqA afterA2000).1 bytesA headerA fileRow2Renamed "u1" rfl
    (by decide) (by decide) (by decide)

/-! ## C16: the same name uploaded twice -/

theorem first8_length (u : String) (h : 8 ≤ u.length) : (first8 u).length = 8 := by
  unfold first8
  show (u.data.take 8).length = 8
  rw [List.length_take]
  have : u.data.length = u.length := rfl
  omega

theorem name_ne_disambiguated (p name : String) : name ≠ p ++ "-" ++ name := by
  intro h
  have hl := congrArg String.length h
  rw [String.length_append, String.length_append] at hl
  have h1 : ("-" : String).length = 1 := rfl
  omega

theorem mem_ListFiles_of_live (s : Ledger) (ownerID : String) (f : UserFile)
    (ho : ownerID ≠ "") (hf : f ∈ s.files) (hown : f.OwnerID = ownerID)
    (hlive : f.IsDeleted = false) :
    ∃ rows, ListFiles false ownerID s = .ok rows ∧
      ∃ r ∈ rows, r.FileID = f.FileID ∧ r.Filename = f.Filename ∧ r.IsDeleted = false := by
  unfold ListFiles
  simp only [ho, if_false, Bool.false_eq_true]
  refine ⟨_, rfl, ?_⟩
  have hmem : f ∈ ownerLiveFiles s ownerID := by
    unfold ownerLiveFiles
    apply List.mem_filter.mpr
    exact ⟨hf, by simp [hown, hlive]⟩
  exact ⟨_, List.mem_map_of_mem _ hmem, rfl, rfl, hlive⟩

/-- C16: when a file name that no file of the owner bears is uploaded twice by the
same owner and both uploads are accepted, the first file keeps the requested
name, the second is stored under the 8-character beginning of the random
identifier, `-`, and the requested name; the two names differ, both files are
non-deleted, and `ListFiles` for the owner returns both. -/
theorem same_name_uploaded_twice (lib : Lib) (env1 env2 : UploadEnv) (req1 req2 : UploadRequest)
    (s s1 s2 : Ledger) (file1 file2 : Bytes) (header1 header2 : FileHeader) (f1 f2 : UserFile)
    (hform1 : req1.formFile = some (file1, header1))
    (hform2 : req2.formFile = some (file2, header2))
    (howner : req2.owner_id = req1.owner_id)
    (hname : header2.Filename = header1.Filename)
    (hacc1 : UploadFile lib env1 req1 s = (s1, .ok f1))
    (hacc2 : UploadFile lib env2 req2 s1 = (s2, .ok f2))
    (hnone : ∀ f ∈ s.files, f.OwnerID = req1.owner_id → f.Filename ≠ header1.Filename)
    (hlen : 8 ≤ env2.nameUUID.length) :
    f1.Filename = header1.Filename ∧
      f2.Filename = first8 env2.nameUUID ++ "-" ++ header1.Filename ∧
      (first8 env2.nameUUID).length = 8 ∧
      f1.Filename ≠ f2.Filename ∧
      f1.IsDeleted = false ∧ f2.IsDeleted = false ∧
      ∃ rows, ListFiles false req1.owner_id s2 = .ok rows ∧
        (∃ r ∈ rows, r.FileID = f1.FileID ∧ r.Filename = f1.Filename ∧ r.IsDeleted = false) ∧
        (∃ r ∈ rows, r.FileID = f2.FileID ∧ r.Filename = f2.Filename ∧ r.IsDeleted = false) := by
  obtain ⟨hfiles1, hown1, hdel1, -, hne1, hname1⟩ := UploadFile_ok_file hform1 hacc1
  obtain ⟨hfiles2, hown2, hdel2, -, -, hname2⟩ := UploadFile_ok_file hform2 hacc2
  have hempty : s.files.filter
      (fun f => f.OwnerID = req1.owner_id ∧ f.Filename = header1.Filename) = [] := by
    apply List.filter_eq_nil_iff.mpr
    intro f hf
    simp only [decide_eq_true_eq, not_and]
    exact fun ho => hnone f hf ho
  rw [hempty] at hname1
  simp only [List.length_nil, gt_iff_lt, lt_self_iff_false, if_false] at hname1
  have hex : (s1.files.filter
      (fun f => f.OwnerID = req2.owner_id ∧ f.Filename = header2.Filename)).length > 0 := by
    apply List.length_pos_of_mem (a := f1)
    apply List.mem_filter.mpr
    refine ⟨by rw [hfiles1]; simp, ?_⟩
    simp only [decide_eq_true_eq]
    exact ⟨by rw [hown1, howner], by rw [hname1, hname]⟩
  rw [if_pos hex, hname] at hname2
  have hf1mem : f1 ∈ s2.files := by rw [hfiles2, hfiles1]; simp
  have hf2mem : f2 ∈ s2.files := by rw [hfiles2]; simp
  obtain ⟨rows, hrows, hr1⟩ := mem_ListFiles_of_live s2 req1.owner_id f1 hne1 hf1mem hown1 hdel1
  obtain ⟨rows2, hrows2, hr2⟩ :=
    mem_ListFiles_of_live s2 req1.owner_id f2 hne1 hf2mem (by rw [hown2, howner]) hdel2
  rw [hrows] at hrows2
  simp only [Except.ok.injEq] at hrows2
  subst hrows2
  refine ⟨hname1, hname2, first8_length _ hlen, ?_, hdel1, hdel2, rows, hrows, hr1, hr2⟩
  rw [hname1, hname2]
  exact name_ne_disambiguated _ _

/-- Witness for C16: `a.txt` uploaded twice by `u1` on an empty ledger. -/
theorem same_name_uploaded_twice_witness :
    fileRow1.Filename = "a.txt" ∧ fileRow2Renamed.Filename = "2b2b2b2b-a.txt" ∧
      ListFiles false "u1" (UploadFile sampleLib envB reqA afterA2000).1 =
        .ok [{ FileID := "file-1", Filename := "a.txt", CreatedAt := 1, Size := 600,
               MimeType := "text/plain" },
             { FileID := "file-2", Filename := "2b2b2b2b-a.txt", CreatedAt := 2, Size := 600,
               MimeType := "text/plain" }] := by
  have h := same_name_uploaded_twice sampleLib envA envB reqA reqA
    (emptyLedgerWithQuota 2000) afterA2000 (UploadFile sampleLib envB reqA afterA2000).1
    bytesA bytesA headerA headerA fileRow1 fileRow2Renamed rfl rfl rfl rfl (by decide)
    (by decide) (by decide) (by decide)
  exact ⟨h.1, h.2.1.trans (by decide), by decide⟩

/-! ## Lemmas on shares -/

theorem single_eq_none_of_short {α : Type} {l : List α} (h : single l = none)
    (hlen : l.length ≤ 1) : l = [] := by
  match l, h, hlen with
  | [], _, _ => rfl
  | [a], h, _ => simp [single] at h
  | _ :: _ :: _, _, hlen => simp at hlen

theorem filter_setShareStatus (rows : List Share) (shareID : String) (pub : Bool)
    (token fileID : String) :
    (setShareStatus rows shareID pub token).filter (fun r => r.FileID = fileID) =
      setShareStatus (rows.filter (fun r => r.FileID = fileID)) shareID pub token := by
  unfold setShareStatus
  rw [List.filter_map]
  congr 1
  apply List.filter_congr
  intro r _
  simp only [Function.comp]
  by_cases h : r.ShareID = shareID <;> simp [h]

/-! ## C17: effect of `ShareFile` -/

/-- C17 (as stated, refuted): file A of `u1` has one public share; `ShareFile` is
called for it while the share lookup of line 251 fails.  The call succeeds and
returns `is_public` true, and the file now has two shares, both public: the
existing share is not negated.  With two shares for the file, a further call
with no failing call finds no single share either and inserts a third. -/
theorem failed_share_lookup_adds_second_share :
    afterShare.shares = [shareRow1] ∧
      ShareFile shareEnvLookupFails shareFile1 afterShare =
        (afterShareLookupFailure, .ok ("token-2", true)) ∧
      afterShareLookupFailure.shares.filter (fun r => r.FileID = shareFile1.id) =
        [shareRow1, shareRow2] ∧
      shareEnv3.shareQueryErr = false ∧
      (ShareFile shareEnv3 shareFile1 afterShareLookupFailure).2 = .ok ("token-3", true) ∧
      (ShareFile shareEnv3 shareFile1 afterShareLookupFailure).1.shares.filter
          (fun r => r.FileID = shareFile1.id) =
        [shareRow1, shareRow2,
         { ShareID := "share-3", FileID := "file-1", IsPublic := true, CreatedAt := 7,
           ShareToken := "token-3", DownloadCount := 0 }] := by
  decide

/-- C17 (amended): a successful `ShareFile` call, made when at most one share exists for the
file and the share lookup does not fail, leaves exactly one share for the file;
the returned token and flag are the stored ones; if no share existed the share
is public with download count 0; if one existed its flag is negated and its
download count, id, file and creation time are unchanged.  The call succeeds
only for a file owned by the requester. -/
theorem share_toggle_effect (env : ShareEnv) (req : ShareRequest) (s s' : Ledger)
    (token : String) (pub : Bool)
    (hacc : ShareFile env req s = (s', .ok (token, pub)))
    (hq : env.shareQueryErr = false)
    (hmost : (s.shares.filter (fun r => r.FileID = req.id)).length ≤ 1) :
    (∃ f ∈ s.files, f.FileID = req.id ∧ f.OwnerID = req.userID) ∧
      ∃ sh, s'.shares.filter (fun r => r.FileID = req.id) = [sh] ∧
        token = sh.ShareToken ∧ pub = sh.IsPublic ∧
        (s.shares.filter (fun r => r.FileID = req.id) = [] →
          sh.IsPublic = true ∧ sh.DownloadCount = 0) ∧
        (∀ old, s.shares.filter (fun r => r.FileID = req.id) = [old] →
          sh.IsPublic = (!old.IsPublic) ∧ sh.DownloadCount = old.DownloadCount ∧
            sh.ShareID = old.ShareID ∧ sh.FileID = old.FileID ∧
            sh.CreatedAt = old.CreatedAt) := by
  unfold ShareFile at hacc
  by_cases h1 : req.id = ""
  · simp [h1] at hacc
  by_cases h2 : req.userID = ""
  · simp [h1, h2] at hacc
  simp only [h1, h2, if_false] at hacc
  cases hfq : (if env.fileQueryErr then none
      else single (s.files.filter (fun f => f.FileID = req.id))) with
  | none => simp [hfq] at hacc
  | some f =>
    have hsel : s.files.filter (fun x => x.FileID = req.id) = [f] := by
      cases he : env.fileQueryErr with
      | true => simp [he] at hfq
      | false =>
        simp only [he, Bool.false_eq_true, if_false] at hfq
        exact single_eq_some hfq
    have hfmem : f ∈ s.files.filter (fun x => x.FileID = req.id) := by rw [hsel]; simp
    obtain ⟨hf1, hf2⟩ := List.mem_filter.mp hfmem
    simp only [hfq] at hacc
    by_cases h3 : f.OwnerID = req.userID
    · simp only [h3, ne_eq, not_true_eq_false, if_false, hq, Bool.false_eq_true] at hacc
      refine ⟨⟨f, hf1, by simpa using hf2, h3⟩, ?_⟩
      cases hsq : single (s.shares.filter (fun r => r.FileID = req.id)) with
      | none =>
        have hnil := single_eq_none_of_short hsq hmost
        simp only [hsq] at hacc
        cases hi : env.insertErr with
        | true => simp [hi] at hacc
        | false =>
          simp only [hi, Bool.false_eq_true, if_false, Prod.mk.injEq, Except.ok.injEq] at hacc
          obtain ⟨hs', htok, hpub⟩ := hacc
          subst hs'
          refine ⟨{ ShareID := env.shareID, FileID := req.id, IsPublic := true,
                    ShareToken := env.shareToken, CreatedAt := env.now }, ?_,
            htok.symm, hpub.symm, fun _ => ⟨rfl, rfl⟩, ?_⟩
          · simp only [List.filter_append, hnil, List.nil_append]
            simp [List.filter_cons]
          · intro old hold
            rw [hnil] at hold
            cases hold
      | some old =>
        have hone := single_eq_some hsq
        simp only [hsq] at hacc
        cases hu : env.updateErr with
        | true => simp [hu] at hacc
        | false =>
          simp only [hu, Bool.false_eq_true, if_false, Prod.mk.injEq, Except.ok.injEq] at hacc
          obtain ⟨hs', htok, hpub⟩ := hacc
          subst hs'
          refine ⟨{ old with IsPublic := !old.IsPublic, ShareToken := env.shareToken }, ?_,
            htok.symm, hpub.symm, ?_, ?_⟩
          · simp only []
            rw [filter_setShareStatus, hone]
            simp [setShareStatus]
          · intro hnil
            rw [hnil] at hone
            cases hone
          · intro old2 hold
            rw [hone] at hold
            simp only [List.cons.injEq, and_true] at hold
            subst hold
            exact ⟨rfl, rfl, rfl, rfl, rfl⟩
    · simp [h3] at hacc

/-- Witness for C17 (amended): the first share of file A, then its toggle. -/
theorem share_toggle_effect_witness :
    afterShare.shares = [shareRow1] ∧
      afterShareTwice.shares =
        [{ shareRow1 with IsPublic := false, ShareToken := "token-2" }] := by
  have h1 := share_toggle_effect shareEnv1 shareFile1 afterA afterShare "token-1" true
    (by decide) rfl (by decide)
  have h2 := share_toggle_effect shareEnv2 shareFile1 afterShare afterShareTwice "token-2" false
    (by decide) rfl (by decide)
  obtain ⟨-, sh1, hs1, -⟩ := h1
  obtain ⟨-, sh2, hs2, -⟩ := h2
  exact ⟨by decide, by decide⟩

/-! ## Lemmas on the public-share handlers -/

theorem resolveShare_unknown (renv : ResolveEnv) (token : String) (s : Ledger)
    (hnone : s.shares.filter (fun r => r.ShareToken = token) = []) :
    ∃ e, resolveShare renv token s = .error e ∧
      (token ≠ "" → e = ⟨404, "Public share not found or invalid token"⟩) := by
  unfold resolveShare
  by_cases h : token = ""
  · exact ⟨⟨400, "Share token is required"⟩, by simp [h], fun hne => absurd h hne⟩
  · refine ⟨⟨404, "Public share not found or invalid token"⟩, ?_, fun _ => rfl⟩
    cases renv.shareQueryErr <;> simp [h, hnone, single]

theorem resolveShare_private (renv : ResolveEnv) (token : String) (s : Ledger) (sh : Share)
    (htok : token ≠ "") (hq : renv.shareQueryErr = false)
    (hsel : s.shares.filter (fun r => r.ShareToken = token) = [sh])
    (hpriv : sh.IsPublic = false) :
    resolveShare renv token s = .error ⟨403, "This file is not publicly shared"⟩ := by
  unfold resolveShare
  simp [htok, hq, hsel, single, hpriv]

theorem resolveShare_public (renv : ResolveEnv) (token : String) (s : Ledger) (sh : Share)
    (htok : token ≠ "") (hq : renv.shareQueryErr = false)
    (hsel : s.shares.filter (fun r => r.ShareToken = token) = [sh])
    (hpub : sh.IsPublic = true) :
    resolveShare renv token s =
      .ok (if renv.updateErr then s
           else { s with shares :=
                    setDownloadCount s.shares sh.ShareID (sh.DownloadCount + 1) },
           sh, sh.DownloadCount + 1) := by
  unfold resolveShare
  simp [htok, hq, hsel, single, hpub]

theorem GetPublicShare_of_error (renv : ResolveEnv) (token : String) (s : Ledger) (e : HttpError)
    (h : resolveShare renv token s = .error e) :
    GetPublicShare renv token s = (s, .error e) := by
  unfold GetPublicShare
  rw [h]

theorem DownloadPublicShare_of_error (renv : ResolveEnv) (token : String) (s : Ledger)
    (e : HttpError) (h : resolveShare renv token s = .error e) :
    DownloadPublicShare renv token s = (s, .error e) := by
  unfold DownloadPublicShare
  rw [h]

/-! ## C18: a toggle invalidates the previous token -/

/-- C18 (as stated, refuted): file A of `u1` has a public share with token
`token-1`; `ShareFile` is called for it while the share lookup of line 251
fails.  The call succeeds with the new token `token-2`, the existing share
keeps `token-1`, and `GetPublicShare` and `DownloadPublicShare` called with
`token-1` afterwards answer 200.  Separately, the code never compares the
drawn token with the stored one: on the private share with token `token-2`, a
call that draws `token-2` again succeeds and `token-2` resolves afterwards. -/
theorem previous_token_still_resolves :
    afterShare.shares = [shareRow1] ∧
      (ShareFile shareEnvLookupFails shareFile1 afterShare).2 = .ok ("token-2", true) ∧
      shareRow1 ∈ afterShareLookupFailure.shares ∧
      (GetPublicShare {} "token-1" afterShareLookupFailure).2 =
        .ok { file_id := "file-1", filename := "a.txt", mime_type := "text/plain", size := 600,
              download_count := 1, owner_username := "alice", created_at := 0 } ∧
      (DownloadPublicShare {} "token-1" afterShareLookupFailure).2 =
        .ok { contentDisposition := "attachment; filename=a.txt"
              contentLength := 600
              contentType := "text/plain"
              data := bytesA } ∧
      afterShareTwice.shares =
        [{ ShareID := "share-1", FileID := "file-1", IsPublic := false, CreatedAt := 5,
           ShareToken := "token-2", DownloadCount := 0 }] ∧
      (ShareFile shareEnvSameToken shareFile1 afterShareTwice).2 = .ok ("token-2", true) ∧
      (GetPublicShare {} "token-2" (ShareFile shareEnvSameToken shareFile1 afterShareTwice).1).2 =
        .ok { file_id := "file-1", filename := "a.txt", mime_type := "text/plain", size := 600,
              download_count := 1, owner_username := "alice", created_at := 0 } := by
  decide

/-- C18 (amended): a successful `ShareFile` call on an existing share, whose
share lookup does not fail, stores the newly drawn
token in place of the previous one; when the drawn token differs from the
previous one and tokens are unique in `shares`, no share holds the previous
token afterwards, and `GetPublicShare` and `DownloadPublicShare` called with it
fail (with the not-found error when the token is non-empty) and leave the
ledger unchanged. -/
theorem toggle_invalidates_previous_token (env : ShareEnv) (req : ShareRequest) (s s' : Ledger)
    (old : Share) (token : String) (pub : Bool) (renv : ResolveEnv)
    (hacc : ShareFile env req s = (s', .ok (token, pub)))
    (hq : env.shareQueryErr = false)
    (hold : s.shares.filter (fun r => r.FileID = req.id) = [old])
    (hfresh : env.shareToken ≠ old.ShareToken)
    (htokens : TokensUnique s) :
    token = env.shareToken ∧ token ≠ old.ShareToken ∧
      s'.shares = setShareStatus s.shares old.ShareID (!old.IsPublic) env.shareToken ∧
      (∀ r ∈ s'.shares, r.ShareToken ≠ old.ShareToken) ∧
      (∃ e, GetPublicShare renv old.ShareToken s' = (s', .error e) ∧
        (old.ShareToken ≠ "" → e = ⟨404, "Public share not found or invalid token"⟩)) ∧
      (∃ e, DownloadPublicShare renv old.ShareToken s' = (s', .error e) ∧
        (old.ShareToken ≠ "" → e = ⟨404, "Public share not found or invalid token"⟩)) := by
  have holdmem : old ∈ s.shares := by
    have : old ∈ s.shares.filter (fun r => r.FileID = req.id) := by rw [hold]; simp
    exact (List.mem_filter.mp this).1
  have hshares : s'.shares = setShareStatus s.shares old.ShareID (!old.IsPublic) env.shareToken ∧
      token = env.shareToken := by
    unfold ShareFile at hacc
    by_cases h1 : req.id = ""
    · simp [h1] at hacc
    by_cases h2 : req.userID = ""
    · simp [h1, h2] at hacc
    simp only [h1, h2, if_false] at hacc
    cases hfq : (if env.fileQueryErr then none
        else single (s.files.filter (fun f => f.FileID = req.id))) with
    | none => simp [hfq] at hacc
    | some f =>
      simp only [hfq] at hacc
      by_cases h3 : f.OwnerID = req.userID
      · simp only [h3, ne_eq, not_true_eq_false, if_false, hq, Bool.false_eq_true, hold,
          single] at hacc
        cases hu : env.updateErr with
        | true => simp [hu] at hacc
        | false =>
          simp only [hu, Bool.false_eq_true, if_false, Prod.mk.injEq, Except.ok.injEq] at hacc
          obtain ⟨hs', htok, -⟩ := hacc
          subst hs'
          exact ⟨rfl, htok.symm⟩
      · simp [h3] at hacc
  obtain ⟨hs', htok⟩ := hshares
  have hgone : ∀ r ∈ s'.shares, r.ShareToken ≠ old.ShareToken := by
    intro r hr
    rw [hs'] at hr
    unfold setShareStatus at hr
    obtain ⟨x, hx, rfl⟩ := List.mem_map.mp hr
    by_cases hid : x.ShareID = old.ShareID
    · simp only [hid, if_true]
      exact hfresh
    · simp only [hid, if_false]
      intro heq
      have hxo : x = old := List.inj_on_of_nodup_map htokens hx holdmem heq
      exact hid (by rw [hxo])
  have hnone : s'.shares.filter (fun r => r.ShareToken = old.ShareToken) = [] := by
    apply List.filter_eq_nil_iff.mpr
    intro r hr
    simpa using hgone r hr
  obtain ⟨e, he, hcode⟩ := resolveShare_unknown renv old.ShareToken s' hnone
  refine ⟨htok, by rw [htok]; exact hfresh, hs', hgone, ⟨e, ?_, hcode⟩, ⟨e, ?_, hcode⟩⟩
  · exact GetPublicShare_of_error renv _ s' e he
  · exact DownloadPublicShare_of_error renv _ s' e he

/-- Witness for C18 (amended): file A is shared (token `token-1`), toggled again (token
`token-2`), and the first token is then resolved. -/
theorem toggle_invalidates_previous_token_witness :
    (ShareFile shareEnv1 shareFile1 afterA).2 = .ok ("token-1", true) ∧
      (ShareFile shareEnv2 shareFile1 afterShare).2 = .ok ("token-2", false) ∧
      GetPublicShare {} "token-1" afterShareTwice =
        (afterShareTwice, .error ⟨404, "Public share not found or invalid token"⟩) ∧
      DownloadPublicShare {} "token-1" afterShareTwice =
        (afterShareTwice, .error ⟨404, "Public share not found or invalid token"⟩) := by
  have h := toggle_invalidates_previous_token shareEnv2 shareFile1 afterShare afterShareTwice
    shareRow1 "token-2" false {} (by decide) rfl (by decide) (by decide) (by decide)
  obtain ⟨-, -, -, -, ⟨e1, h1, hc1⟩, ⟨e2, h2, hc2⟩⟩ := h
  have hne : shareRow1.ShareToken ≠ "" := by decide
  rw [hc1 hne] at h1
  rw [hc2 hne] at h2
  exact ⟨by decide, by decide, h1, h2⟩

/-! ## C19: responses for an unknown token and for a private share -/

/-- C19 (as stated, refuted): with one private share whose token is `token-2`,
both handlers answer that token with status 403 and an unknown token with
status 404; the two error responses differ. -/
theorem private_and_unknown_token_differ :
    (GetPublicShare {} "token-2" afterShareTwice).2 =
        .error ⟨403, "This file is not publicly shared"⟩ ∧
      (GetPublicShare {} "token-9" afterShareTwice).2 =
        .error ⟨404, "Public share not found or invalid token"⟩ ∧
      (DownloadPublicShare {} "token-2" afterShareTwice).2 =
        .error ⟨403, "This file is not publicly shared"⟩ ∧
      (DownloadPublicShare {} "token-9" afterShareTwice).2 =
        .error ⟨404, "Public share not found or invalid token"⟩ ∧
      (GetPublicShare {} "token-2" afterShareTwice).2 ≠
        (GetPublicShare {} "token-9" afterShareTwice).2 ∧
      (DownloadPublicShare {} "token-2" afterShareTwice).2 ≠
        (DownloadPublicShare {} "token-9" afterShareTwice).2 := by
  decide

/-- C19 (amended): for a non-empty token, `GetPublicShare` and
`DownloadPublicShare` give the same response as each other and leave the ledger
unchanged in both cases: status 404 with `Public share not found or invalid
token` when no share matches the token, status 403 with `This file is not
publicly shared` when the matching share has `is_public = false`. -/
theorem unknown_and_private_token_responses (renv : ResolveEnv) (token : String) (s : Ledger)
    (htok : token ≠ "") (hq : renv.shareQueryErr = false) :
    (s.shares.filter (fun r => r.ShareToken = token) = [] →
        GetPublicShare renv token s =
            (s, .error ⟨404, "Public share not found or invalid token"⟩) ∧
          DownloadPublicShare renv token s =
            (s, .error ⟨404, "Public share not found or invalid token"⟩)) ∧
      (∀ sh, s.shares.filter (fun r => r.ShareToken = token) = [sh] → sh.IsPublic = false →
        GetPublicShare renv token s = (s, .error ⟨403, "This file is not publicly shared"⟩) ∧
          DownloadPublicShare renv token s =
            (s, .error ⟨403, "This file is not publicly shared"⟩)) := by
  constructor
  · intro hnone
    obtain ⟨e, he, hcode⟩ := resolveShare_unknown renv token s hnone
    rw [hcode htok] at he
    exact ⟨GetPublicShare_of_error renv token s _ he,
      DownloadPublicShare_of_error renv token s _ he⟩
  · intro sh hsel hpriv
    have he := resolveShare_private renv token s sh htok hq hsel hpriv
    exact ⟨GetPublicShare_of_error renv token s _ he,
      DownloadPublicShare_of_error renv token s _ he⟩

/-- Witness for C19 (amended): the private share of file A and an unknown
token. -/
theorem unknown_and_private_token_responses_witness :
    GetPublicShare {} "token-9" afterShareTwice =
        (afterShareTwice, .error ⟨404, "Public share not found or invalid token"⟩) ∧
      DownloadPublicShare {} "token-2" afterShareTwice =
        (afterShareTwice, .error ⟨403, "This file is not publicly shared"⟩) :=
  ⟨((unknown_and_private_token_responses {} "token-9" afterShareTwice (by decide) rfl).1
      (by decide)).1,
   ((unknown_and_private_token_responses {} "token-2" afterShareTwice (by decide) rfl).2
      { shareRow1 with IsPublic := false, ShareToken := "token-2" } (by decide) rfl).2⟩

/-! ## C20: download accounting -/

theorem setDownloadCount_eq_map (rows : List Share) (sh : Share) (n : Int)
    (hnd : (rows.map (fun r => r.ShareID)).Nodup) (hsh : sh ∈ rows) :
    setDownloadCount rows sh.ShareID n =
      rows.map (fun r => if r = sh then { sh with DownloadCount := n } else r) := by
  unfold setDownloadCount
  apply List.map_congr_left
  intro r hr
  have hiff := key_eq_iff_of_nodup (fun r : Share => r.ShareID) rows sh r hnd hsh hr
  by_cases e : r = sh
  · subst e
    simp
  · have e2 : ¬ r.ShareID = sh.ShareID := fun h => e (hiff.mp h)
    simp [e, e2]

/-- C20: for a public share found by its token, both handlers store
`download_count + 1` on that share and change nothing else in the ledger (no
other field of the share, no other row) when the update succeeds, and leave the
ledger as it was when the update fails; in either case, when the file and its
content row are found, `GetPublicShare` answers 200 with the file's data and the
incremented count, and `DownloadPublicShare` answers 200 with the stored
bytes. -/
theorem resolve_counts_download (renv : ResolveEnv) (token : String) (s : Ledger) (sh : Share)
    (htok : token ≠ "") (hq : renv.shareQueryErr = false)
    (hsel : s.shares.filter (fun r => r.ShareToken = token) = [sh])
    (hpub : sh.IsPublic = true) (hkeys : ShareKeysUnique s) :
    (renv.updateErr = false →
        (GetPublicShare renv token s).1 =
            { s with shares := s.shares.map (fun r =>
                if r = sh then { sh with DownloadCount := sh.DownloadCount + 1 } else r) } ∧
          (DownloadPublicShare renv token s).1 =
            { s with shares := s.shares.map (fun r =>
                if r = sh then { sh with DownloadCount := sh.DownloadCount + 1 } else r) }) ∧
      (renv.updateErr = true →
        (GetPublicShare renv token s).1 = s ∧ (DownloadPublicShare renv token s).1 = s) ∧
      (∀ f fc, s.files.filter (fun x => x.FileID = sh.FileID) = [f] →
        s.file_contents.filter (fun r => r.ContentID = f.ContentID) = [fc] →
        renv.fileQueryErr = false → renv.contentQueryErr = false →
        (∃ info, (GetPublicShare renv token s).2 = .ok info ∧ info.file_id = f.FileID ∧
          info.filename = f.Filename ∧ info.size = fc.Size ∧ info.mime_type = fc.MimeType ∧
          info.download_count = sh.DownloadCount + 1) ∧
        (∀ data, blobGet ("uploads/" ++ fc.StoragePath) s.storage = some data →
          renv.downloadErr = false →
          (DownloadPublicShare renv token s).2 =
            .ok { contentDisposition := "attachment; filename=" ++ f.Filename
                  contentLength := fc.Size
                  contentType := fc.MimeType
                  data := data })) := by
  have hshmem : sh ∈ s.shares := by
    have : sh ∈ s.shares.filter (fun r => r.ShareToken = token) := by rw [hsel]; simp
    exact (List.mem_filter.mp this).1
  have hres := resolveShare_public renv token s sh htok hq hsel hpub
  have hmap := setDownloadCount_eq_map s.shares sh (sh.DownloadCount + 1) hkeys hshmem
  have hG1 : (GetPublicShare renv token s).1 =
      (if renv.updateErr then s
       else { s with shares := setDownloadCount s.shares sh.ShareID (sh.DownloadCount + 1) }) := by
    unfold GetPublicShare
    rw [hres]
    simp only []
    split
    · rfl
    · split
      · rfl
      · rfl
  have hD1 : (DownloadPublicShare renv token s).1 =
      (if renv.updateErr then s
       else { s with shares := setDownloadCount s.shares sh.ShareID (sh.DownloadCount + 1) }) := by
    unfold DownloadPublicShare
    rw [hres]
    simp only []
    split
    · rfl
    · split
      · rfl
      · split
        · rfl
        · rfl
  refine ⟨fun hu => ?_, fun hu => ?_, ?_⟩
  · rw [hG1, hD1, hu, ← hmap]
    exact ⟨rfl, rfl⟩
  · rw [hG1, hD1, hu]
    exact ⟨rfl, rfl⟩
  · intro f fc hf hfc hfq hcq
    constructor
    · unfold GetPublicShare
      rw [hres]
      cases hu : renv.updateErr <;>
        simp [hfq, hcq, hf, hfc, single]
    · intro data hdata hdl
      unfold DownloadPublicShare
      rw [hres]
      cases hu : renv.updateErr <;>
        simp [hfq, hcq, hf, hfc, single, hdata, hdl]

/-- Witness for C20: the public share of file A is resolved, once with the
update succeeding and once with the update failing. -/
theorem resolve_counts_download_witness :
    (GetPublicShare {} "token-1" afterShare).1.shares =
        [{ shareRow1 with DownloadCount := 1 }] ∧
      (DownloadPublicShare envCountFails "token-1" afterShare).1 = afterShare ∧
      (DownloadPublicShare envCountFails "token-1" afterShare).2 =
        .ok { contentDisposition := "attachment; filename=a.txt"
              contentLength := 600
              contentType := "text/plain"
              data := bytesA } := by
  have h1 := resolve_counts_download {} "token-1" afterShare shareRow1 (by decide) rfl
    (by decide) rfl (by decide)
  have h2 := resolve_counts_download envCountFails "token-1" afterShare shareRow1 (by decide)
    rfl (by decide) rfl (by decide)
  refine ⟨?_, (h2.2.1 rfl).2, ?_⟩
  · rw [(h1.1 rfl).1]
    decide
  · have := (h2.2.2 fileRow1 (contentRowA 1) (by decide) (by decide) rfl rfl).2 bytesA
      (by decide) rfl
    rw [this]
    decide

/-! ## C24: MIME validation -/

/-- The media type that `UploadFile` compares with the declared one: the parsed
result of sniffing the buffer, the raw sniffed value when parsing fails
(lines 54-59). -/
theorem validateMime_eq (lib : Lib) (env : UploadEnv) (file : Bytes) (header : FileHeader)
    (hfile : file ≠ []) (hread : env.readErr = false) (hdecl : header.ContentType ≠ "")
    (d : String) (hparse : lib.ParseMediaType header.ContentType = some d) :
    validateMime lib env file header =
      if (match lib.ParseMediaType (lib.DetectContentType (sniffBuffer file)) with
          | some m => m
          | none => lib.DetectContentType (sniffBuffer file)) ≠ d then
        .error ⟨400, "MIME type mismatch: declared " ++ "\x27" ++ d ++ "\x27" ++ ", detected "
          ++ "\x27" ++
          (match lib.ParseMediaType (lib.DetectContentType (sniffBuffer file)) with
           | some m => m
           | none => lib.DetectContentType (sniffBuffer file)) ++ "\x27"⟩
      else .ok () := by
  unfold validateMime
  have hne : file.isEmpty = false := by
    cases file with
    | nil => exact absurd rfl hfile
    | cons a l => rfl
  simp only [hread, hne, Bool.or_self, Bool.false_eq_true, if_false, hdecl, hparse]

theorem UploadFile_of_mime_error (lib : Lib) (env : UploadEnv) (req : UploadRequest) (s : Ledger)
    (file : Bytes) (header : FileHeader) (e : HttpError)
    (hform : req.formFile = some (file, header))
    (hm : validateMime lib env file header = .error e) :
    UploadFile lib env req s = (s, .error e) := by
  unfold UploadFile validateUpload
  simp [hform, hm]

/-- C24: for a readable, non-empty file part, `UploadFile` answers with the
missing-MIME error when the part declares no `Content-Type`, and with the
mismatch error when the parsed declared media type differs from the parsed
sniffed one; in both cases the ledger and the Blob Store are returned
unchanged.  When the two media types are equal, MIME validation passes. -/
theorem mime_validation (lib : Lib) (env : UploadEnv) (req : UploadRequest) (s : Ledger)
    (file : Bytes) (header : FileHeader)
    (hform : req.formFile = some (file, header))
    (hfile : file ≠ []) (hread : env.readErr = false) :
    (header.ContentType = "" →
        UploadFile lib env req s =
          (s, .error ⟨400,
            "MIME type for the file part is not declared in Content-Type header"⟩)) ∧
      (∀ d, header.ContentType ≠ "" → lib.ParseMediaType header.ContentType = some d →
        ((match lib.ParseMediaType (lib.DetectContentType (sniffBuffer file)) with
          | some m => m
          | none => lib.DetectContentType (sniffBuffer file)) ≠ d →
          (UploadFile lib env req s).1 = s ∧
          ∃ msg, (UploadFile lib env req s).2 = .error ⟨400, msg⟩ ∧
            msg = "MIME type mismatch: declared " ++ "\x27" ++ d ++ "\x27" ++ ", detected "
              ++ "\x27" ++
              (match lib.ParseMediaType (lib.DetectContentType (sniffBuffer file)) with
               | some m => m
               | none => lib.DetectContentType (sniffBuffer file)) ++ "\x27") ∧
        ((match lib.ParseMediaType (lib.DetectContentType (sniffBuffer file)) with
          | some m => m
          | none => lib.DetectContentType (sniffBuffer file)) = d →
          validateMime lib env file header = .ok ())) := by
  have hne : file.isEmpty = false := by
    cases file with
    | nil => exact absurd rfl hfile
    | cons a l => rfl
  refine ⟨fun hnone => ?_, fun d hdecl hparse => ⟨fun hdiff => ?_, fun hsame => ?_⟩⟩
  · apply UploadFile_of_mime_error lib env req s file header _ hform
    unfold validateMime
    simp [hread, hne, hnone]
  · have hv := validateMime_eq lib env file header hfile hread hdecl d hparse
    rw [if_pos hdiff] at hv
    rw [UploadFile_of_mime_error lib env req s file header _ hform hv]
    exact ⟨rfl, _, rfl, rfl⟩
  · have hv := validateMime_eq lib env file header hfile hread hdecl d hparse
    rw [if_neg (not_not.mpr hsame)] at hv
    exact hv

/-- Witness for C24: an upload without `Content-Type`, and a text file declared
as `image/png`. -/
theorem mime_validation_witness :
    UploadFile sampleLib envA reqNoType (emptyLedgerWithQuota 1000) =
        (emptyLedgerWithQuota 1000, .error ⟨400,
          "MIME type for the file part is not declared in Content-Type header"⟩) ∧
      (UploadFile sampleLib envA reqWrongType (emptyLedgerWithQuota 1000)).1 =
        emptyLedgerWithQuota 1000 ∧
      (UploadFile sampleLib envA reqWrongType (emptyLedgerWithQuota 1000)).2 =
        .error ⟨400, "MIME type mismatch: declared \x27image/png\x27, detected \x27text/plain\x27"⟩ := by
  have h1 := (mime_validation sampleLib envA reqNoType (emptyLedgerWithQuota 1000) bytesA
    { Filename := "a.txt", ContentType := "", Size := 600 } rfl (by decide) rfl).1 rfl
  have h2 := ((mime_validation sampleLib envA reqWrongType (emptyLedgerWithQuota 1000) bytesA
    { Filename := "a.txt", ContentType := "image/png", Size := 600 } rfl (by decide) rfl).2
    "image/png" (by decide) (by decide)).1 (by decide)
  exact ⟨h1, h2.1, by decide⟩

/-! ## C26: name collision with a soft-deleted file -/

/-- C26 (evaluation at the failing input): `u1` has uploaded `a.txt` and deleted
it, so `u1` has no non-deleted file of that name; the next accepted upload
named `a.txt` is stored as `2b2b2b2b-a.txt`, not under the requested name. -/
theorem deleted_name_still_collides :
    afterUploadAndDelete.files = [{ fileRow1 with IsDeleted := true }] ∧
      ownerLiveFiles afterUploadAndDelete "u1" = [] ∧
      (UploadFile sampleLib envB reqA afterUploadAndDelete).2 =
        .ok { FileID := "file-2", OwnerID := "u1", ContentID := "content-2",
              Filename := "2b2b2b2b-a.txt", CreatedAt := 2 } := by
  decide

/-! ## C27: the bytes handed to the sniffer -/

/-- C27 (evaluation at the failing input): for the five-byte text file `hello`
the sniffer receives 512 bytes, the file followed by 507 zero bytes, not the
five leading bytes; a sniffer that reports binary data on a zero byte detects
`text/plain` on the leading bytes and `application/octet-stream` on the buffer,
and the upload declared as `text/plain` is rejected for a mismatch. -/
theorem short_file_sniffed_with_padding :
    helloBytes.take (min 512 helloBytes.length) = helloBytes ∧
      sniffBuffer helloBytes = helloBytes ++ List.replicate 507 0 ∧
      (sniffBuffer helloBytes).length = 512 ∧
      binaryAwareLib.DetectContentType (helloBytes.take (min 512 helloBytes.length)) =
        "text/plain; charset=utf-8" ∧
      binaryAwareLib.DetectContentType (sniffBuffer helloBytes) = "application/octet-stream" ∧
      (UploadFile binaryAwareLib envA reqHello (emptyLedgerWithQuota 1000)).2 =
        .error ⟨400, "MIME type mismatch: declared \x27text/plain\x27, detected \x27application/octet-stream\x27"⟩ := by
  decide

/-! ## C28: live files and reclaimed content -/

/-- C28 (evaluation at the failing input): after two uploads of the same bytes
and two successful `DeleteFile` calls for the first file, the second file is
non-deleted while no `file_contents` row has its `content_id` and the Blob Store
holds no object. -/
theorem live_file_left_without_content :
    fileRow2 ∈ afterSecondDelete.files ∧ fileRow2.IsDeleted = false ∧
      (∀ r ∈ afterSecondDelete.file_contents, r.ContentID ≠ fileRow2.ContentID) ∧
      afterSecondDelete.file_contents = [] ∧
      afterSecondDelete.storage = [] := by
  decide

/-! ## C29: public shares of soft-deleted files -/

/-- C29: for a public share found by its token whose file is soft-deleted while
the `file_contents` row of the file still exists, `GetPublicShare` answers 200
with the data of that file, and `DownloadPublicShare` answers 200 with the
stored bytes; neither handler reads `is_deleted`. -/
theorem deleted_file_still_resolves (renv : ResolveEnv) (token : String) (s : Ledger)
    (sh : Share) (f : UserFile) (fc : FileContent) (data : Bytes)
    (htok : token ≠ "")
    (hsel : s.shares.filter (fun r => r.ShareToken = token) = [sh])
    (hpub : sh.IsPublic = true)
    (hf : s.files.filter (fun x => x.FileID = sh.FileID) = [f])
    (_hdel : f.IsDeleted = true)
    (hfc : s.file_contents.filter (fun r => r.ContentID = f.ContentID) = [fc])
    (hdata : blobGet ("uploads/" ++ fc.StoragePath) s.storage = some data)
    (hq1 : renv.shareQueryErr = false) (hq2 : renv.fileQueryErr = false)
    (hq3 : renv.contentQueryErr = false) (hq4 : renv.downloadErr = false) :
    (∃ info, (GetPublicShare renv token s).2 = .ok info ∧ info.file_id = f.FileID ∧
        info.filename = f.Filename ∧ info.size = fc.Size ∧ info.mime_type = fc.MimeType) ∧
      (DownloadPublicShare renv token s).2 =
        .ok { contentDisposition := "attachment; filename=" ++ f.Filename
              contentLength := fc.Size
              contentType := fc.MimeType
              data := data } := by
  have hres := resolveShare_public renv token s sh htok hq1 hsel hpub
  constructor
  · unfold GetPublicShare
    rw [hres]
    cases hu : renv.updateErr <;> simp [hq2, hq3, hf, hfc, single]
  · unfold DownloadPublicShare
    rw [hres]
    cases hu : renv.updateErr <;> simp [hq2, hq3, hq4, hf, hfc, single, hdata]

/-- Witness for C29: the first of two files sharing one content is shared
publicly and then deleted; its token still resolves and downloads. -/
theorem deleted_file_still_resolves_witness :
    { fileRow1 with IsDeleted := true } ∈ afterShareThenDelete.files ∧
      (∃ info, (GetPublicShare {} "token-1" afterShareThenDelete).2 = .ok info ∧
        info.file_id = "file-1" ∧ info.filename = "a.txt") ∧
      (DownloadPublicShare {} "token-1" afterShareThenDelete).2 =
        .ok { contentDisposition := "attachment; filename=a.txt"
              contentLength := 600
              contentType := "text/plain"
              data := bytesA } := by
  have h := deleted_file_still_resolves {} "token-1" afterShareThenDelete shareRow1
    { fileRow1 with IsDeleted := true } (contentRowA 1) bytesA (by decide) (by decide) rfl
    (by decide) rfl (by decide) (by decide) rfl rfl rfl rfl
  obtain ⟨⟨info, h1, h2, h3, -, -⟩, hd⟩ := h
  refine ⟨by decide, ⟨info, h1, h2, h3⟩, ?_⟩
  rw [hd]
  decide

/-! ## C30: the reads of `existingUsers[0]` in `ResendOTP` -/

/-- C30 (evaluation at the failing input): for an email that no user row holds,
every call succeeding, `ResendOTP` passes the guarded read of line 308, updates
no row and reaches the read `existingUsers[0]` of line 329 with an empty list:
the run ends in an index-out-of-range panic. -/
theorem resend_for_unknown_email_panics :
    oneUserLedger.users.filter (fun u => u.Email = resendUnknown.email) = [] ∧
      ResendOTP resendEnv resendUnknown oneUserLedger =
        (oneUserLedger, .indexOutOfRange 0 0) := by
  decide

/-! ## Lemmas on `GetStats` -/

theorem foldl_wrapInt64_eq_sum {α : Type} (g : α → Int) (l : List α) (acc : Int)
    (hg : ∀ x ∈ l, 0 ≤ g x) (hacc : 0 ≤ acc)
    (hfit : acc + (l.map g).sum < 9223372036854775808) :
    l.foldl (fun a x => wrapInt64 (a + g x)) acc = acc + (l.map g).sum := by
  induction l generalizing acc with
  | nil => simp
  | cons x l ih =>
    have hx : 0 ≤ g x := hg x (by simp)
    have hrest : 0 ≤ (l.map g).sum :=
      List.sum_nonneg (by
        intro y hy
        obtain ⟨z, hz, rfl⟩ := List.mem_map.mp hy
        exact hg z (by simp [hz]))
    simp only [List.map_cons, List.sum_cons] at hfit
    have hw : wrapInt64 (acc + g x) = acc + g x :=
      wrapInt64_of_fits _ (by omega) (by omega)
    simp only [List.foldl_cons, List.map_cons, List.sum_cons, hw]
    rw [ih (acc + g x) (fun y hy => hg y (by simp [hy])) (by omega) (by omega)]
    ring

theorem wrap_add_right_comm (a x y : Int) :
    wrapInt64 (wrapInt64 (a + x) + y) = wrapInt64 (wrapInt64 (a + y) + x) := by
  unfold wrapInt64
  omega

theorem foldl_wrap_perm (m m' : List (String × Int)) (h : m.Perm m') (acc : Int) :
    m.foldl (fun a e => wrapInt64 (a + e.2)) acc =
      m'.foldl (fun a e => wrapInt64 (a + e.2)) acc := by
  induction h generalizing acc with
  | nil => rfl
  | cons x _ ih => exact ih _
  | swap x y l =>
    simp only [List.foldl_cons]
    rw [wrap_add_right_comm]
  | trans _ _ ih1 ih2 => exact (ih1 acc).trans (ih2 acc)

/-- The sum over the values of the map does not depend on the order in which
the entries are visited. -/
theorem deduplicatedSize_perm (m m' : List (String × Int)) (h : m.Perm m') :
    deduplicatedSize m = deduplicatedSize m' :=
  foldl_wrap_perm m m' h 0

theorem embedFullContent_size (s : Ledger) (cid : String) :
    (embedFullContent s cid).Size = blobSize s cid := by
  unfold embedFullContent blobSize
  cases s.file_contents.find? (fun r => r.ContentID = cid) <;> rfl

theorem blobSize_eq_zero_of_no_row (s : Ledger) (cid : String)
    (h : ∀ r ∈ s.file_contents, r.ContentID ≠ cid) : blobSize s cid = 0 := by
  unfold blobSize
  cases hf : s.file_contents.find? (fun r => r.ContentID = cid) with
  | none => rfl
  | some r =>
    have h1 := List.mem_of_find?_eq_some hf
    have h2 := List.find?_some hf
    simp only [decide_eq_true_eq] at h2
    exact absurd h2 (h r h1)

theorem embedFullContent_key (s : Ledger) (cid : String) :
    ((embedFullContent s cid).ContentID = cid ∧ ∃ r ∈ s.file_contents, r.ContentID = cid) ∨
      ((embedFullContent s cid).ContentID = "" ∧ ∀ r ∈ s.file_contents, r.ContentID ≠ cid) := by
  unfold embedFullContent
  cases hf : s.file_contents.find? (fun r => r.ContentID = cid) with
  | none =>
    right
    refine ⟨rfl, fun r hr => ?_⟩
    have := List.find?_eq_none.mp hf r hr
    simpa using this
  | some r =>
    left
    have h1 := List.mem_of_find?_eq_some hf
    have h2 := List.find?_some hf
    simp only [decide_eq_true_eq] at h2
    exact ⟨h2, r, h1, h2⟩

theorem statsRows_size (s : Ledger) (userID : String)
    (hid : ∀ r ∈ s.file_contents, r.ContentID ≠ "") :
    ∀ r ∈ statsRows s userID, r.Size = blobSize s r.ContentID := by
  intro r hr
  unfold statsRows at hr
  obtain ⟨f, -, rfl⟩ := List.mem_map.mp hr
  rw [embedFullContent_size]
  rcases embedFullContent_key s f.ContentID with ⟨h1, -⟩ | ⟨h1, h2⟩
  · rw [h1]
  · rw [h1, blobSize_eq_zero_of_no_row s "" hid, blobSize_eq_zero_of_no_row s _ h2]

theorem mapStore_spec (h : String → Int) (m : List (String × Int)) (k : String)
    (hnd : (m.map (fun e => e.1)).Nodup) (hval : ∀ e ∈ m, e.2 = h e.1) :
    ((mapStore m k (h k)).map (fun e => e.1)).Nodup ∧
      (∀ e ∈ mapStore m k (h k), e.2 = h e.1) ∧
      (∀ x, x ∈ (mapStore m k (h k)).map (fun e => e.1) ↔
        x ∈ m.map (fun e => e.1) ∨ x = k) := by
  unfold mapStore
  by_cases hk : m.any (fun e => e.1 = k) = true
  · rw [if_pos hk]
    have hkeys : (m.map (fun e => if e.1 = k then (k, h k) else e)).map (fun e => e.1) =
        m.map (fun e => e.1) := by
      rw [List.map_map]
      apply List.map_congr_left
      intro e _
      simp only [Function.comp]
      by_cases he : e.1 = k <;> simp [he]
    have hkmem : k ∈ m.map (fun e => e.1) := by
      obtain ⟨e, he, hek⟩ := List.any_eq_true.mp hk
      simp only [decide_eq_true_eq] at hek
      exact List.mem_map.mpr ⟨e, he, hek⟩
    refine ⟨by rw [hkeys]; exact hnd, ?_, fun x => ?_⟩
    · intro e he
      obtain ⟨e0, he0, rfl⟩ := List.mem_map.mp he
      by_cases hc : e0.1 = k
      · simp [hc]
      · simp only [hc, if_false]
        exact hval e0 he0
    · rw [hkeys]
      constructor
      · exact fun hx => Or.inl hx
      · rintro (hx | hx)
        · exact hx
        · rw [hx]; exact hkmem
  · rw [if_neg hk]
    have hknot : k ∉ m.map (fun e => e.1) := by
      intro hmem
      obtain ⟨e, he, hek⟩ := List.mem_map.mp hmem
      apply hk
      apply List.any_eq_true.mpr
      exact ⟨e, he, by simpa using hek⟩
    refine ⟨?_, ?_, fun x => ?_⟩
    · rw [List.map_append, List.map_cons, List.map_nil]
      apply List.Nodup.append hnd (List.nodup_singleton _)
      intro x hx1 hx2
      simp only [List.mem_singleton] at hx2
      exact hknot (hx2 ▸ hx1)
    · intro e he
      rcases List.mem_append.mp he with h1 | h1
      · exact hval e h1
      · simp only [List.mem_singleton] at h1
        rw [h1]
    · simp [List.map_append]

theorem deduplicatedSizeMap_spec (h : String → Int) (rows : List FileContent)
    (hrows : ∀ r ∈ rows, r.Size = h r.ContentID) :
    ((deduplicatedSizeMap rows).map (fun e => e.1)).Nodup ∧
      (∀ e ∈ deduplicatedSizeMap rows, e.2 = h e.1) ∧
      (∀ x, x ∈ (deduplicatedSizeMap rows).map (fun e => e.1) ↔
        x ∈ rows.map (fun r => r.ContentID)) := by
  induction rows using List.reverseRecOn with
  | nil => simp [deduplicatedSizeMap]
  | append_singleton rows r ih =>
    obtain ⟨ih1, ih2, ih3⟩ := ih (fun x hx => hrows x (by simp [hx]))
    have hstep : deduplicatedSizeMap (rows ++ [r]) =
        mapStore (deduplicatedSizeMap rows) r.ContentID (h r.ContentID) := by
      unfold deduplicatedSizeMap
      rw [List.foldl_append, List.foldl_cons, List.foldl_nil, hrows r (by simp)]
    rw [hstep]
    obtain ⟨m1, m2, m3⟩ := mapStore_spec h (deduplicatedSizeMap rows) r.ContentID ih1 ih2
    refine ⟨m1, m2, fun x => ?_⟩
    rw [m3 x, ih3 x]
    simp [List.map_append]

theorem sum_dedup_eq_finset (h : String → Int) (l : List String) :
    (l.dedup.map h).sum = ∑ k in l.toFinset, h k := by
  rw [← List.sum_toFinset h (List.nodup_dedup l)]
  congr 1
  ext x
  simp

theorem sum_nodup_eq_finset (h : String → Int) (l : List String) (hnd : l.Nodup) :
    (l.map h).sum = ∑ k in l.toFinset, h k :=
  (List.sum_toFinset h hnd).symm

theorem sum_dedup_le (h : String → Int) (l : List String) (hpos : ∀ k ∈ l, 0 ≤ h k) :
    (l.dedup.map h).sum ≤ (l.map h).sum := by
  induction l with
  | nil => simp
  | cons a l ih =>
    have ih2 := ih (fun k hk => hpos k (by simp [hk]))
    have ha := hpos a (by simp)
    by_cases hmem : a ∈ l
    · rw [List.dedup_cons_of_mem hmem]
      simp only [List.map_cons, List.sum_cons]
      omega
    · rw [List.dedup_cons_of_not_mem hmem]
      simp only [List.map_cons, List.sum_cons]
      omega

theorem nodup_of_sum_dedup_eq (h : String → Int) (l : List String) (hpos : ∀ k ∈ l, 0 < h k)
    (heq : (l.dedup.map h).sum = (l.map h).sum) : l.Nodup := by
  induction l with
  | nil => exact List.nodup_nil
  | cons a l ih =>
    have hle := sum_dedup_le h l (fun k hk => le_of_lt (hpos k (by simp [hk])))
    have ha := hpos a (by simp)
    by_cases hmem : a ∈ l
    · rw [List.dedup_cons_of_mem hmem] at heq
      simp only [List.map_cons, List.sum_cons] at heq
      omega
    · rw [List.dedup_cons_of_not_mem hmem] at heq
      simp only [List.map_cons, List.sum_cons] at heq
      have heq2 : (l.dedup.map h).sum = (l.map h).sum := by omega
      exact List.nodup_cons.mpr ⟨hmem, ih (fun k hk => hpos k (by simp [hk])) heq2⟩

theorem dedupUsage_le_perFileUsage (s : Ledger) (ownerID : String)
    (hsize : ∀ r ∈ s.file_contents, 0 ≤ r.Size) : dedupUsage s ownerID ≤ perFileUsage s ownerID := by
  unfold dedupUsage perFileUsage
  have := sum_dedup_le (blobSize s) ((ownerLiveFiles s ownerID).map (fun f => f.ContentID))
    (fun k _ => blobSize_nonneg s k hsize)
  rw [List.map_map] at this
  exact this

theorem dedupUsage_nonneg (s : Ledger) (ownerID : String)
    (hsize : ∀ r ∈ s.file_contents, 0 ≤ r.Size) : 0 ≤ dedupUsage s ownerID := by
  unfold dedupUsage
  apply List.sum_nonneg
  intro x hx
  obtain ⟨k, -, rfl⟩ := List.mem_map.mp hx
  exact blobSize_nonneg s k hsize

/-- The values held by the map of `GetStats` add up to the sum of the recorded
size over the distinct content ids of the user's non-deleted files. -/
theorem deduplicatedSizeMap_sum (s : Ledger) (userID : String)
    (hid : ∀ r ∈ s.file_contents, r.ContentID ≠ "") :
    ((deduplicatedSizeMap (statsRows s userID)).map (fun e => e.2)).sum =
      dedupUsage s userID := by
  obtain ⟨h1, h2, h3⟩ := deduplicatedSizeMap_spec (blobSize s) (statsRows s userID)
    (statsRows_size s userID hid)
  have hvals : (deduplicatedSizeMap (statsRows s userID)).map (fun e => e.2) =
      ((deduplicatedSizeMap (statsRows s userID)).map (fun e => e.1)).map (blobSize s) := by
    rw [List.map_map]
    apply List.map_congr_left
    intro e he
    exact h2 e he
  rw [hvals, sum_nodup_eq_finset _ _ h1]
  unfold dedupUsage
  rw [sum_dedup_eq_finset]
  rw [← Finset.sum_filter_ne_zero, ← Finset.sum_filter_ne_zero (s := List.toFinset _)]
  congr 1
  ext k
  simp only [Finset.mem_filter, List.mem_toFinset, ne_eq]
  constructor
  · rintro ⟨hk, hne⟩
    refine ⟨?_, hne⟩
    rw [h3 k] at hk
    obtain ⟨r, hr, rfl⟩ := List.mem_map.mp hk
    unfold statsRows at hr
    obtain ⟨f, hf, rfl⟩ := List.mem_map.mp hr
    rcases embedFullContent_key s f.ContentID with ⟨e1, -⟩ | ⟨e1, -⟩
    · rw [e1]
      exact List.mem_map_of_mem _ hf
    · rw [e1] at hne
      exact absurd (blobSize_eq_zero_of_no_row s "" hid) hne
  · rintro ⟨hk, hne⟩
    refine ⟨?_, hne⟩
    rw [h3 k]
    obtain ⟨f, hf, rfl⟩ := List.mem_map.mp hk
    apply List.mem_map.mpr
    refine ⟨embedFullContent s f.ContentID, ?_, ?_⟩
    · unfold statsRows
      exact List.mem_map_of_mem _ hf
    · rcases embedFullContent_key s f.ContentID with ⟨e1, -⟩ | ⟨-, e2⟩
      · exact e1
      · exact absurd (blobSize_eq_zero_of_no_row s _ e2) hne

theorem originalSize_statsRows (s : Ledger) (userID : String)
    (hsize : ∀ r ∈ s.file_contents, 0 ≤ r.Size)
    (hfit : perFileUsage s userID < 9223372036854775808) :
    originalSize (statsRows s userID) = perFileUsage s userID := by
  unfold originalSize
  have hsum : ((statsRows s userID).map (fun r => r.Size)).sum = perFileUsage s userID := by
    unfold statsRows perFileUsage
    rw [List.map_map]
    congr 1
    apply List.map_congr_left
    intro f _
    exact embedFullContent_size s f.ContentID
  rw [foldl_wrapInt64_eq_sum (fun r : FileContent => r.Size) _ 0 ?_ (le_refl 0)
    (by rw [hsum]; omega), hsum]
  · ring
  · intro r hr
    unfold statsRows at hr
    obtain ⟨f, -, rfl⟩ := List.mem_map.mp hr
    show 0 ≤ (embedFullContent s f.ContentID).Size
    rw [embedFullContent_size]
    exact blobSize_nonneg s _ hsize

theorem deduplicatedSize_statsRows (s : Ledger) (userID : String)
    (hid : ∀ r ∈ s.file_contents, r.ContentID ≠ "")
    (hsize : ∀ r ∈ s.file_contents, 0 ≤ r.Size)
    (hfit : perFileUsage s userID < 9223372036854775808) :
    deduplicatedSize (deduplicatedSizeMap (statsRows s userID)) = dedupUsage s userID := by
  unfold deduplicatedSize
  have hsum := deduplicatedSizeMap_sum s userID hid
  have hle := dedupUsage_le_perFileUsage s userID hsize
  obtain ⟨-, h2, -⟩ := deduplicatedSizeMap_spec (blobSize s) (statsRows s userID)
    (statsRows_size s userID hid)
  rw [foldl_wrapInt64_eq_sum (fun e : String × Int => e.2) _ 0 ?_ (le_refl 0)
    (by rw [hsum]; omega), hsum]
  · ring
  · intro e he
    show 0 ≤ e.2
    rw [h2 e he]
    exact blobSize_nonneg s _ hsize

/-- What `GetStats` answers when its queries succeed, content ids are non-empty,
sizes are non-negative and the per-file sum fits in `int64`. -/
theorem GetStats_result (userID : String) (s : Ledger) (user : User)
    (huid : userID ≠ "")
    (huser : s.users.filter (fun u => u.UserID = userID) = [user])
    (hid : ∀ r ∈ s.file_contents, r.ContentID ≠ "")
    (hsize : ∀ r ∈ s.file_contents, 0 ≤ r.Size)
    (hfit : perFileUsage s userID < 9223372036854775808) :
    GetStats false false userID s =
      .ok { storage_quota := user.StorageQuota
            total_storage_used_deduplicated := dedupUsage s userID
            original_storage_usage := perFileUsage s userID
            storage_savings_bytes := perFileUsage s userID - dedupUsage s userID
            savingsDivision :=
              if perFileUsage s userID > 0 then
                some (perFileUsage s userID - dedupUsage s userID, perFileUsage s userID)
              else none } := by
  have ho := originalSize_statsRows s userID hsize hfit
  have hd := deduplicatedSize_statsRows s userID hid hsize hfit
  have hle := dedupUsage_le_perFileUsage s userID hsize
  have hnn := dedupUsage_nonneg s userID hsize
  have hw : wrapInt64 (perFileUsage s userID - dedupUsage s userID) =
      perFileUsage s userID - dedupUsage s userID :=
    wrapInt64_of_fits _ (by omega) (by omega)
  unfold GetStats
  simp only [huid, if_false, Bool.false_eq_true, huser, single, ho, hd, hw]

/-! ## C21: the two sums reported by `GetStats` -/

/-- C21: when its queries succeed, content ids are non-empty, sizes are
non-negative and the per-file sum fits in `int64`, `GetStats` reports as
`original_storage_usage` the sum of the recorded size over the user's
non-deleted files, one term per file, and as `total_storage_used_deduplicated`
the sum of the recorded size over the distinct content ids those files
reference, one term per content id. -/
theorem stats_original_and_deduplicated (userID : String) (s : Ledger) (user : User)
    (huid : userID ≠ "")
    (huser : s.users.filter (fun u => u.UserID = userID) = [user])
    (hid : ∀ r ∈ s.file_contents, r.ContentID ≠ "")
    (hsize : ∀ r ∈ s.file_contents, 0 ≤ r.Size)
    (hfit : perFileUsage s userID < 9223372036854775808) :
    ∃ stats, GetStats false false userID s = .ok stats ∧
      stats.original_storage_usage =
        ((ownerLiveFiles s userID).map (fun f => blobSize s f.ContentID)).sum ∧
      stats.total_storage_used_deduplicated =
        ((((ownerLiveFiles s userID).map (fun f => f.ContentID)).dedup).map (blobSize s)).sum ∧
      stats.storage_quota = user.StorageQuota :=
  ⟨_, GetStats_result userID s user huid huser hid hsize hfit, rfl, rfl, rfl⟩

/-- Witness for C21: `u1` holds two files with the same 600 bytes. -/
theorem stats_original_and_deduplicated_witness :
    ∃ stats, GetStats false false "u1" (afterAB 2000) = .ok stats ∧
      stats.original_storage_usage = 1200 ∧ stats.total_storage_used_deduplicated = 600 := by
  obtain ⟨stats, h1, h2, h3, -⟩ := stats_original_and_deduplicated "u1" (afterAB 2000)
    userU1Quota2000 (by decide) (by decide) (by decide) (by decide) (by decide)
  refine ⟨stats, h1, ?_, ?_⟩
  · rw [h2]; decide
  · rw [h3]; decide

/-! ## C22: deduplicated against original usage -/

/-- C22 (as stated, refuted): `u1` holds two non-deleted files that reference the
same content, of size 0; `GetStats` reports 0 for both sums, so the sums are
equal although two files reference the same `content_id`. -/
theorem equal_sums_with_shared_empty_content :
    (∀ r ∈ zeroSizeLedger.file_contents, 0 ≤ r.Size) ∧
      GetStats false false "u1" zeroSizeLedger =
        .ok { storage_quota := 1000, total_storage_used_deduplicated := 0,
              original_storage_usage := 0, storage_savings_bytes := 0,
              savingsDivision := none } ∧
      ¬ ((ownerLiveFiles zeroSizeLedger "u1").map (fun f => f.ContentID)).Nodup := by
  decide

/-- C22 (amended): under the conditions of C21 (blob sizes non-negative),
`GetStats` reports a deduplicated sum at most the original sum; the two are
equal when no two of the user's non-deleted files reference the same
`content_id`; and when every such file references content of positive recorded
size, equality holds only if no two of them reference the same `content_id`. -/
theorem stats_deduplicated_le_original (userID : String) (s : Ledger) (user : User)
    (huid : userID ≠ "")
    (huser : s.users.filter (fun u => u.UserID = userID) = [user])
    (hid : ∀ r ∈ s.file_contents, r.ContentID ≠ "")
    (hsize : ∀ r ∈ s.file_contents, 0 ≤ r.Size)
    (hfit : perFileUsage s userID < 9223372036854775808) :
    ∃ stats, GetStats false false userID s = .ok stats ∧
      stats.total_storage_used_deduplicated ≤ stats.original_storage_usage ∧
      (((ownerLiveFiles s userID).map (fun f => f.ContentID)).Nodup →
        stats.total_storage_used_deduplicated = stats.original_storage_usage) ∧
      ((∀ f ∈ ownerLiveFiles s userID, 0 < blobSize s f.ContentID) →
        stats.total_storage_used_deduplicated = stats.original_storage_usage →
        ((ownerLiveFiles s userID).map (fun f => f.ContentID)).Nodup) := by
  refine ⟨_, GetStats_result userID s user huid huser hid hsize hfit, ?_, ?_, ?_⟩
  · exact dedupUsage_le_perFileUsage s userID hsize
  · intro hnd
    show dedupUsage s userID = perFileUsage s userID
    unfold dedupUsage perFileUsage
    rw [hnd.dedup, List.map_map]
    rfl
  · intro hpos heq
    have heq2 : dedupUsage s userID = perFileUsage s userID := heq
    unfold dedupUsage perFileUsage at heq2
    apply nodup_of_sum_dedup_eq (blobSize s)
    · intro k hk
      obtain ⟨f, hf, rfl⟩ := List.mem_map.mp hk
      exact hpos f hf
    · rw [heq2, List.map_map]
      rfl

/-- Witness for C22 (amended): `u1` holds two files with the same 600 bytes, so
the deduplicated sum 600 is below the original sum 1200. -/
theorem stats_deduplicated_le_original_witness :
    ∃ stats, GetStats false false "u1" (afterAB 2000) = .ok stats ∧
      stats.total_storage_used_deduplicated ≤ stats.original_storage_usage ∧
      stats.total_storage_used_deduplicated ≠ stats.original_storage_usage := by
  obtain ⟨stats, h1, h2, -, h4⟩ := stats_deduplicated_le_original "u1" (afterAB 2000)
    userU1Quota2000 (by decide) (by decide) (by decide) (by decide) (by decide)
  refine ⟨stats, h1, h2, fun heq => ?_⟩
  have hnd := h4 (by decide) heq
  revert hnd
  decide

/-! ## Lemmas on `LIKE` patterns and `SearchFiles` -/

theorem likeTokens_cons_plain (c : Char) (p : List Char) (h1 : c ≠ '%') (h2 : c ≠ '_')
    (h3 : c ≠ '\\') :
    likeTokens (c :: p) = (likeTokens p).map (fun ts => LikeToken.lit c :: ts) := by
  rw [likeTokens.eq_def]
  simp only [h1, h2, h3, if_false]

theorem likeTokens_cons_percent (p : List Char) :
    likeTokens ('%' :: p) = (likeTokens p).map (fun ts => LikeToken.anySeq :: ts) := by
  rw [likeTokens.eq_def]
  have hb : ¬ ('%' = '\\') := by decide
  simp only [hb, if_false, if_true]

theorem likeTokens_literal (l rest : List Char)
    (hl : ∀ c ∈ l, c ≠ '%' ∧ c ≠ '_' ∧ c ≠ '\\') :
    likeTokens (l ++ rest) = (likeTokens rest).map (fun ts => l.map LikeToken.lit ++ ts) := by
  induction l with
  | nil =>
    rw [List.nil_append]
    cases likeTokens rest <;> rfl
  | cons c l ih =>
    obtain ⟨h1, h2, h3⟩ := hl c (by simp)
    have ih2 := ih (fun x hx => hl x (by simp [hx]))
    rw [List.cons_append, likeTokens_cons_plain c _ h1 h2 h3, ih2]
    cases likeTokens rest <;> rfl

theorem likeTokens_contains (name : String) (hname : ∀ c ∈ name.data, isLikeMeta c = false) :
    likeTokens (postgrestLikePattern ("%" ++ name ++ "%")) =
      some (LikeToken.anySeq :: (name.data.map LikeToken.lit ++ [LikeToken.anySeq])) := by
  have hmeta : ∀ c ∈ name.data, c ≠ '%' ∧ c ≠ '_' ∧ c ≠ '*' ∧ c ≠ '\\' := by
    intro c hc
    have := hname c hc
    simp only [isLikeMeta, Bool.or_eq_false_iff, decide_eq_false_iff_not] at this
    exact ⟨this.1.1.1, this.1.1.2, this.1.2, this.2⟩
  have hdata : ("%" ++ name ++ "%").data = '%' :: (name.data ++ ['%']) := by
    simp [String.data_append]
  have hmap : name.data.map (fun c => if c = '*' then '%' else c) = name.data := by
    conv_rhs => rw [← List.map_id name.data]
    apply List.map_congr_left
    intro c hc
    simp [(hmeta c hc).2.2.1]
  have hpat : postgrestLikePattern ("%" ++ name ++ "%") = '%' :: (name.data ++ ['%']) := by
    unfold postgrestLikePattern
    rw [hdata, List.map_cons, List.map_append, hmap]
    rfl
  have hlast : likeTokens ['%'] = some [LikeToken.anySeq] := by
    rw [likeTokens_cons_percent]
    rfl
  rw [hpat, likeTokens_cons_percent, likeTokens_literal name.data ['%']
    (fun c hc => ⟨(hmeta c hc).1, (hmeta c hc).2.1, (hmeta c hc).2.2.2⟩), hlast]
  rfl

theorem likeMatch_anySeq (p : List LikeToken) (t : List Char) :
    likeMatch (LikeToken.anySeq :: p) t = t.tails.any (fun u => likeMatch p u) := by
  rw [likeMatch]

theorem likeMatch_lit_cons (c x : Char) (p : List LikeToken) (t : List Char) :
    likeMatch (LikeToken.lit c :: p) (x :: t) = (decide (x = c) && likeMatch p t) := by
  rw [likeMatch]

theorem likeMatch_lit_nil (c : Char) (p : List LikeToken) :
    likeMatch (LikeToken.lit c :: p) [] = false := by
  rw [likeMatch]

theorem likeMatch_nil (t : List Char) : likeMatch [] t = t.isEmpty := by
  rw [likeMatch]

theorem likeMatch_anySeq_nil (t : List Char) : likeMatch [LikeToken.anySeq] t = true := by
  rw [likeMatch_anySeq, List.any_eq_true]
  exact ⟨[], (List.mem_tails [] t).mpr List.nil_suffix, by rw [likeMatch_nil]; rfl⟩

theorem likeMatch_literal_head (l t : List Char) :
    likeMatch (l.map LikeToken.lit ++ [LikeToken.anySeq]) t = true ↔ l <+: t := by
  induction l generalizing t with
  | nil =>
    simp only [List.map_nil, List.nil_append, likeMatch_anySeq_nil, List.nil_prefix]
  | cons c l ih =>
    rw [List.map_cons, List.cons_append]
    cases t with
    | nil =>
      rw [likeMatch_lit_nil]
      simp
    | cons x t =>
      rw [likeMatch_lit_cons, Bool.and_eq_true, decide_eq_true_eq, ih t]
      constructor
      · rintro ⟨rfl, h⟩
        exact (List.cons_prefix_cons).mpr ⟨rfl, h⟩
      · intro h
        obtain ⟨h1, h2⟩ := (List.cons_prefix_cons).mp h
        exact ⟨h1.symm, h2⟩

theorem likeMatch_contains (l t : List Char) :
    likeMatch (LikeToken.anySeq :: (l.map LikeToken.lit ++ [LikeToken.anySeq])) t = true ↔
      l <:+: t := by
  rw [likeMatch_anySeq, List.any_eq_true]
  constructor
  · rintro ⟨u, hu, hp⟩
    exact List.infix_iff_prefix_suffix.mpr
      ⟨u, (likeMatch_literal_head l u).mp hp, (List.mem_tails u t).mp hu⟩
  · intro h
    obtain ⟨u, hp, hs⟩ := List.infix_iff_prefix_suffix.mp h
    exact ⟨u, (List.mem_tails u t).mpr hs, (likeMatch_literal_head l u).mpr hp⟩

theorem embeddedFiltersPass_of_no_filter (ql : QueryLib) (q : SearchQuery) (r : FileContent)
    (h1 : q.mime_type = "") (h2 : q.min_size = "") (h3 : q.max_size = "") :
    embeddedFiltersPass ql q r = true := by
  unfold embeddedFiltersPass
  simp [h1, h2, h3]

theorem embedded_row (ql : QueryLib) (q : SearchQuery) (s : Ledger) (f : UserFile)
    (h : (q.mime_type ≠ "" ∨ q.min_size ≠ "" ∨ q.max_size ≠ "") →
      ((s.file_contents.find? (fun r => r.ContentID = f.ContentID)).filter
        (embeddedFiltersPass ql q)).isSome = true) :
    ({ FileID := f.FileID
       Filename := f.Filename
       IsDeleted := f.IsDeleted
       CreatedAt := f.CreatedAt
       Size := match (s.file_contents.find? (fun r => r.ContentID = f.ContentID)).filter
           (embeddedFiltersPass ql q) with
         | some r => r.Size
         | none => 0
       MimeType := match (s.file_contents.find? (fun r => r.ContentID = f.ContentID)).filter
           (embeddedFiltersPass ql q) with
         | some r => r.MimeType
         | none => "" } : FileSearchResult) = resultRow s f := by
  unfold resultRow embedContent
  cases hfind : s.file_contents.find? (fun r => r.ContentID = f.ContentID) with
  | none => simp [Option.filter]
  | some r =>
    by_cases hj : q.mime_type ≠ "" ∨ q.min_size ≠ "" ∨ q.max_size ≠ ""
    · have := h hj
      rw [hfind] at this
      have hp : embeddedFiltersPass ql q r = true := by
        by_contra hne
        simp [Option.filter, hne] at this
      simp [Option.filter, hp]
    · have hp : embeddedFiltersPass ql q r = true := by
        apply embeddedFiltersPass_of_no_filter
        · by_contra h1; exact hj (Or.inl h1)
        · by_contra h1; exact hj (Or.inr (Or.inl h1))
        · by_contra h1; exact hj (Or.inr (Or.inr h1))
      simp [Option.filter, hp]

/-- The answer of `SearchFiles` once the pattern and the dates have been read:
the owner's non-deleted files that pass the join, the name pattern and the date
bounds, each shown as a listing row. -/
theorem SearchFiles_ok (ql : QueryLib) (q : SearchQuery) (s : Ledger)
    (pat : List LikeToken) (startV endV : Option Nat)
    (howner : q.owner_id ≠ "")
    (hpat : (if q.filename = "" then some []
             else likeTokens (postgrestLikePattern ("%" ++ q.filename ++ "%"))) = some pat)
    (hs : (if q.start_date = "" then some none
           else (ql.parseTimestamp q.start_date).map some) = some startV)
    (he : (if q.end_date = "" then some none
           else (ql.parseTimestamp q.end_date).map some) = some endV) :
    SearchFiles ql false q s =
      .ok (((ownerLiveFiles s q.owner_id).filter (fun f =>
          (decide (¬ (q.mime_type ≠ "" ∨ q.min_size ≠ "" ∨ q.max_size ≠ "")) ||
            ((s.file_contents.find? (fun r => r.ContentID = f.ContentID)).filter
              (embeddedFiltersPass ql q)).isSome) &&
          (decide (q.filename = "") || likeMatch pat f.Filename.data) &&
          (match startV with
           | some t => decide (t ≤ f.CreatedAt)
           | none => true) &&
          (match endV with
           | some t => decide (f.CreatedAt ≤ t)
           | none => true))).map (resultRow s)) := by
  unfold SearchFiles
  simp only [howner, if_false, hpat, hs, he, Bool.false_eq_true]
  congr 1
  have key : ∀ (l1 l2 : List UserFile), l1 = l2 →
      (∀ f ∈ l2, (q.mime_type ≠ "" ∨ q.min_size ≠ "" ∨ q.max_size ≠ "") →
        ((s.file_contents.find? (fun r => r.ContentID = f.ContentID)).filter
          (embeddedFiltersPass ql q)).isSome = true) →
      l1.map (fun f =>
        ({ FileID := f.FileID
           Filename := f.Filename
           IsDeleted := f.IsDeleted
           CreatedAt := f.CreatedAt
           Size := match (s.file_contents.find? (fun r => r.ContentID = f.ContentID)).filter
               (embeddedFiltersPass ql q) with
             | some r => r.Size
             | none => 0
           MimeType := match (s.file_contents.find? (fun r => r.ContentID = f.ContentID)).filter
               (embeddedFiltersPass ql q) with
             | some r => r.MimeType
             | none => "" } : FileSearchResult)) = l2.map (resultRow s) := by
    intro l1 l2 h12 hl
    subst h12
    apply List.map_congr_left
    intro f hf
    exact embedded_row ql q s f (hl f hf)
  have hmem : ∀ f ∈ (ownerLiveFiles s q.owner_id).filter (fun f =>
          (decide (¬ (q.mime_type ≠ "" ∨ q.min_size ≠ "" ∨ q.max_size ≠ "")) ||
            ((s.file_contents.find? (fun r => r.ContentID = f.ContentID)).filter
              (embeddedFiltersPass ql q)).isSome) &&
          (decide (q.filename = "") || likeMatch pat f.Filename.data) &&
          (match startV with
           | some t => decide (t ≤ f.CreatedAt)
           | none => true) &&
          (match endV with
           | some t => decide (f.CreatedAt ≤ t)
           | none => true)),
      (q.mime_type ≠ "" ∨ q.min_size ≠ "" ∨ q.max_size ≠ "") →
        ((s.file_contents.find? (fun r => r.ContentID = f.ContentID)).filter
          (embeddedFiltersPass ql q)).isSome = true := by
    intro f hf hj
    have h1 := (List.mem_filter.mp hf).2
    simp only [Bool.and_eq_true, Bool.or_eq_true, decide_eq_true_eq] at h1
    rcases h1.1.1.1 with h2 | h2
    · exact absurd hj h2
    · exact h2
  apply key _ _ _ hmem
  by_cases hj : q.mime_type ≠ "" ∨ q.min_size ≠ "" ∨ q.max_size ≠ "" <;>
    by_cases hn : q.filename = "" <;> cases startV <;> cases endV <;>
    simp only [hj, hn, if_true, if_false, List.filter_filter] <;>
    first
      | (apply List.filter_congr
         intro f _
         rw [Bool.eq_iff_iff]
         simp [hj, hn]
         try tauto)
      | (symm
         apply List.filter_eq_self.mpr
         intro f _
         simp [hj, hn])

/-- The join and the filters on the content row, taken together, say what the
three content filters of the specification say, when each supplied size bound
is a number. -/
theorem embedded_filters_iff (ql : QueryLib) (q : SearchQuery) (s : Ledger) (f : UserFile)
    (hmin : q.min_size ≠ "" → (ql.Atoi q.min_size).isSome = true)
    (hmax : q.max_size ≠ "" → (ql.Atoi q.max_size).isSome = true) :
    ((decide (¬ (q.mime_type ≠ "" ∨ q.min_size ≠ "" ∨ q.max_size ≠ "")) ||
        ((s.file_contents.find? (fun r => r.ContentID = f.ContentID)).filter
          (embeddedFiltersPass ql q)).isSome) = true) ↔
      ((q.mime_type = "" ∨
          ∃ r, s.file_contents.find? (fun r => r.ContentID = f.ContentID) = some r ∧
            r.MimeType = q.mime_type) ∧
        (q.min_size = "" ∨
          ∃ r n, s.file_contents.find? (fun r => r.ContentID = f.ContentID) = some r ∧
            ql.Atoi q.min_size = some n ∧ n ≤ r.Size) ∧
        (q.max_size = "" ∨
          ∃ r n, s.file_contents.find? (fun r => r.ContentID = f.ContentID) = some r ∧
            ql.Atoi q.max_size = some n ∧ r.Size ≤ n)) := by
  cases hfind : s.file_contents.find? (fun r => r.ContentID = f.ContentID) with
  | none =>
    simp [Option.filter]
  | some r =>
    have hpass : embeddedFiltersPass ql q r = true ↔
        ((q.mime_type = "" ∨ r.MimeType = q.mime_type) ∧
          (q.min_size = "" ∨ ∃ n, ql.Atoi q.min_size = some n ∧ n ≤ r.Size) ∧
          (q.max_size = "" ∨ ∃ n, ql.Atoi q.max_size = some n ∧ r.Size ≤ n)) := by
      unfold embeddedFiltersPass
      by_cases h2 : q.min_size = "" <;> by_cases h3 : q.max_size = ""
      · simp [h2, h3]
      · obtain ⟨m, hm⟩ := Option.isSome_iff_exists.mp (hmax h3)
        simp [h2, h3, hm]
      · obtain ⟨n, hn⟩ := Option.isSome_iff_exists.mp (hmin h2)
        simp [h2, h3, hn]
      · obtain ⟨n, hn⟩ := Option.isSome_iff_exists.mp (hmin h2)
        obtain ⟨m, hm⟩ := Option.isSome_iff_exists.mp (hmax h3)
        simp [h2, h3, hn, hm, and_assoc]
    by_cases hp : embeddedFiltersPass ql q r = true
    · have h := hpass.mp hp
      simp only [Option.filter, hp, if_true, Option.isSome_some, Bool.or_true, true_iff]
      refine ⟨?_, ?_, ?_⟩
      · rcases h.1 with h1 | h1
        · exact Or.inl h1
        · exact Or.inr ⟨r, rfl, h1⟩
      · rcases h.2.1 with h1 | ⟨n, h1⟩
        · exact Or.inl h1
        · exact Or.inr ⟨r, n, rfl, h1⟩
      · rcases h.2.2 with h1 | ⟨n, h1⟩
        · exact Or.inl h1
        · exact Or.inr ⟨r, n, rfl, h1⟩
    · have hnp : ¬ ((q.mime_type = "" ∨ r.MimeType = q.mime_type) ∧
          (q.min_size = "" ∨ ∃ n, ql.Atoi q.min_size = some n ∧ n ≤ r.Size) ∧
          (q.max_size = "" ∨ ∃ n, ql.Atoi q.max_size = some n ∧ r.Size ≤ n)) :=
        fun h => hp (hpass.mpr h)
      have hpf : embeddedFiltersPass ql q r = false := by simpa using hp
      simp only [Option.filter, hpf, Bool.false_eq_true, if_false, Option.isSome_none,
        Bool.or_false, decide_eq_true_eq]
      constructor
      · intro hj
        exfalso
        apply hnp
        refine ⟨Or.inl ?_, Or.inl ?_, Or.inl ?_⟩
        · by_contra h1; exact hj (Or.inl h1)
        · by_contra h1; exact hj (Or.inr (Or.inl h1))
        · by_contra h1; exact hj (Or.inr (Or.inr h1))
      · rintro ⟨h1, h2, h3⟩
        exfalso
        apply hnp
        refine ⟨?_, ?_, ?_⟩
        · rcases h1 with h1 | ⟨r1, hr, h1⟩
          · exact Or.inl h1
          · cases hr; exact Or.inr h1
        · rcases h2 with h2 | ⟨r1, n, hr, h2⟩
          · exact Or.inl h2
          · cases hr; exact Or.inr ⟨n, h2⟩
        · rcases h3 with h3 | ⟨r1, n, hr, h3⟩
          · exact Or.inl h3
          · cases hr; exact Or.inr ⟨n, h3⟩

/-- A lower date bound read by the database, as a condition on a creation
time. -/
theorem start_bound_iff (parse : String → Option Nat) (d : String) (v : Option Nat)
    (created : Nat) :
    (v = none ↔ d = "") → (∀ t, v = some t → parse d = some t) →
      (((match v with
        | some t => decide (t ≤ created)
        | none => true) = true) ↔
        (d = "" ∨ ∃ t, parse d = some t ∧ t ≤ created)) := by
  intro h0 h1
  cases v with
  | none => simp [h0.mp rfl]
  | some t =>
    have hne : d ≠ "" := fun hd => by
      have := h0.mpr hd
      cases this
    simp [hne, h1 t rfl]

/-- An upper date bound read by the database, as a condition on a creation
time. -/
theorem end_bound_iff (parse : String → Option Nat) (d : String) (v : Option Nat)
    (created : Nat) :
    (v = none ↔ d = "") → (∀ t, v = some t → parse d = some t) →
      (((match v with
        | some t => decide (created ≤ t)
        | none => true) = true) ↔
        (d = "" ∨ ∃ t, parse d = some t ∧ created ≤ t)) := by
  intro h0 h1
  cases v with
  | none => simp [h0.mp rfl]
  | some t =>
    have hne : d ≠ "" := fun hd => by
      have := h0.mpr hd
      cases this
    simp [hne, h1 t rfl]

/-! ## C25: the files a search returns -/

/-- Counterexample for C25: `u1` holds only `a.txt` and searches for names
containing `a_txt`; the search returns `a.txt`, whose name does not contain
that string, because the underscore reaches the database as the `LIKE` wildcard
for any one character. -/
theorem search_underscore_matches_any_character :
    SearchFiles sampleQueryLib false searchUnderscore afterA =
        .ok [{ FileID := "file-1", Filename := "a.txt", IsDeleted := false, CreatedAt := 1,
               Size := 600, MimeType := "text/plain" }] ∧
      ¬ (searchUnderscore.filename.data <:+: "a.txt".data) ∧
      ¬ satisfiesFilters sampleQueryLib searchUnderscore afterA
          { FileID := "file-1", OwnerID := "u1", ContentID := "content-1", Filename := "a.txt",
            IsDeleted := false, CreatedAt := 1 } := by
  refine ⟨by decide, by decide, ?_⟩
  intro h
  exact absurd h.1 (by decide)

/-- C25 (amended): when the owner is given, the searched name holds none of the
characters `%`, `_`, `*` and backslash, each supplied size bound is a number
and each supplied date is a timestamp the database accepts, `SearchFiles`
returns, in table order, the rows of exactly the owner's non-deleted files that
satisfy every supplied filter; the MIME and size filters are judged on the
content row and exclude a file that has none.  With no filter at all the answer
is that of `ListFiles`. -/
theorem search_returns_matching_files (ql : QueryLib) (q : SearchQuery) (s : Ledger)
    (howner : q.owner_id ≠ "")
    (hname : ∀ c ∈ q.filename.data, isLikeMeta c = false)
    (hmin : q.min_size ≠ "" → (ql.Atoi q.min_size).isSome = true)
    (hmax : q.max_size ≠ "" → (ql.Atoi q.max_size).isSome = true)
    (hstart : q.start_date ≠ "" → (ql.parseTimestamp q.start_date).isSome = true)
    (hend : q.end_date ≠ "" → (ql.parseTimestamp q.end_date).isSome = true) :
    (∃ p : UserFile → Bool, (∀ f, p f = true ↔ satisfiesFilters ql q s f) ∧
        SearchFiles ql false q s =
          .ok (((ownerLiveFiles s q.owner_id).filter p).map (resultRow s))) ∧
      (q.filename = "" → q.mime_type = "" → q.min_size = "" → q.max_size = "" →
        q.start_date = "" → q.end_date = "" →
        SearchFiles ql false q s = ListFiles false q.owner_id s) := by
  -- the pattern the database reads
  obtain ⟨pat, hpat, hpatm⟩ : ∃ pat,
      (if q.filename = "" then some []
       else likeTokens (postgrestLikePattern ("%" ++ q.filename ++ "%"))) = some pat ∧
      ∀ t, (decide (q.filename = "") || likeMatch pat t) = true ↔
        (q.filename = "" ∨ q.filename.data <:+: t) := by
    by_cases hn : q.filename = ""
    · exact ⟨[], by simp [hn], fun t => by simp [hn]⟩
    · refine ⟨LikeToken.anySeq :: (q.filename.data.map LikeToken.lit ++ [LikeToken.anySeq]),
        by simp [hn, likeTokens_contains q.filename hname], fun t => ?_⟩
      simp only [hn, decide_False, Bool.false_or, false_or]
      exact likeMatch_contains q.filename.data t
  -- the dates the database reads
  have hdate : ∀ (d : String), (d ≠ "" → (ql.parseTimestamp d).isSome = true) →
      ∃ v : Option Nat,
        (if d = "" then some none else (ql.parseTimestamp d).map some) = some v ∧
        (v = none ↔ d = "") ∧ ∀ t, v = some t → ql.parseTimestamp d = some t := by
    intro d hd
    by_cases h0 : d = ""
    · exact ⟨none, by simp [h0], by simp [h0], fun t ht => by cases ht⟩
    · obtain ⟨t, ht⟩ := Option.isSome_iff_exists.mp (hd h0)
      exact ⟨some t, by simp [h0, ht], by simp [h0], fun t1 ht1 => by cases ht1; exact ht⟩
  obtain ⟨startV, hs, hs0, hs1⟩ := hdate q.start_date hstart
  obtain ⟨endV, he, he0, he1⟩ := hdate q.end_date hend
  have hok := SearchFiles_ok ql q s pat startV endV howner hpat hs he
  refine ⟨⟨_, fun f => ?_, hok⟩, ?_⟩
  · unfold satisfiesFilters
    simp only [Bool.and_eq_true]
    rw [embedded_filters_iff ql q s f hmin hmax, hpatm f.Filename.data]
    have hS := start_bound_iff ql.parseTimestamp q.start_date startV f.CreatedAt hs0 hs1
    have hE := end_bound_iff ql.parseTimestamp q.end_date endV f.CreatedAt he0 he1
    rw [hS, hE]
    constructor
    · rintro ⟨⟨⟨⟨a1, a2, a3⟩, b⟩, c⟩, d⟩
      exact ⟨b, a1, a2, a3, c, d⟩
    · rintro ⟨b, a1, a2, a3, c, d⟩
      exact ⟨⟨⟨⟨a1, a2, a3⟩, b⟩, c⟩, d⟩
  · intro h1 h2 h3 h4 h5 h6
    have hnone1 : startV = none := hs0.mpr h5
    have hnone2 : endV = none := he0.mpr h6
    rw [hok]
    unfold ListFiles
    simp only [howner, if_false, Bool.false_eq_true]
    congr 1
    subst hnone1 hnone2
    have : (ownerLiveFiles s q.owner_id).filter (fun f =>
          (decide (¬ (q.mime_type ≠ "" ∨ q.min_size ≠ "" ∨ q.max_size ≠ "")) ||
            ((s.file_contents.find? (fun r => r.ContentID = f.ContentID)).filter
              (embeddedFiltersPass ql q)).isSome) &&
          (decide (q.filename = "") || likeMatch pat f.Filename.data) &&
          (match (none : Option Nat) with
           | some t => decide (t ≤ f.CreatedAt)
           | none => true) &&
          (match (none : Option Nat) with
           | some t => decide (f.CreatedAt ≤ t)
           | none => true)) = ownerLiveFiles s q.owner_id := by
      apply List.filter_eq_self.mpr
      intro f _
      simp [h1, h2, h3, h4]
    rw [this]
    rfl

/-- Witness for C25 (amended): `u1` holds `a.txt` (created at 1) and `b.txt`
(created at 2), both of 600 bytes, and searches for names containing `b.t`, of
sizes 1 to 600, created from time 2 on; the search returns `b.txt` alone. -/
theorem search_returns_matching_files_witness :
    (∃ p : UserFile → Bool,
        (∀ f, p f = true ↔ satisfiesFilters sampleQueryLib searchSeveral (afterAB 2000) f) ∧
        SearchFiles sampleQueryLib false searchSeveral (afterAB 2000) =
          .ok (((ownerLiveFiles (afterAB 2000) searchSeveral.owner_id).filter p).map
            (resultRow (afterAB 2000)))) ∧
      SearchFiles sampleQueryLib false searchSeveral (afterAB 2000) =
        .ok [{ FileID := "file-2", Filename := "b.txt", IsDeleted := false, CreatedAt := 2,
               Size := 600, MimeType := "text/plain" }] :=
  ⟨(search_returns_matching_files sampleQueryLib searchSeveral (afterAB 2000)
      (by decide) (by decide) (by decide) (by decide) (by decide) (by decide)).1,
    by decide⟩

end FileVault
